import Mathlib

/-!
WireGuard tunnel controller (Windows service back end)

A shallow embedding of `vpn/wireguard/wireguard_windows.go`.

The goroutine that runs a controller method is embedded as sequential code over
an explicit state `Sys`.  Everything outside that goroutine is an environment
`Env`, read at the index `Sys.step` of the next interaction with the outside:

* the answers of the service manager, of the shell and of the file system;
* how long each interaction takes (`latency`), which drives the clock `now`
  (nanoseconds; reading the clock takes no time);
* the controller methods that other goroutines call while this goroutine is
  descheduled (`others`), which happens at every `time.Sleep` and whenever the
  goroutine is parked on an empty channel.

Effects that leave the goroutine are appended to `Sys.trace` in program order.

Conventions of the embedding:

* a send on the event sink `stateChan` is recorded and never parks the sender
  (its consumer is outside this file);
* `_globalInitMutex` is recorded as `lock` and `unlock` effects; calls of other
  goroutines run to completion while this goroutine is descheduled, so the
  mutex is free whenever this goroutine asks for it;
* the control channel is a buffer of capacity 1 with the queue of parked
  senders; a send by this goroutine on a full buffer parks it for good, since
  it is the only receiver;
* loops that the source bounds by a deadline get the number of iterations they
  can make before it; the poll loop of `connect` and the wait of a paused
  connection are unbounded in the source and take an iteration budget.
-/

namespace WG

/-! ## Data model -/

/-- Signals of the control channel (`type operation int`, `pause = 0`, `resume = 1`). -/
inductive operation where
  | pause
  | resume
  deriving DecidableEq

/-- Go `net.IP`: `none` is the nil slice, `some bs` a slice of bytes. -/
abbrev IP := Option (List Nat)

/-- Length of an address as `len` sees it (the nil slice has length 0). -/
def IP.len : IP → Nat
  | none => 0
  | some bs => bs.length

/-- Bytes of an address (none for the nil slice). -/
def IP.bytes : IP → List Nat
  | none => []
  | some bs => bs

/-- The 12 byte header of an IPv4 address stored in 16 bytes. -/
def v4InV6Header : List Nat := [0, 0, 0, 0, 0, 0, 0, 0, 0, 0, 255, 255]

/-- Go `net.IP.Equal`: equal bytes, an IPv4 address and its 16 byte form being equal. -/
def IP.Equal (ip x : IP) : Bool :=
  if ip.len = x.len then decide (ip.bytes = x.bytes)
  else if ip.len = 4 ∧ x.len = 16 then
    decide (x.bytes.take 12 = v4InV6Header) && decide (ip.bytes = x.bytes.drop 12)
  else if ip.len = 16 ∧ x.len = 4 then
    decide (ip.bytes.take 12 = v4InV6Header) && decide (ip.bytes.drop 12 = x.bytes)
  else false

/-- Go `error` values that the controller produces or compares against. -/
inductive Err where
  | ERROR_SERVICE_DOES_NOT_EXIST
  | ERROR_SERVICE_DISABLED
  | ERROR_SERVICE_NOT_ACTIVE
  | ERROR_SERVICE_NOT_FOUND
  | other (code : Nat)
  | text (msg : String)
  | wrap (msg : String) (cause : Err)
  deriving DecidableEq

/-- Service state `svc.State`; `svc.Stopped = 1`, `svc.Running = 4`. -/
abbrev SvcState := Nat

/-- Constant `svc.Stopped`. -/
def svcStopped : SvcState := 1

/-- Constant `svc.Running`. -/
def svcRunning : SvcState := 4

/-- Modelled from the spec: the record type `vpn.StateInfo` sent on the event sink
(`state: Connecting|Connected|Reconnecting|Disconnected, clientIP?, hostIP?, reason?`);
the package `vpn` that declares it is not among the sources. -/
inductive StateInfo where
  | CONNECTING (description : String)
  | CONNECTED (clientIP serverIP : IP)
  | RECONNECTING (description : String)
  | DISCONNECTED (description : String)
  deriving DecidableEq

/-- A buffered Go channel of `operation`: the buffer and the values of the
goroutines parked in a send, oldest first. -/
structure Chan where
  cap : Nat
  buf : List operation
  sendq : List operation
  deriving DecidableEq

/-- Go `make(chan operation, 1)`. -/
def Chan.make : Chan := { cap := 1, buf := [], sendq := [] }

/-- Struct `internalVariables`. -/
structure internalVariables where
  manualDNS : IP
  isRestartRequired : Bool
  pauseRequireChan : Option Chan
  isDisconnectRequested : Bool
  isPaused : Bool
  deriving DecidableEq

/-- Connection parameters read by this file (`wg.connectParams`). -/
structure ConnectionParams where
  clientLocalIP : IP
  hostLocalIP : IP
  hostIP : IP
  deriving DecidableEq

/-- The receiver `wg *WireGuard`, with the fields this file reads. -/
structure WireGuard where
  binaryPath : String
  configFilePath : String
  tunnelName : String
  connectParams : ConnectionParams
  internals : internalVariables
  deriving DecidableEq

/-- Controller methods, as names for the trace. -/
inductive Fn where
  | installService
  | uninstallService
  | disconnectInternal
  deriving DecidableEq

/-- What the goroutine does to the outside, in program order. -/
inductive Effect where
  | call (fn : Fn)
  | lock
  | unlock
  | mgrConnect
  | mgrDisconnect
  | openService
  | interrogate
  | saveConfig (path : String)
  | removeFile (path : String)
  | exec (binary : String) (args : List String)
  | send (info : StateInfo)
  | recv (op : operation)
  | dnsSetManual (ip : IP)
  | dnsDeleteManual
  | info (msg : String)
  | warning (msg : String)
  | error (msg : String)
  deriving DecidableEq

/-- State of the embedding: the controller, the index of the next interaction,
the clock in nanoseconds and the effects so far. -/
structure Sys where
  wg : WireGuard
  step : Nat
  now : Nat
  trace : List Effect
  deriving DecidableEq

/-- A controller method called from another goroutine. -/
inductive Call where
  | pause
  | resume
  | disconnect
  | setManualDNS (addr : IP)
  | resetManualDNS
  deriving DecidableEq

/-- Answer of `service.Control(svc.Interrogate)`. -/
inductive Answer where
  | fail (err : Err)
  | state (st : SvcState)
  deriving DecidableEq

/-- The environment of the goroutine, indexed by interaction number. -/
structure Env where
  mgrConnect : Nat → Option Err
  openService : Nat → Option Err
  interrogate : Nat → Answer
  shellExec : Nat → Option Err
  saveConfig : Nat → Option Err
  dnsResult : Nat → Option Err
  latency : Nat → Nat
  others : Nat → List Call

/-- How a call on this goroutine ends: it returns, it is parked on a channel
for good, or the iteration budget of the embedding ran out while it was
still running. -/
inductive Res (α : Type) where
  | ret (a : α) (σ : Sys)
  | block (σ : Sys)
  | spin (σ : Sys)
  deriving DecidableEq

/-- Sequencing of calls. -/
def Res.andThen {α β : Type} (r : Res α) (k : α → Sys → Res β) : Res β :=
  match r with
  | .ret a σ => k a σ
  | .block σ => .block σ
  | .spin σ => .spin σ

/-- Final state of a call, however it ended. -/
def Res.sys {α : Type} : Res α → Sys
  | .ret _ σ => σ
  | .block σ => σ
  | .spin σ => σ

/-- The call returned. -/
def Res.returned {α : Type} : Res α → Bool
  | .ret _ _ => true
  | _ => false

/-- The call is parked on a channel operation. -/
def Res.blocked {α : Type} : Res α → Bool
  | .block _ => true
  | _ => false

/-! ## Primitive steps -/

/-- Record an effect. -/
def Sys.emit (σ : Sys) (x : Effect) : Sys :=
  { σ with trace := σ.trace ++ [x] }

/-- One interaction with the outside has completed. -/
def Sys.tick (σ : Sys) (e : Env) : Sys :=
  { σ with step := σ.step + 1, now := σ.now + e.latency σ.step }

/-- Update the controller fields. -/
def Sys.setInternals (σ : Sys) (i : internalVariables) : Sys :=
  { σ with wg := { σ.wg with internals := i } }

/-- Duration constants in nanoseconds (`time.Duration`). -/
def millisecond : Nat := 1000000

/-- One second. -/
def second : Nat := 1000000000

/-- One minute. -/
def minute : Nat := 60 * second

/-- Constant `_waitServiceInstallTimeout`. -/
def _waitServiceInstallTimeout : Nat := minute * 3

/-- Constant `_waitServiceStartTimeout`. -/
def _waitServiceStartTimeout : Nat := minute * 5

namespace WireGuard

/-- Method `getTunnelName` (the base name of the configuration file without
its extension, kept as a field). -/
def getTunnelName (σ : Sys) : String := σ.wg.tunnelName

/-- Method `getServiceName`. -/
def getServiceName (σ : Sys) : String := "WireGuardTunnel$" ++ getTunnelName σ

/-- Method `isPaused`. -/
def isPaused (σ : Sys) : Bool := σ.wg.internals.isPaused

/-- Method `requireOperation`: `ch <- o` when the channel exists.  A send on a
channel whose buffer is full parks the caller. -/
def requireOperation (o : operation) (σ : Sys) : Res (Option Err) :=
  match σ.wg.internals.pauseRequireChan with
  | none => .ret none σ
  | some ch =>
    if ch.buf.length < ch.cap then
      .ret none (σ.setInternals
        { σ.wg.internals with pauseRequireChan := some { ch with buf := ch.buf ++ [o] } })
    else .block σ

/-- Method `pause`. -/
def pause (σ : Sys) : Res (Option Err) :=
  (requireOperation .pause σ).andThen fun _ σ₁ => .ret none σ₁

/-- Method `resume`. -/
def resume (σ : Sys) : Res (Option Err) :=
  (requireOperation .resume σ).andThen fun _ σ₁ => .ret none σ₁

/-! ## Interactions with the outside -/

/-- Go `mgr.Connect()`. -/
def mgrConnect (e : Env) (σ : Sys) : Option Err × Sys :=
  (e.mgrConnect σ.step, (σ.emit .mgrConnect).tick e)

/-- Go `m.OpenService(serviceName)`; only the error is kept. -/
def openService (e : Env) (σ : Sys) : Option Err × Sys :=
  (e.openService σ.step, (σ.emit .openService).tick e)

/-- Go `service.Control(svc.Interrogate)`. -/
def controlInterrogate (e : Env) (σ : Sys) : Answer × Sys :=
  (e.interrogate σ.step, (σ.emit .interrogate).tick e)

/-- Go `shell.Exec(nil, wg.binaryPath, args...)`. -/
def shellExec (e : Env) (args : List String) (σ : Sys) : Option Err × Sys :=
  (e.shellExec σ.step, (σ.emit (.exec σ.wg.binaryPath args)).tick e)

/-- Go `time.Since(t)` as a duration. -/
def since (σ : Sys) (t : Nat) : Int := (σ.now : Int) - (t : Int)

/-- Go `int64` arithmetic: the value of `x` after wrapping to 64 bits. -/
def wrapInt64 (x : Int) : Int := (x + 2 ^ 63) % 2 ^ 64 - 2 ^ 63

/-- Method `getServiceStatus`. -/
def getServiceStatus (e : Env) (σ : Sys) : (Bool × SvcState × Option Err) × Sys :=
  match openService e σ with
  | (some err, σ₁) => ((false, 0, some err), σ₁)
  | (none, σ₁) =>
    match controlInterrogate e σ₁ with
    | (.fail err, σ₂) => ((true, 0, some err), σ₂)
    | (.state st, σ₂) => ((true, st, none), σ₂)

/-- Method `isServiceRunning`. -/
def isServiceRunning (e : Env) (σ : Sys) : (Bool × Option Err) × Sys :=
  match mgrConnect e σ with
  | (some err, σ₁) => ((false, some err), σ₁)
  | (none, σ₁) =>
    match openService e σ₁ with
    | (some _, σ₂) => ((false, none), σ₂.emit .mgrDisconnect)
    | (none, σ₂) =>
      match getServiceStatus e σ₂ with
      | ((_, _, some err), σ₃) => ((false, some err), σ₃.emit .mgrDisconnect)
      | ((_, stat, none), σ₃) =>
        if stat = svcRunning then ((true, none), σ₃.emit .mgrDisconnect)
        else ((false, none), σ₃.emit .mgrDisconnect)

/-- Method `isServiceInstalled`. -/
def isServiceInstalled (e : Env) (σ : Sys) : (Bool × Option Err) × Sys :=
  match mgrConnect e σ with
  | (some err, σ₁) =>
    ((false, some (.wrap "failed to connect windows service manager" err)), σ₁)
  | (none, σ₁) =>
    match openService e σ₁ with
    | (some _, σ₂) => ((false, none), σ₂.emit .mgrDisconnect)
    | (none, σ₂) => ((true, none), σ₂.emit .mgrDisconnect)

/-- Method `setManualDNS`. -/
def setManualDNS (addr : IP) (e : Env) (σ : Sys) : Option Err × Sys :=
  if addr.Equal σ.wg.internals.manualDNS then (none, σ)
  else
    match isServiceRunning e (σ.setInternals { σ.wg.internals with manualDNS := addr }) with
    | ((runnig, err), σ₁) =>
      if err.isSome || runnig == false then (err, σ₁)
      else
        (none, (σ₁.emit (.info "Connection will be restarted due to DNS server IP configuration change...")).setInternals
          { σ₁.wg.internals with isRestartRequired := true })

/-- Method `resetManualDNS`. -/
def resetManualDNS (e : Env) (σ : Sys) : Option Err × Sys :=
  if σ.wg.internals.manualDNS = none then (none, σ)
  else
    match isServiceRunning e (σ.setInternals { σ.wg.internals with manualDNS := none }) with
    | ((runnig, err), σ₁) =>
      if err.isSome || runnig == false then (err, σ₁)
      else
        (none, (σ₁.emit (.info "Connection will be restarted due to DNS server IP configuration change...")).setInternals
          { σ₁.wg.internals with isRestartRequired := true })

/-! ## Other goroutines -/

/-- A goroutine whose send found the buffer full waits in the send queue. -/
def parkSender (o : operation) (σ : Sys) : Sys :=
  match σ.wg.internals.pauseRequireChan with
  | none => σ
  | some ch =>
    σ.setInternals { σ.wg.internals with pauseRequireChan := some { ch with sendq := ch.sendq ++ [o] } }

/-- A call of a controller method by another goroutine, as far as it touches
the controller.  A caller whose send parks stays in the send queue.  Of
`disconnect` this runs `isDisconnectRequested = true` and the
`requireOperation(resume)` of `disconnectInternal`; the `uninstallService` that
follows runs on the caller and talks to the service manager only, whose
answers are those of `Env`. -/
def applyCall (e : Env) (σ : Sys) : Call → Sys
  | .pause =>
    match pause σ with
    | .ret _ σ₁ => σ₁
    | .block σ₁ => parkSender .pause σ₁
    | .spin σ₁ => σ₁
  | .resume =>
    match resume σ with
    | .ret _ σ₁ => σ₁
    | .block σ₁ => parkSender .resume σ₁
    | .spin σ₁ => σ₁
  | .disconnect =>
    match requireOperation .resume
        (σ.setInternals { σ.wg.internals with isDisconnectRequested := true }) with
    | .ret _ σ₁ => σ₁
    | .block σ₁ => parkSender .resume σ₁
    | .spin σ₁ => σ₁
  | .setManualDNS addr => (setManualDNS addr e σ).2
  | .resetManualDNS => (resetManualDNS e σ).2

/-- The calls of other goroutines, in order. -/
def runOthers (e : Env) (calls : List Call) (σ : Sys) : Sys :=
  calls.foldl (applyCall e) σ

/-- This goroutine is descheduled: time passes and the other goroutines run. -/
def yield (e : Env) (σ : Sys) : Sys :=
  runOthers e (e.others σ.step) (σ.tick e)

/-- Go `time.Sleep(d)`. -/
def sleep (e : Env) (d : Nat) (σ : Sys) : Sys :=
  yield e { σ with now := σ.now + d }

/-- Receive without waiting: the case `<-wg.internals.pauseRequireChan` of a
`select` with a `default`.  Taking a value lets the oldest parked sender in. -/
def tryRecv (σ : Sys) : Option (operation × Sys) :=
  match σ.wg.internals.pauseRequireChan with
  | none => none
  | some ch =>
    match ch.buf with
    | [] => none
    | o :: rest =>
      some (o, (σ.setInternals { σ.wg.internals with
        pauseRequireChan := some { ch with buf := rest ++ ch.sendq.take 1, sendq := ch.sendq.drop 1 } }).emit
          (.recv o))

/-- Receive `<-wg.internals.pauseRequireChan`: when nothing is buffered the
goroutine is parked until another goroutine sends; `none` when none does. -/
def recv (e : Env) (σ : Sys) : Option (operation × Sys) :=
  match tryRecv σ with
  | some r => some r
  | none => tryRecv (yield e σ)

/-! ## Uninstall -/

/-- Local variables of the wait loop of `uninstallService`. -/
structure RetryVars where
  lastUninstallRetryTime : Nat
  nextUninstallRetryTime : Int
  deriving DecidableEq

/-- How one pass through the body of the wait loop of `uninstallService` ends. -/
inductive RetryStep where
  | uninstalled
  | failed (err : Err)
  | again (v : RetryVars)
  deriving DecidableEq

/-- Body of the wait loop of `uninstallService`. -/
def uninstallRetryBody (e : Env) (v : RetryVars) (σ : Sys) : RetryStep × Sys :=
  match getServiceStatus e σ with
  | ((isServFound, state, err), σ₁) =>
    if err = some .ERROR_SERVICE_DOES_NOT_EXIST then (.uninstalled, σ₁)
    else if isServFound = true ∧ state = svcRunning ∧ since σ₁ v.lastUninstallRetryTime > v.nextUninstallRetryTime then
      match shellExec e ["/uninstalltunnelservice", getTunnelName σ₁]
          (σ₁.emit (.info "Retry: uninstalling service...")) with
      | (some err₁, σ₂) => (.failed (.wrap "failed to uninstall WireGuard service" err₁), σ₂)
      | (none, σ₂) =>
        (.again { lastUninstallRetryTime := σ₂.now,
                  nextUninstallRetryTime := wrapInt64 (v.nextUninstallRetryTime * 2) }, σ₂)
    else (.again v, σ₁)

/-- How the wait loop of `uninstallService` ends; `running` when the iteration
budget of the embedding ran out first. -/
inductive WaitEnd where
  | uninstalled
  | deadline
  | failed (err : Err)
  | running
  deriving DecidableEq

/-- Outcome of the wait loop of `uninstallService` with its local variables. -/
structure WaitOut where
  ended : WaitEnd
  vars : RetryVars
  sys : Sys
  deriving DecidableEq

/-- The wait loop of `uninstallService`:
`for started := time.Now(); time.Since(started) < _waitServiceInstallTimeout && isUninstalled == false; time.Sleep(50)`. -/
def uninstallWait : Nat → Env → Nat → RetryVars → Sys → WaitOut
  | 0, _, _, v, σ => { ended := .running, vars := v, sys := σ }
  | fuel + 1, e, started, v, σ =>
    if since σ started < (_waitServiceInstallTimeout : Int) then
      match uninstallRetryBody e v σ with
      | (.uninstalled, σ₁) => { ended := .uninstalled, vars := v, sys := σ₁ }
      | (.failed err, σ₁) => { ended := .failed err, vars := v, sys := σ₁ }
      | (.again v₁, σ₁) => uninstallWait fuel e started v₁ (sleep e 50 σ₁)
    else { ended := .deadline, vars := v, sys := σ }

/-- Iterations that the wait loop of `uninstallService` can make before its
deadline: every pass sleeps 50 ns or more. -/
def uninstallWaitFuel : Nat := _waitServiceInstallTimeout / 50 + 1

/-- Statements of `uninstallService` after `defer m.Disconnect()`. -/
def uninstallConnected (e : Env) (σ : Sys) : Res (Option Err) :=
  match openService e σ with
  | (some _, σ₁) => .ret none σ₁
  | (none, σ₁) =>
    match shellExec e ["/uninstalltunnelservice", getTunnelName σ₁]
        (σ₁.emit (.info "Uninstalling service...")) with
    | (some err, σ₂) => .ret (some (.wrap "failed to uninstall WireGuard service" err)) σ₂
    | (none, σ₂) =>
      let out := uninstallWait uninstallWaitFuel e σ₂.now
          { lastUninstallRetryTime := σ₂.now, nextUninstallRetryTime := 3 * second } σ₂
      match out.ended with
      | .uninstalled => .ret none (out.sys.emit (.info "Service uninstalled"))
      | .deadline => .ret (some (.text "service not uninstalled (timeout)")) out.sys
      | .failed err => .ret (some err) out.sys
      | .running => .spin out.sys

/-- Method `uninstallService`. -/
def uninstallService (e : Env) (σ : Sys) : Res (Option Err) :=
  match mgrConnect e ((σ.emit (.call .uninstallService)).emit .lock) with
  | (some err, σ₁) =>
    .ret (some (.wrap "failed to connect windows service manager" err)) (σ₁.emit .unlock)
  | (none, σ₁) =>
    (uninstallConnected e σ₁).andThen fun r σ₂ =>
      .ret r ((σ₂.emit .mgrDisconnect).emit .unlock)

/-- Method `disconnectInternal`. -/
def disconnectInternal (e : Env) (σ : Sys) : Res (Option Err) :=
  (requireOperation .resume ((σ.emit (.call .disconnectInternal)).emit (.info "Disconnecting..."))).andThen
    fun _ σ₁ => uninstallService e σ₁

/-- Method `disconnect`. -/
def disconnect (e : Env) (σ : Sys) : Res (Option Err) :=
  disconnectInternal e (σ.setInternals { σ.wg.internals with isDisconnectRequested := true })

/-- Method `init`. -/
def init (e : Env) (σ : Sys) : Res (Option Err) :=
  match isServiceInstalled e σ with
  | ((installed, err), σ₁) =>
    if installed == false || err.isSome then .ret err σ₁
    else
      uninstallService e
        (σ₁.emit (.warning "The IVPN WireGuard service is installed (it is not expected). Uninstalling it..."))

/-! ## Install -/

/-- First wait loop of `installService`: until the service can be opened. -/
def waitInstalled : Nat → Env → Nat → Sys → Res Bool
  | 0, _, _, σ => .spin σ
  | fuel + 1, e, started, σ =>
    if since σ started < (_waitServiceInstallTimeout : Int) then
      match openService e σ with
      | (none, σ₁) => .ret true (σ₁.emit (.info "Service installed"))
      | (some _, σ₁) => waitInstalled fuel e started (sleep e (10 * millisecond) σ₁)
    else .ret false σ

/-- How the second wait loop of `installService` ends. -/
inductive StartEnd where
  | started
  | deadline
  | failed (err : Err)
  deriving DecidableEq

/-- Second wait loop of `installService`: until the service is running. -/
def waitStarted : Nat → Env → Nat → Sys → Res StartEnd
  | 0, _, _, σ => .spin σ
  | fuel + 1, e, started, σ =>
    if since σ started < (_waitServiceStartTimeout : Int) then
      match getServiceStatus e σ with
      | ((_, _, some err), σ₁) => .ret (.failed (.wrap "service start error" err)) σ₁
      | ((_, stat, none), σ₁) =>
        if stat = svcRunning then .ret .started (σ₁.emit (.info "Service started"))
        else if stat = svcStopped then .ret (.failed (.text "WireGuard service stopped")) σ₁
        else waitStarted fuel e started (sleep e (10 * millisecond) σ₁)
    else .ret .deadline σ

/-- Iterations the first wait loop can make before its deadline (10 ms sleep). -/
def installWaitFuel : Nat := _waitServiceInstallTimeout / (10 * millisecond) + 1

/-- Iterations the second wait loop can make before its deadline (10 ms sleep). -/
def startWaitFuel : Nat := _waitServiceStartTimeout / (10 * millisecond) + 1

/-- What the body of `installService` hands to its deferred calls: the returned
error and the flags `isInstalled`, `isStarted`. -/
structure InstallOut where
  err : Option Err
  isInstalled : Bool
  isStarted : Bool
  deriving DecidableEq

/-- Statements of `installService` after `defer m.Disconnect()`. -/
def installConnected (e : Env) (σ : Sys) : Res InstallOut :=
  (waitInstalled installWaitFuel e σ.now (σ.emit (.info "Waiting for service install..."))).andThen
    fun isInstalled σ₁ =>
      if isInstalled = false then
        .ret { err := some (.text "service not installed (timeout)"), isInstalled := false, isStarted := false } σ₁
      else
        (waitStarted startWaitFuel e σ₁.now (σ₁.emit (.info "Waiting for service start..."))).andThen
          fun r σ₂ =>
            match r with
            | .failed err => .ret { err := some err, isInstalled := true, isStarted := false } σ₂
            | .deadline =>
              .ret { err := some (.text "service not started (timeout)"), isInstalled := true, isStarted := false } σ₂
            | .started =>
              let σ₃ := (σ₂.emit (.info "Connection started")).emit
                (.send (.CONNECTED σ₂.wg.connectParams.clientLocalIP σ₂.wg.connectParams.hostIP))
              match σ₂.wg.internals.manualDNS with
              | some bs =>
                .ret { err := none, isInstalled := true, isStarted := true }
                  ((σ₃.emit (.dnsSetManual (some bs))).tick e)
              | none =>
                .ret { err := none, isInstalled := true, isStarted := true }
                  ((σ₃.emit .dnsDeleteManual).tick e)

/-- Statements of `installService` after `defer os.Remove(wg.configFilePath)`.
The configuration file is written by `generateAndSaveConfigFile`, which is not
in this file: the environment says whether it succeeds. -/
def installLocked (e : Env) (σ : Sys) : Res InstallOut :=
  let r := e.saveConfig σ.step
  let σ₁ := (σ.emit (.saveConfig σ.wg.configFilePath)).tick e
  match r with
  | some err =>
    .ret { err := some (.wrap "failed to save config file" err), isInstalled := false, isStarted := false } σ₁
  | none =>
    match shellExec e ["/installtunnelservice", σ₁.wg.configFilePath]
        (σ₁.emit (.info "Installing service...")) with
    | (some err, σ₂) =>
      .ret { err := some (.wrap "failed to install WireGuard service" err), isInstalled := false, isStarted := false } σ₂
    | (none, σ₂) =>
      match mgrConnect e σ₂ with
      | (some err, σ₃) =>
        .ret { err := some (.wrap "failed to connect windows service manager" err),
               isInstalled := false, isStarted := false } σ₃
      | (none, σ₃) =>
        (installConnected e σ₃).andThen fun out σ₄ => .ret out (σ₄.emit .mgrDisconnect)

/-- Method `installService`.  Its deferred calls run in reverse order of
registration: `os.Remove`, the unlock of `_globalInitMutex`, then the cleanup
that calls `disconnectInternal` when `isStarted == false || isInstalled == false`. -/
def installService (e : Env) (σ : Sys) : Res (Option Err) :=
  (installLocked e (((σ.emit (.call .installService)).emit .lock).emit (.info "Connecting..."))).andThen
    fun out σ₁ =>
      let σ₂ := ((σ₁.emit (.removeFile σ₁.wg.configFilePath)).tick e).emit .unlock
      if out.isStarted == false || out.isInstalled == false then
        (disconnectInternal e (σ₂.emit (.info "Failed to install service. Uninstalling..."))).andThen
          fun err σ₃ =>
            match err with
            | some _ => .ret out.err (σ₃.emit (.error "Failed to uninstall service after unsuccessful connect: "))
            | none => .ret out.err σ₃
      else .ret out.err σ₂

/-! ## Connect -/

/-- How one pass through the body of the `for` loop of `connect` ends: it
reaches the end of the body (`next`, the post statement sleeps and the loop goes
on), it leaves the loop (`leave`), or `connect` returns (`exit`). -/
inductive Flow where
  | next
  | leave
  | exit (err : Err)
  deriving DecidableEq

/-- The restart check at the end of the loop body of `connect`
(`if wg.internals.isRestartRequired`). -/
def restartBranch (e : Env) (σ : Sys) : Res Flow :=
  if σ.wg.internals.isRestartRequired then
    match uninstallService e
        (((σ.setInternals { σ.wg.internals with isRestartRequired := false }).emit
          (.send (.RECONNECTING "Reconnecting with new connection parameters"))).emit
            (.info "Restarting...")) with
    | .ret (some _) σ₁ =>
      .ret .next (σ₁.emit (.error "failed to restart connection (disconnetion error):"))
    | .ret none σ₁ =>
      match installService e σ₁ with
      | .ret (some _) σ₂ =>
        .ret .next (σ₂.emit (.error "failed to restart connection (new connetion error):"))
      | .ret none σ₂ => .ret .next (σ₂.emit (.info "Connection restarted"))
      | .block σ₂ => .block σ₂
      | .spin σ₂ => .spin σ₂
    | .block σ₁ => .block σ₁
    | .spin σ₁ => .spin σ₁
  else .ret .next σ

/-- The wait of a paused connection:
`for { toDoOperation = <-ch; if toDoOperation != pause { break } }`. -/
def pausedWait : Nat → Env → Sys → Res operation
  | 0, _, σ => .spin σ
  | fuel + 1, e, σ =>
    match recv e σ with
    | none => .block (yield e σ)
    | some (.pause, σ₁) => pausedWait fuel e σ₁
    | some (.resume, σ₁) => .ret .resume σ₁

/-- The case `toDoOperation := <-wg.internals.pauseRequireChan` of the `select`
once a `pause` was taken, up to the end of the `select`.  A `break` in it
leaves the `select` only, so the restart check follows unless `connect`
returns.  The second component counts the deferred `isPaused = false`. -/
def pauseBranch (fuel : Nat) (e : Env) (defers : Nat) (σ : Sys) : Res (Flow × Nat) :=
  match uninstallService e
      ((σ.setInternals { σ.wg.internals with isPaused := true }).emit (.info "Pausing...")) with
  | .ret (some err) σ₁ =>
    .ret (.exit err, defers + 1) (σ₁.emit (.error "failed to pause connection (disconnetion error):"))
  | .ret none σ₁ =>
    match pausedWait fuel e (σ₁.emit (.info "Paused")) with
    | .ret toDoOperation σ₂ =>
      if σ₂.wg.internals.isDisconnectRequested then .ret (.next, defers + 1) σ₂
      else if toDoOperation = .resume then
        match installService e (σ₂.emit (.info "Resuming...")) with
        | .ret (some err) σ₃ =>
          .ret (.exit err, defers + 1) (σ₃.emit (.error "failed to resume connection (new connetion error):"))
        | .ret none σ₃ => .ret (.next, defers + 1) (σ₃.emit (.info "Resumed"))
        | .block σ₃ => .block σ₃
        | .spin σ₃ => .spin σ₃
      else .ret (.next, defers + 1) σ₂
    | .block σ₂ => .block σ₂
    | .spin σ₂ => .spin σ₂
  | .block σ₁ => .block σ₁
  | .spin σ₁ => .spin σ₁

/-- The `select` of the loop body of `connect`. -/
def selectBranch (fuel : Nat) (e : Env) (defers : Nat) (σ : Sys) : Res (Flow × Nat) :=
  match tryRecv σ with
  | some (.pause, σ₁) => pauseBranch fuel e defers σ₁
  | some (.resume, σ₁) => .ret (.next, defers) σ₁
  | none => .ret (.next, defers) σ

/-- Body of the `for` loop of `connect`. -/
def pollBody (fuel : Nat) (e : Env) (defers : Nat) (σ : Sys) : Res (Flow × Nat) :=
  match getServiceStatus e σ with
  | ((_, stat, err), σ₁) =>
    if err = some .ERROR_SERVICE_DOES_NOT_EXIST ∨ err = some .ERROR_SERVICE_DISABLED ∨
        err = some .ERROR_SERVICE_NOT_ACTIVE ∨ err = some .ERROR_SERVICE_NOT_FOUND then
      .ret (.leave, defers) σ₁
    else if stat = svcStopped then .ret (.leave, defers) σ₁
    else
      match selectBranch fuel e defers σ₁ with
      | .ret (.next, d) σ₂ => (restartBranch e σ₂).andThen fun f σ₃ => .ret (f, d) σ₃
      | r => r

/-- The `for ; ; time.Sleep(time.Millisecond * 50)` loop of `connect`; the
result is the value `connect` returns and the number of deferred
`isPaused = false`. -/
def pollLoop : Nat → Env → Nat → Sys → Res (Option Err × Nat)
  | 0, _, _, σ => .spin σ
  | fuel + 1, e, defers, σ =>
    match pollBody fuel e defers σ with
    | .ret (.next, d) σ₁ => pollLoop fuel e d (sleep e (50 * millisecond) σ₁)
    | .ret (.leave, d) σ₁ => .ret (none, d) σ₁
    | .ret (.exit err, d) σ₁ => .ret (some err, d) σ₁
    | .block σ₁ => .block σ₁
    | .spin σ₁ => .spin σ₁

/-- Statements of `connect` after `defer m.Disconnect()`, with the deferred
`isPaused = false` of the loop, which run when `connect` returns. -/
def connectManaged (fuel : Nat) (e : Env) (σ : Sys) : Res (Option Err) :=
  match installService e σ with
  | .ret (some err) σ₁ => .ret (some (.wrap "failed to install windows service" err)) σ₁
  | .ret none σ₁ =>
    if σ₁.wg.internals.isDisconnectRequested then
      uninstallService e (σ₁.emit (.info "Disconnection was requested"))
    else
      (pollLoop fuel e 0
        (σ₁.setInternals { σ₁.wg.internals with pauseRequireChan := some Chan.make })).andThen
        fun r σ₂ =>
          if 0 < r.2 then .ret r.1 (σ₂.setInternals { σ₂.wg.internals with isPaused := false })
          else .ret r.1 σ₂
  | .block σ₁ => .block σ₁
  | .spin σ₁ => .spin σ₁

/-- Statements of `connect` after its first `defer`. -/
def connectGuarded (fuel : Nat) (e : Env) (σ : Sys) : Res (Option Err) :=
  (disconnectInternal e σ).andThen fun err σ₁ =>
    match err with
    | some err₁ => .ret (some (.wrap "failed to disconnect before new connection" err₁)) σ₁
    | none =>
      match mgrConnect e σ₁ with
      | (some err₁, σ₂) => .ret (some (.wrap "failed to connect to windows service manager " err₁)) σ₂
      | (none, σ₂) =>
        (connectManaged fuel e σ₂).andThen fun r σ₃ => .ret r (σ₃.emit .mgrDisconnect)

/-- The first deferred function of `connect`. -/
def connectDeferred (e : Env) (σ : Sys) : Sys :=
  let σ₁ := ((σ.setInternals { σ.wg.internals with pauseRequireChan := none }).emit .dnsDeleteManual).tick e
  match e.dnsResult σ.step with
  | some _ => (σ₁.emit (.error "dns.DeleteManual")).emit (.info "Connection stopped")
  | none => σ₁.emit (.info "Connection stopped")

/-- Method `connect`; `fuel` bounds the passes through its loops. -/
def connect (fuel : Nat) (e : Env) (σ : Sys) : Res (Option Err) :=
  if σ.wg.internals.isDisconnectRequested then
    .ret (some (.text "disconnection already requested for this object. To make a new connection, please, initialize new one")) σ
  else
    (connectGuarded fuel e σ).andThen fun r σ₁ => .ret r (connectDeferred e σ₁)

end WireGuard

open WireGuard

/-! ## Observations on states and traces -/

/-- Effects that status queries and the calls of other goroutines produce. -/
def Effect.background : Effect → Bool
  | .mgrConnect => true
  | .mgrDisconnect => true
  | .openService => true
  | .interrogate => true
  | .info _ => true
  | .warning _ => true
  | .error _ => true
  | _ => false

/-- Effects other than a call of a controller method, the taking or releasing
of `_globalInitMutex` and a receive from the control channel. -/
def Effect.inner : Effect → Bool
  | .call _ => false
  | .lock => false
  | .unlock => false
  | .recv _ => false
  | _ => true

/-- Inner effects that send nothing on the event sink and take nothing from the
control channel. -/
def Effect.silent : Effect → Bool
  | .call _ => false
  | .lock => false
  | .unlock => false
  | .send _ => false
  | .recv _ => false
  | _ => true

/-- The records sent on the event sink, in order. -/
def events (τ : List Effect) : List StateInfo :=
  τ.filterMap fun x => match x with
    | .send i => some i
    | _ => none

/-- Number of calls of a controller method on this goroutine. -/
def calls (fn : Fn) (τ : List Effect) : Nat :=
  τ.count (.call fn)

/-- The signals this goroutine has taken from the control channel, in order. -/
def received (τ : List Effect) : List operation :=
  τ.filterMap fun x => match x with
    | .recv o => some o
    | _ => none

/-- Number of commands run through the shell. -/
def execs (τ : List Effect) : Nat :=
  τ.countP fun x => match x with
    | .exec _ _ => true
    | _ => false

/-- The state `σ'` is reached from `σ`: the trace grew by effects satisfying
`P`, the clock did not go back and the connection parameters are the same. -/
structure Grows (P : Effect → Bool) (σ σ' : Sys) : Prop where
  seg : ∃ seg, σ'.trace = σ.trace ++ seg ∧ ∀ x ∈ seg, P x = true
  now : σ.now ≤ σ'.now
  params : σ'.wg.connectParams = σ.wg.connectParams

/-- No other goroutine calls the controller. -/
def Env.quiet (e : Env) : Prop := ∀ k, e.others k = []

/-- What the body of `installService` guarantees to the deferred calls: it adds
inner effects only, it reports no error exactly when both flags are set, and it
sends `CONNECTED` exactly when it reports no error. -/
structure InstallShape (τ : Sys) (out : InstallOut) (σ' : Sys) : Prop where
  grows : Grows Effect.inner τ σ'
  flags : out.err = none ↔ (out.isStarted = true ∧ out.isInstalled = true)
  sent : events σ'.trace = events τ.trace ++
    (if out.err = none then
      [StateInfo.CONNECTED τ.wg.connectParams.clientLocalIP τ.wg.connectParams.hostIP] else [])

/-- A capacity 1 channel on which the signals `ops` wait to be taken: the first
is in the buffer, the others are with their parked senders. -/
def Chan.pending (ops : List operation) : Chan :=
  { cap := 1, buf := ops.take 1, sendq := ops.drop 1 }

/-- The state once this goroutine has taken the signals `ops` from the control
channel, on which `rest` still wait. -/
def Sys.took (σ : Sys) (ops rest : List operation) : Sys :=
  { σ.setInternals { σ.wg.internals with pauseRequireChan := some (Chan.pending rest) } with
    trace := σ.trace ++ ops.map Effect.recv }

/-- Calls of `pause()` and `resume()` made one after the other by one caller;
the result lists what each call returned. -/
def callAll : List operation → Sys → Res (List (Option Err))
  | [], σ => .ret [] σ
  | o :: os, σ =>
    (match o with
      | .pause => WireGuard.pause σ
      | .resume => WireGuard.resume σ).andThen fun r σ₁ =>
        (callAll os σ₁).andThen fun rs σ₂ => .ret (r :: rs) σ₂

/-- Invariant of the wait loop of `uninstallService` after `k` repeated
commands: the interval is `3 s * 2 ^ k`, the last command was issued at least
`3 s * (2 ^ k - 1)` after the loop started and not in the future, and `k ≤ 6`. -/
structure RetryInv (started k : Nat) (v : RetryVars) (σ : Sys) : Prop where
  interval : v.nextUninstallRetryTime = ((3 * second * 2 ^ k : Nat) : Int)
  spaced : started + 3 * second * (2 ^ k - 1) ≤ v.lastUninstallRetryTime
  past : v.lastUninstallRetryTime ≤ σ.now
  few : k ≤ 6

/-- The guard of the repeated command as the pass from `σ` evaluates it: the
service was found, it is running, and more than the current interval has
passed since the last command. -/
def retryGuard (e : Env) (v : RetryVars) (σ : Sys) : Prop :=
  (getServiceStatus e σ).1.1 = true ∧ (getServiceStatus e σ).1.2.1 = svcRunning ∧
    since (getServiceStatus e σ).2 v.lastUninstallRetryTime > v.nextUninstallRetryTime

/-- How many commands the wait loop has issued that did not update its
variables: one when it ended on a failed command. -/
def WireGuard.WaitEnd.lost : WaitEnd → Nat
  | .failed _ => 1
  | _ => 0

/-! ## Sample inputs -/

/-- An IPv4 address in its 4 byte form. -/
def ip4 (a b c d : Nat) : IP := some [a, b, c, d]

/-- Controller fields of a new controller. -/
def freshInternals : internalVariables :=
  { manualDNS := none, isRestartRequired := false, pauseRequireChan := none,
    isDisconnectRequested := false, isPaused := false }

/-- Parameters `client=10.0.0.2, host=10.0.0.1, hostPublic=1.2.3.4`. -/
def demoParams : ConnectionParams :=
  { clientLocalIP := ip4 10 0 0 2, hostLocalIP := ip4 10 0 0 1, hostIP := ip4 1 2 3 4 }

/-- A new controller before any interaction. -/
def freshSys (p : ConnectionParams) : Sys :=
  { wg := { binaryPath := "wireguard.exe", configFilePath := "IVPN.conf", tunnelName := "IVPN",
            connectParams := p, internals := freshInternals },
    step := 0, now := 0, trace := [] }

/-- A controller whose control channel holds one signal that the loop has not taken yet. -/
def fullChanSys : Sys :=
  (freshSys demoParams).setInternals
    { freshInternals with pauseRequireChan := some { cap := 1, buf := [.pause], sendq := [] } }

/-- An environment in which every query finds the service installed and running
and every command succeeds at once. -/
def runningEnv : Env :=
  { mgrConnect := fun _ => none,
    openService := fun _ => none,
    interrogate := fun _ => .state svcRunning,
    shellExec := fun _ => none,
    saveConfig := fun _ => none,
    dnsResult := fun _ => none,
    latency := fun _ => 1000,
    others := fun _ => [] }

/-- An environment in which the configuration file cannot be written and no
service is installed. -/
def noConfigEnv : Env :=
  { runningEnv with
    saveConfig := fun _ => some (.other 5),
    openService := fun _ => some .ERROR_SERVICE_DOES_NOT_EXIST }

/-- A connected controller on which a restart was requested. -/
def restartSys : Sys :=
  (freshSys demoParams).setInternals
    { freshInternals with isRestartRequired := true, pauseRequireChan := some Chan.make }

/-- An environment in which the service manager cannot be reached. -/
def mgrDownEnv : Env :=
  { runningEnv with mgrConnect := fun _ => some (.other 1722) }

/-- An environment in which no service is installed at first, every command
succeeds, and the service is found installed and running at the first query
after the install command. -/
def installEnv : Env :=
  { runningEnv with
    openService := fun k => if k = 1 then some .ERROR_SERVICE_DOES_NOT_EXIST else none }

/-- An environment for one pause and resume of a connected controller: the
service runs, is gone at the first query after the uninstall command, and
runs again after the install command. -/
def pauseResumeEnv : Env :=
  { runningEnv with
    openService := fun k => if k = 5 then some .ERROR_SERVICE_DOES_NOT_EXIST else none }

/-- A connected controller whose control channel holds `Pause, Pause, Resume`:
the first signal is buffered, the senders of the other two are parked. -/
def twoPausesSys : Sys :=
  (freshSys demoParams).setInternals
    { freshInternals with pauseRequireChan := some (Chan.pending [.pause, .pause, .resume]) }

/-- The environment of this run: `connect` on a new controller finds no stale
service and installs; while the loop sleeps after its first poll another
goroutine calls `pause()`; the uninstall of the pause succeeds; while the loop
is paused another goroutine calls `resume()`; the install succeeds and the
service keeps running. -/
def pauseThenResumeEnv : Env :=
  { runningEnv with
    openService := fun k => if k = 1 ∨ k = 19 then some .ERROR_SERVICE_DOES_NOT_EXIST else none,
    others := fun k => if k = 13 then [.pause] else if k = 20 then [.resume] else [] }

/-- The environment of this run: `connect` on a new controller installs the
service; while the loop sleeps after its first poll another goroutine calls
`setManualDNS(9.9.9.9)` and `pause()`; the uninstall of the pause succeeds;
while the loop is paused another goroutine calls `disconnect()`. -/
def dnsPauseDisconnectEnv : Env :=
  { runningEnv with
    openService := fun k =>
      if k = 1 ∨ k = 23 ∨ k = 26 then some .ERROR_SERVICE_DOES_NOT_EXIST else none,
    others := fun k =>
      if k = 13 then [.setManualDNS (ip4 9 9 9 9), .pause]
      else if k = 24 then [.disconnect] else [] }

/-- The same run without the `setManualDNS` call. -/
def pauseDisconnectEnv : Env :=
  { runningEnv with
    openService := fun k =>
      if k = 1 ∨ k = 19 ∨ k = 22 then some .ERROR_SERVICE_DOES_NOT_EXIST else none,
    others := fun k => if k = 13 then [.pause] else if k = 20 then [.disconnect] else [] }

/-- An environment in which every interaction takes two seconds and the
service stays installed and running. -/
def slowEnv : Env :=
  { runningEnv with latency := fun _ => 2 * second }

/-- Method `getOSSpecificConfigParams`: the lines it contributes to the
interface section and to the peer section of the configuration file.  The
parameter `ipText` is Go `net.IP.String()`, the text form of an address. -/
def WireGuard.getOSSpecificConfigParams (ipText : IP → String) (σ : Sys) :
    List String × List String :=
  let interfaceCfg : List String := []
  let peerCfg : List String := []
  let manualDNS := σ.wg.internals.manualDNS
  let interfaceCfg :=
    if manualDNS ≠ none then interfaceCfg ++ ["DNS = " ++ ipText manualDNS]
    else interfaceCfg ++ ["DNS = " ++ ipText σ.wg.connectParams.hostLocalIP]
  let interfaceCfg := interfaceCfg ++ ["Address = " ++ ipText σ.wg.connectParams.clientLocalIP]
  (interfaceCfg, peerCfg)

/-- The status answers on which the loop of `connect` ends: the service is
absent (one of the four error codes) or it is stopped. -/
def statusEnds (r : Bool × SvcState × Option Err) : Bool :=
  decide (r.2.2 = some .ERROR_SERVICE_DOES_NOT_EXIST ∨ r.2.2 = some .ERROR_SERVICE_DISABLED ∨
    r.2.2 = some .ERROR_SERVICE_NOT_ACTIVE ∨ r.2.2 = some .ERROR_SERVICE_NOT_FOUND ∨
    r.2.1 = svcStopped)

/-- The trace of `σ'` continues the trace of `σ`. -/
def Sys.before (σ σ' : Sys) : Prop := ∃ seg, σ'.trace = σ.trace ++ seg

/-- The text form of a 4 byte address, for the sample runs. -/
def dottedQuad : IP → String
  | some [a, b, c, d] => toString a ++ "." ++ toString b ++ "." ++ toString c ++ "." ++ toString d
  | _ => "<nil>"

/-- A controller on which `disconnect()` has run. -/
def disconnectedSys : Sys := (disconnect noConfigEnv (freshSys demoParams)).sys

/-- An environment in which the service is installed and reports the stopped state. -/
def stoppedEnv : Env :=
  { runningEnv with interrogate := fun _ => .state svcStopped }

/-- A connected controller with a pending `Pause` signal, a pending restart and
a manual DNS server. -/
def pauseRestartSys : Sys :=
  (freshSys demoParams).setInternals
    { freshInternals with
      manualDNS := ip4 9 9 9 9, isRestartRequired := true,
      pauseRequireChan := some { cap := 1, buf := [.pause], sendq := [] } }

/-- The value of `isDisconnectRequested`. -/
def Sys.disconnectRequested (σ : Sys) : Bool := σ.wg.internals.isDisconnectRequested

/-- No other goroutine calls `disconnect()`. -/
def Env.noDisconnect (e : Env) : Prop := ∀ k, Call.disconnect ∉ e.others k

/-- From `σ` to `σ'` the flag `isDisconnectRequested` was not cleared, and it
was not set either unless another goroutine called `disconnect()`. -/
structure FlagKept (e : Env) (σ σ' : Sys) : Prop where
  stays : σ.disconnectRequested = true → σ'.disconnectRequested = true
  same : e.noDisconnect → σ'.disconnectRequested = σ.disconnectRequested

/-- The states that the controller operations lead to from `σ`: `connect`, its
loop, one pass of the loop, the parts of a pass (the `select`, the pause case,
the wait of a paused connection, the restart check), the sleep between two
passes, `pause`, `resume`, `setManualDNS`, `resetManualDNS`, `installService`,
`uninstallService` and `disconnectInternal`. -/
def operationOutcomes (fuel defers : Nat) (e : Env) (addr : IP) (σ : Sys) : List Sys :=
  [(connect fuel e σ).sys, (pollLoop fuel e defers σ).sys, (pollBody fuel e defers σ).sys,
   (selectBranch fuel e defers σ).sys, (pauseBranch fuel e defers σ).sys,
   (pausedWait fuel e σ).sys, (restartBranch e σ).sys, sleep e (50 * millisecond) σ,
   (WireGuard.pause σ).sys, (WireGuard.resume σ).sys, (setManualDNS addr e σ).2,
   (resetManualDNS e σ).2, (installService e σ).sys, (uninstallService e σ).sys,
   (disconnectInternal e σ).sys]

/-- The environment of this run: `connect` on a new controller installs the
service; while the loop sleeps after its first poll another goroutine calls
`setManualDNS(9.9.9.9)`, which requests a restart; the uninstall of the restart
needs one wait of 50 ns, during which another goroutine calls `pause()` when
`pauseArrives` is set; the reinstall fails at the configuration file; after
that no service is installed. -/
def restartFailsEnv (pauseArrives : Bool) : Env :=
  { runningEnv with
    openService := fun k =>
      if k = 1 ∨ k = 26 ∨ 30 ≤ k then some .ERROR_SERVICE_DOES_NOT_EXIST else none,
    saveConfig := fun k => if k = 27 then some (.other 5) else none,
    others := fun k =>
      if k = 13 then [.setManualDNS (ip4 9 9 9 9)]
      else if k = 25 ∧ pauseArrives = true then [.pause] else [] }

/-- The environment of this run: `connect` on a new controller installs the
service; another goroutine calls `pause()` while the loop sleeps and `resume()`
while the loop is paused; the install of the resume waits 10 ms for the
service, during which another goroutine calls `pause()` when `pauseArrives` is
set; the service then reports the stopped state; after that no service is
installed. -/
def resumeFailsEnv (pauseArrives : Bool) : Env :=
  { runningEnv with
    openService := fun k =>
      if k = 1 ∨ k = 19 ∨ k = 24 ∨ 31 ≤ k then some .ERROR_SERVICE_DOES_NOT_EXIST else none,
    interrogate := fun k => if k = 28 then .state svcStopped else .state svcRunning,
    others := fun k =>
      if k = 13 then [.pause]
      else if k = 20 then [.resume]
      else if k = 25 ∧ pauseArrives = true then [.pause] else [] }

/-- The environment of this run: the uninstall of the pause finds the service
gone at its first query, and while the loop is paused another goroutine calls
`pause()` and then `resume()`; the install of the resume finds the service
installed and running. -/
def pausedSignalsEnv : Env :=
  { pauseResumeEnv with others := fun k => if k = 6 then [.pause, .resume] else [] }

/-! ## Properties -/

theorem Grows.refl (P : Effect → Bool) (σ : Sys) : Grows P σ σ :=
  ⟨⟨[], by simp, by simp⟩, le_rfl, rfl⟩

theorem Grows.trans {P : Effect → Bool} {σ τ υ : Sys} (h₁ : Grows P σ τ) (h₂ : Grows P τ υ) :
    Grows P σ υ := by
  obtain ⟨⟨s₁, e₁, p₁⟩, n₁, c₁⟩ := h₁
  obtain ⟨⟨s₂, e₂, p₂⟩, n₂, c₂⟩ := h₂
  refine ⟨⟨s₁ ++ s₂, by rw [e₂, e₁, List.append_assoc], ?_⟩, le_trans n₁ n₂, c₂.trans c₁⟩
  intro x hx
  rcases List.mem_append.mp hx with h | h
  · exact p₁ x h
  · exact p₂ x h

theorem Grows.mono {P Q : Effect → Bool} {σ τ : Sys} (h : Grows P σ τ)
    (hPQ : ∀ x, P x = true → Q x = true) : Grows Q σ τ := by
  obtain ⟨⟨s, e, p⟩, n, c⟩ := h
  exact ⟨⟨s, e, fun x hx => hPQ x (p x hx)⟩, n, c⟩

theorem Grows.emit {P : Effect → Bool} {σ τ : Sys} (h : Grows P σ τ) {x : Effect}
    (hx : P x = true) : Grows P σ (τ.emit x) := by
  obtain ⟨⟨s, e, p⟩, n, c⟩ := h
  refine ⟨⟨s ++ [x], by simp [Sys.emit, e], ?_⟩, n, c⟩
  intro y hy
  rcases List.mem_append.mp hy with h | h
  · exact p y h
  · rw [List.mem_singleton.mp h]; exact hx

theorem Grows.tick {P : Effect → Bool} {σ τ : Sys} (h : Grows P σ τ) (e : Env) :
    Grows P σ (τ.tick e) := by
  obtain ⟨⟨s, e₁, p⟩, n, c⟩ := h
  exact ⟨⟨s, e₁, p⟩, le_trans n (Nat.le_add_right _ _), c⟩

theorem Grows.setInternals {P : Effect → Bool} {σ τ : Sys} (h : Grows P σ τ)
    (i : internalVariables) : Grows P σ (τ.setInternals i) := by
  obtain ⟨⟨s, e₁, p⟩, n, c⟩ := h
  exact ⟨⟨s, e₁, p⟩, n, c⟩

theorem Grows.later {P : Effect → Bool} {σ τ : Sys} (h : Grows P σ τ) (d : Nat) :
    Grows P σ { τ with now := τ.now + d } := by
  obtain ⟨⟨s, e₁, p⟩, n, c⟩ := h
  exact ⟨⟨s, e₁, p⟩, le_trans n (Nat.le_add_right _ _), c⟩

theorem mgrConnect_grows {P : Effect → Bool} {σ τ : Sys} (e : Env) (h : Grows P σ τ)
    (hP : ∀ x, x.background = true → P x = true) : Grows P σ (mgrConnect e τ).2 :=
  (h.emit (hP .mgrConnect rfl)).tick e

theorem openService_grows {P : Effect → Bool} {σ τ : Sys} (e : Env) (h : Grows P σ τ)
    (hP : ∀ x, x.background = true → P x = true) : Grows P σ (openService e τ).2 :=
  (h.emit (hP .openService rfl)).tick e

theorem getServiceStatus_grows {P : Effect → Bool} {σ τ : Sys} (e : Env) (h : Grows P σ τ)
    (hP : ∀ x, x.background = true → P x = true) : Grows P σ (getServiceStatus e τ).2 := by
  unfold getServiceStatus openService controlInterrogate
  cases e.openService τ.step with
  | some err => exact (h.emit (hP .openService rfl)).tick e
  | none =>
    dsimp only
    cases e.interrogate _ <;>
      exact ((h.emit (hP .openService rfl)).tick e |>.emit (hP .interrogate rfl)).tick e

theorem isServiceRunning_grows {P : Effect → Bool} {σ τ : Sys} (e : Env) (h : Grows P σ τ)
    (hP : ∀ x, x.background = true → P x = true) : Grows P σ (isServiceRunning e τ).2 := by
  unfold isServiceRunning mgrConnect openService
  cases e.mgrConnect τ.step with
  | some err => exact (h.emit (hP .mgrConnect rfl)).tick e
  | none =>
    dsimp only
    have h₁ : Grows P σ ((τ.emit .mgrConnect).tick e) := (h.emit (hP .mgrConnect rfl)).tick e
    cases e.openService _ with
    | some err => exact ((h₁.emit (hP .openService rfl)).tick e).emit (hP .mgrDisconnect rfl)
    | none =>
      dsimp only
      have h₂ := getServiceStatus_grows e ((h₁.emit (hP .openService rfl)).tick e) hP
      revert h₂
      rcases getServiceStatus e _ with ⟨⟨f, st, _ | err⟩, σ₃⟩
      · intro h₂
        dsimp only
        split <;> exact h₂.emit (hP .mgrDisconnect rfl)
      · intro h₂; exact h₂.emit (hP .mgrDisconnect rfl)

/-! ### Control calls -/

theorem getServiceStatus_wg (e : Env) (τ : Sys) : (getServiceStatus e τ).2.wg = τ.wg := by
  unfold getServiceStatus openService controlInterrogate
  cases e.openService τ.step with
  | some err => rfl
  | none =>
    dsimp only
    cases e.interrogate _ <;> rfl

theorem isServiceRunning_wg (e : Env) (τ : Sys) : (isServiceRunning e τ).2.wg = τ.wg := by
  unfold isServiceRunning mgrConnect openService
  cases e.mgrConnect τ.step with
  | some err => rfl
  | none =>
    dsimp only
    cases e.openService _ with
    | some err => rfl
    | none =>
      dsimp only
      have h₂ := getServiceStatus_wg e (((τ.emit .mgrConnect).tick e |>.emit .openService).tick e)
      revert h₂
      rcases getServiceStatus e _ with ⟨⟨f, st, _ | err⟩, σ₃⟩
      · intro h₂
        dsimp only
        split <;> exact h₂
      · intro h₂; exact h₂

theorem IP.Equal_self (ip : IP) : ip.Equal ip = true := by
  simp [IP.Equal]

/-- When `requireOperation` returns and when it parks its caller. -/
theorem requireOperation_outcome (o : operation) (σ : Sys) :
    ((requireOperation o σ).returned = true ↔
      ∀ ch, σ.wg.internals.pauseRequireChan = some ch → ch.buf.length < ch.cap) ∧
    ((requireOperation o σ).blocked = true ↔
      ∃ ch, σ.wg.internals.pauseRequireChan = some ch ∧ ch.cap ≤ ch.buf.length) ∧
    ((requireOperation o σ).blocked = true → requireOperation o σ = .block σ) := by
  refine ⟨?_, ?_, ?_⟩
  · unfold requireOperation
    cases hch : σ.wg.internals.pauseRequireChan with
    | none => simp [Res.returned]
    | some ch =>
      by_cases hroom : ch.buf.length < ch.cap <;> simp [Res.returned, hroom]
  · unfold requireOperation
    cases hch : σ.wg.internals.pauseRequireChan with
    | none => simp [Res.blocked]
    | some ch =>
      by_cases hroom : ch.buf.length < ch.cap
      · simp [Res.blocked, hroom]
      · simp [Res.blocked, hroom]; omega
  · unfold requireOperation
    cases hch : σ.wg.internals.pauseRequireChan with
    | none => simp [Res.blocked]
    | some ch =>
      by_cases hroom : ch.buf.length < ch.cap <;> simp [Res.blocked, hroom]

/-- C3, as the code has it: `requireOperation` (hence `pause()` and `resume()`) returns at
once exactly when the control channel does not exist or its buffer has room; when the
buffer is full (for the capacity 1 channel: it holds one signal that the loop has not
taken) the plain send `ch <- o` parks the caller and leaves the state as it is. -/
theorem requireOperation_returns_iff_room (o : operation) (σ : Sys) :
    ((requireOperation o σ).returned = true ↔
      ∀ ch, σ.wg.internals.pauseRequireChan = some ch → ch.buf.length < ch.cap) ∧
    ((requireOperation o σ).blocked = true ↔
      ∃ ch, σ.wg.internals.pauseRequireChan = some ch ∧ ch.cap ≤ ch.buf.length) ∧
    ((requireOperation o σ).blocked = true → requireOperation o σ = .block σ) ∧
    ((requireOperation o σ).returned = true ∨ (requireOperation o σ).blocked = true) ∧
    (WireGuard.pause σ).returned = (requireOperation .pause σ).returned ∧
    (WireGuard.resume σ).returned = (requireOperation .resume σ).returned ∧
    ((WireGuard.pause σ).returned = true → ∃ σ', WireGuard.pause σ = .ret none σ') ∧
    ((WireGuard.resume σ).returned = true → ∃ σ', WireGuard.resume σ = .ret none σ') := by
  obtain ⟨h₁, h₂, h₃⟩ := requireOperation_outcome o σ
  refine ⟨h₁, h₂, h₃, ?_, ?_, ?_, ?_, ?_⟩
  · unfold requireOperation
    cases σ.wg.internals.pauseRequireChan with
    | none => simp [Res.returned]
    | some ch =>
      by_cases hroom : ch.buf.length < ch.cap <;> simp [Res.returned, Res.blocked, hroom]
  · unfold WireGuard.pause
    cases requireOperation .pause σ <;> rfl
  · unfold WireGuard.resume
    cases requireOperation .resume σ <;> rfl
  · unfold WireGuard.pause
    cases requireOperation .pause σ with
    | ret a σ₁ => exact fun _ => ⟨σ₁, rfl⟩
    | block σ₁ => intro h; simp [Res.andThen, Res.returned] at h
    | spin σ₁ => intro h; simp [Res.andThen, Res.returned] at h
  · unfold WireGuard.resume
    cases requireOperation .resume σ with
    | ret a σ₁ => exact fun _ => ⟨σ₁, rfl⟩
    | block σ₁ => intro h; simp [Res.andThen, Res.returned] at h
    | spin σ₁ => intro h; simp [Res.andThen, Res.returned] at h

/-- C3, counterexample: on the capacity 1 channel that already holds a signal, `pause()`
and `resume()` do not return: the caller is parked in the send. -/
theorem pause_resume_park_on_full_channel :
    fullChanSys.wg.internals.pauseRequireChan = some { cap := 1, buf := [.pause], sendq := [] } ∧
    (WireGuard.pause fullChanSys).returned = false ∧
    (WireGuard.resume fullChanSys).returned = false ∧
    requireOperation .pause fullChanSys = .block fullChanSys ∧
    requireOperation .resume fullChanSys = .block fullChanSys := by
  decide

/-- C9: while the control channel does not exist (`pauseRequireChan` is nil), every finite
sequence of `pause()` and `resume()` calls returns nil for each call, parks nowhere and
leaves the whole state as it is.  A controller is in that situation before `connect` has
made the channel, and again whenever a `connect` that passed its first check returns,
because its deferred function resets the field. -/
theorem pause_resume_noop_without_channel (ops : List operation) (σ : Sys)
    (h : σ.wg.internals.pauseRequireChan = none) :
    callAll ops σ = .ret (ops.map fun _ => none) σ ∧
    (∀ fuel e τ r τ', τ.wg.internals.isDisconnectRequested = false →
      connect fuel e τ = .ret r τ' → τ'.wg.internals.pauseRequireChan = none) := by
  constructor
  · induction ops with
    | nil => rfl
    | cons o os ih =>
      cases o <;>
        simp [callAll, WireGuard.pause, WireGuard.resume, requireOperation, h, Res.andThen, ih]
  · intro fuel e τ r τ' hnd hret
    unfold connect at hret
    rw [if_neg (by simp [hnd])] at hret
    revert hret
    cases connectGuarded fuel e τ with
    | ret r₁ σ₁ =>
      intro hret
      simp only [Res.andThen] at hret
      injection hret with _ hσ
      rw [← hσ]
      unfold connectDeferred
      dsimp only
      split <;> rfl
    | block σ₁ => intro hret; simp [Res.andThen] at hret
    | spin σ₁ => intro hret; simp [Res.andThen] at hret

/-- C9, witness: `pause(); resume(); pause()` on a new controller. -/
theorem pause_resume_noop_without_channel_witness :
    (freshSys demoParams).wg.internals.pauseRequireChan = none ∧
    callAll [.pause, .resume, .pause] (freshSys demoParams) =
      .ret [none, none, none] (freshSys demoParams) :=
  ⟨rfl, (pause_resume_noop_without_channel [.pause, .resume, .pause] (freshSys demoParams) rfl).1⟩

/-- C8: while the service is running, `setManualDNS(ip)` with an `ip` that differs from the
stored override returns nil, stores `ip` and sets `isRestartRequired`; a second
`setManualDNS(ip)` returns nil and changes nothing at all, whether the loop has cleared
the flag in between or not (and so from every state whose stored override is `ip`). -/
theorem setManualDNS_same_value_idempotent (e e' : Env) (σ : Sys) (ip : IP)
    (hne : ip.Equal σ.wg.internals.manualDNS = false)
    (hrun : (isServiceRunning e (σ.setInternals { σ.wg.internals with manualDNS := ip })).1
      = (true, none)) :
    (setManualDNS ip e σ).1 = none ∧
    (setManualDNS ip e σ).2.wg.internals.manualDNS = ip ∧
    (setManualDNS ip e σ).2.wg.internals.isRestartRequired = true ∧
    (∀ b : Bool,
      setManualDNS ip e' ((setManualDNS ip e σ).2.setInternals
          { (setManualDNS ip e σ).2.wg.internals with isRestartRequired := b }) =
        (none, (setManualDNS ip e σ).2.setInternals
          { (setManualDNS ip e σ).2.wg.internals with isRestartRequired := b })) ∧
    (∀ σ' : Sys, σ'.wg.internals.manualDNS = ip → setManualDNS ip e' σ' = (none, σ')) := by
  have hsame : ∀ σ' : Sys, σ'.wg.internals.manualDNS = ip →
      setManualDNS ip e' σ' = (none, σ') := by
    intro σ' h
    unfold setManualDNS
    rw [h, IP.Equal_self]
    rfl
  have hwg := isServiceRunning_wg e (σ.setInternals { σ.wg.internals with manualDNS := ip })
  have hfirst : setManualDNS ip e σ =
      (none, ((isServiceRunning e (σ.setInternals { σ.wg.internals with manualDNS := ip })).2.emit
        (.info "Connection will be restarted due to DNS server IP configuration change...")).setInternals
          { (isServiceRunning e (σ.setInternals { σ.wg.internals with manualDNS := ip })).2.wg.internals
              with isRestartRequired := true }) := by
    unfold setManualDNS
    rw [hne]
    revert hrun
    rcases isServiceRunning e (σ.setInternals { σ.wg.internals with manualDNS := ip })
      with ⟨⟨r, err⟩, σ₁⟩
    intro hrun
    simp only [Prod.mk.injEq] at hrun
    obtain ⟨rfl, rfl⟩ := hrun
    rfl
  have hdns : (setManualDNS ip e σ).2.wg.internals.manualDNS = ip := by
    rw [hfirst]
    have h₂ : (isServiceRunning e
        (σ.setInternals { σ.wg.internals with manualDNS := ip })).2.wg.internals.manualDNS = ip := by
      rw [hwg]; rfl
    exact h₂
  refine ⟨by rw [hfirst], hdns, by rw [hfirst]; rfl, ?_, hsame⟩
  intro b
  exact hsame _ hdns

/-- C8, witness: `setManualDNS(9.9.9.9)` on a new controller while the service runs. -/
theorem setManualDNS_same_value_idempotent_witness :
    (ip4 9 9 9 9).Equal (freshSys demoParams).wg.internals.manualDNS = false ∧
    (setManualDNS (ip4 9 9 9 9) runningEnv (freshSys demoParams)).2.wg.internals.isRestartRequired
      = true ∧
    setManualDNS (ip4 9 9 9 9) runningEnv
        (setManualDNS (ip4 9 9 9 9) runningEnv (freshSys demoParams)).2 =
      (none, (setManualDNS (ip4 9 9 9 9) runningEnv (freshSys demoParams)).2) :=
  have h := setManualDNS_same_value_idempotent runningEnv runningEnv (freshSys demoParams)
    (ip4 9 9 9 9) (by decide) (by decide)
  ⟨by decide, h.2.2.1, h.2.2.2.2 _ h.2.1⟩

/-! ### Frames of the other goroutines and of the waits -/

theorem requireOperation_grows {P : Effect → Bool} {σ τ : Sys} (o : operation)
    (h : Grows P σ τ) : Grows P σ (requireOperation o τ).sys := by
  unfold requireOperation
  cases τ.wg.internals.pauseRequireChan with
  | none => exact h
  | some ch =>
    dsimp only
    split
    · exact h.setInternals _
    · exact h

theorem parkSender_grows {P : Effect → Bool} {σ τ : Sys} (o : operation)
    (h : Grows P σ τ) : Grows P σ (parkSender o τ) := by
  unfold parkSender
  cases τ.wg.internals.pauseRequireChan with
  | none => exact h
  | some ch => exact h.setInternals _

theorem setManualDNS_grows {P : Effect → Bool} {σ τ : Sys} (addr : IP) (e : Env)
    (h : Grows P σ τ) (hP : ∀ x, x.background = true → P x = true) :
    Grows P σ (setManualDNS addr e τ).2 := by
  unfold setManualDNS
  split
  · exact h
  · have h₁ := isServiceRunning_grows e (h.setInternals { τ.wg.internals with manualDNS := addr }) hP
    revert h₁
    rcases isServiceRunning e _ with ⟨⟨r, err⟩, σ₁⟩
    intro h₁
    dsimp only
    split
    · exact h₁
    · exact (h₁.emit (hP (.info _) rfl)).setInternals _

theorem resetManualDNS_grows {P : Effect → Bool} {σ τ : Sys} (e : Env)
    (h : Grows P σ τ) (hP : ∀ x, x.background = true → P x = true) :
    Grows P σ (resetManualDNS e τ).2 := by
  unfold resetManualDNS
  split
  · exact h
  · have h₁ := isServiceRunning_grows e (h.setInternals { τ.wg.internals with manualDNS := none }) hP
    revert h₁
    rcases isServiceRunning e _ with ⟨⟨r, err⟩, σ₁⟩
    intro h₁
    dsimp only
    split
    · exact h₁
    · exact (h₁.emit (hP (.info _) rfl)).setInternals _

theorem applyCall_grows {P : Effect → Bool} {σ τ : Sys} (e : Env) (c : Call)
    (h : Grows P σ τ) (hP : ∀ x, x.background = true → P x = true) :
    Grows P σ (applyCall e τ c) := by
  cases c with
  | pause =>
    have h₁ := requireOperation_grows .pause h
    unfold applyCall WireGuard.pause
    revert h₁
    cases requireOperation .pause τ with
    | ret a σ₁ => exact fun h₁ => h₁
    | block σ₁ => exact fun h₁ => parkSender_grows _ h₁
    | spin σ₁ => exact fun h₁ => h₁
  | resume =>
    have h₁ := requireOperation_grows .resume h
    unfold applyCall WireGuard.resume
    revert h₁
    cases requireOperation .resume τ with
    | ret a σ₁ => exact fun h₁ => h₁
    | block σ₁ => exact fun h₁ => parkSender_grows _ h₁
    | spin σ₁ => exact fun h₁ => h₁
  | disconnect =>
    have h₁ := requireOperation_grows .resume
      (h.setInternals { τ.wg.internals with isDisconnectRequested := true })
    unfold applyCall
    revert h₁
    cases requireOperation .resume _ with
    | ret a σ₁ => exact fun h₁ => h₁
    | block σ₁ => exact fun h₁ => parkSender_grows _ h₁
    | spin σ₁ => exact fun h₁ => h₁
  | setManualDNS addr => exact setManualDNS_grows addr e h hP
  | resetManualDNS => exact resetManualDNS_grows e h hP

theorem runOthers_grows {P : Effect → Bool} (e : Env) (cs : List Call)
    (hP : ∀ x, x.background = true → P x = true) :
    ∀ {σ τ : Sys}, Grows P σ τ → Grows P σ (runOthers e cs τ) := by
  induction cs with
  | nil => exact fun h => h
  | cons c cs ih =>
    intro σ τ h
    exact ih (applyCall_grows e c h hP)

theorem yield_grows {P : Effect → Bool} {σ τ : Sys} (e : Env) (h : Grows P σ τ)
    (hP : ∀ x, x.background = true → P x = true) : Grows P σ (yield e τ) :=
  runOthers_grows e _ hP (h.tick e)

theorem sleep_grows {P : Effect → Bool} {σ τ : Sys} (e : Env) (d : Nat) (h : Grows P σ τ)
    (hP : ∀ x, x.background = true → P x = true) : Grows P σ (sleep e d τ) :=
  yield_grows e (h.later d) hP

/-! ### Frames of `uninstallService` -/

theorem silent_of_background (x : Effect) (h : x.background = true) : x.silent = true := by
  cases x <;> simp_all [Effect.background, Effect.silent]

theorem inner_of_silent (x : Effect) (h : x.silent = true) : x.inner = true := by
  cases x <;> simp_all [Effect.inner, Effect.silent]

theorem events_append (a b : List Effect) : events (a ++ b) = events a ++ events b := by
  simp [events]

theorem calls_append (fn : Fn) (a b : List Effect) : calls fn (a ++ b) = calls fn a + calls fn b := by
  simp [calls]

theorem events_of_silent {seg : List Effect} (h : ∀ x ∈ seg, x.silent = true) :
    events seg = [] := by
  induction seg with
  | nil => rfl
  | cons x xs ih =>
    have hx := h x (List.mem_cons_self _ _)
    have hxs := ih (fun y hy => h y (List.mem_cons_of_mem _ hy))
    cases x <;> simp_all [events, Effect.silent]

theorem calls_of_inner (fn : Fn) {seg : List Effect} (h : ∀ x ∈ seg, x.inner = true) :
    calls fn seg = 0 := by
  induction seg with
  | nil => rfl
  | cons x xs ih =>
    have hx := h x (List.mem_cons_self _ _)
    have hxs := ih (fun y hy => h y (List.mem_cons_of_mem _ hy))
    cases x <;> simp_all [calls, Effect.inner]

theorem shellExec_grows {P : Effect → Bool} {σ τ : Sys} (e : Env) (args : List String)
    (h : Grows P σ τ) (hP : ∀ x, x.silent = true → P x = true) :
    Grows P σ (shellExec e args τ).2 :=
  (h.emit (hP (.exec _ _) rfl)).tick e

theorem uninstallRetryBody_grows {P : Effect → Bool} {σ τ : Sys} (e : Env) (v : RetryVars)
    (h : Grows P σ τ) (hP : ∀ x, x.silent = true → P x = true) :
    Grows P σ (uninstallRetryBody e v τ).2 := by
  have hB : ∀ x, x.background = true → P x = true := fun x hx => hP x (silent_of_background x hx)
  unfold uninstallRetryBody
  have h₁ := getServiceStatus_grows e h hB
  revert h₁
  rcases getServiceStatus e τ with ⟨⟨f, st, err⟩, σ₁⟩
  intro h₁
  dsimp only
  split
  · exact h₁
  · split
    · have h₂ := shellExec_grows e ["/uninstalltunnelservice", getTunnelName σ₁]
        (h₁.emit (hP (.info "Retry: uninstalling service...") rfl)) hP
      revert h₂
      rcases shellExec e _ _ with ⟨_ | err₁, σ₂⟩ <;> exact fun h₂ => h₂
    · exact h₁

theorem uninstallWait_grows {P : Effect → Bool} (e : Env) (started : Nat)
    (hP : ∀ x, x.silent = true → P x = true) :
    ∀ (fuel : Nat) (v : RetryVars) {σ τ : Sys}, Grows P σ τ →
      Grows P σ (uninstallWait fuel e started v τ).sys := by
  have hB : ∀ x, x.background = true → P x = true := fun x hx => hP x (silent_of_background x hx)
  intro fuel
  induction fuel with
  | zero => exact fun v σ τ h => h
  | succ n ih =>
    intro v σ τ h
    unfold uninstallWait
    split
    · have h₁ := uninstallRetryBody_grows e v h hP
      revert h₁
      rcases uninstallRetryBody e v τ with ⟨_ | err | v₁, σ₁⟩
      · exact fun h₁ => h₁
      · exact fun h₁ => h₁
      · exact fun h₁ => ih v₁ (sleep_grows e 50 h₁ hB)
    · exact h

theorem uninstallConnected_grows {P : Effect → Bool} {σ τ : Sys} (e : Env)
    (h : Grows P σ τ) (hP : ∀ x, x.silent = true → P x = true) :
    Grows P σ (uninstallConnected e τ).sys := by
  have hB : ∀ x, x.background = true → P x = true := fun x hx => hP x (silent_of_background x hx)
  unfold uninstallConnected
  have h₁ := openService_grows e h hB
  revert h₁
  rcases openService e τ with ⟨_ | err, σ₁⟩
  · intro h₁
    dsimp only
    have h₂ := shellExec_grows e ["/uninstalltunnelservice", getTunnelName σ₁]
      (h₁.emit (hP (.info "Uninstalling service...") rfl)) hP
    revert h₂
    rcases shellExec e _ _ with ⟨_ | err₁, σ₂⟩
    · intro h₂
      dsimp only
      have h₃ := uninstallWait_grows e σ₂.now hP uninstallWaitFuel
        { lastUninstallRetryTime := σ₂.now, nextUninstallRetryTime := 3 * second } h₂
      revert h₃
      cases (uninstallWait uninstallWaitFuel e σ₂.now
        { lastUninstallRetryTime := σ₂.now, nextUninstallRetryTime := 3 * second } σ₂).ended with
      | uninstalled => exact fun h₃ => h₃.emit (hP (.info _) rfl)
      | deadline => exact fun h₃ => h₃
      | failed err => exact fun h₃ => h₃
      | running => exact fun h₃ => h₃
    · exact fun h₂ => h₂
  · exact fun h₁ => h₁

theorem uninstallConnected_not_block (e : Env) (τ : Sys) :
    (uninstallConnected e τ).blocked = false := by
  unfold uninstallConnected
  rcases openService e τ with ⟨_ | err, σ₁⟩
  · dsimp only
    rcases shellExec e _ _ with ⟨_ | err₁, σ₂⟩
    · dsimp only
      cases (uninstallWait uninstallWaitFuel e σ₂.now
        { lastUninstallRetryTime := σ₂.now, nextUninstallRetryTime := 3 * second } σ₂).ended <;> rfl
    · rfl
  · rfl

/-- The trace of a call of `uninstallService`: the call, the lock, silent effects
and, when the call returns, the unlock. -/
theorem uninstallService_shape (e : Env) (τ : Sys) :
    ∃ mid, (∀ x ∈ mid, x.silent = true) ∧
      (uninstallService e τ).sys.trace =
        τ.trace ++ [.call .uninstallService, .lock] ++ mid ++
          (if (uninstallService e τ).returned then [.unlock] else []) ∧
      (uninstallService e τ).blocked = false ∧
      τ.now ≤ (uninstallService e τ).sys.now ∧
      (uninstallService e τ).sys.wg.connectParams = τ.wg.connectParams := by
  have h₀ : Grows Effect.silent ((τ.emit (.call .uninstallService)).emit .lock)
      (mgrConnect e ((τ.emit (.call .uninstallService)).emit .lock)).2 :=
    mgrConnect_grows e (Grows.refl _ _) silent_of_background
  unfold uninstallService
  revert h₀
  rcases mgrConnect e _ with ⟨_ | err, σ₁⟩
  · intro h₀
    dsimp only
    have h₁ := uninstallConnected_grows e h₀ (fun _ h => h)
    have hb := uninstallConnected_not_block e σ₁
    revert h₁ hb
    cases uninstallConnected e σ₁ with
    | ret r σ₂ =>
      intro h₁ _
      obtain ⟨⟨seg, hseg, hsil⟩, hnow, hpar⟩ := h₁.emit (x := .mgrDisconnect) rfl
      refine ⟨seg, hsil, ?_, rfl, hnow, hpar⟩
      simp only [Res.andThen, Res.sys, Res.returned, Sys.emit, if_true] at hseg ⊢
      rw [hseg]
      simp [Sys.emit]
    | block σ₂ => intro _ hb; simp [Res.blocked] at hb
    | spin σ₂ =>
      intro h₁ _
      obtain ⟨⟨seg, hseg, hsil⟩, hnow, hpar⟩ := h₁
      refine ⟨seg, hsil, ?_, rfl, hnow, hpar⟩
      simp only [Res.andThen, Res.sys, Res.returned] at hseg ⊢
      rw [hseg]
      simp [Sys.emit]
  · intro h₀
    obtain ⟨⟨seg, hseg, hsil⟩, hnow, hpar⟩ := h₀
    refine ⟨seg, hsil, ?_, rfl, hnow, hpar⟩
    simp only [Res.sys, Res.returned, Sys.emit, if_true] at hseg ⊢
    rw [hseg]
    simp [Sys.emit]

/-! ### Frames of `installService` -/

theorem Grows.events_eq {σ τ : Sys} (h : Grows Effect.silent σ τ) :
    events τ.trace = events σ.trace := by
  obtain ⟨⟨seg, hseg, hsil⟩, -, -⟩ := h
  rw [hseg, events_append, events_of_silent hsil, List.append_nil]

theorem waitInstalled_grows {P : Effect → Bool} (e : Env) (started : Nat)
    (hP : ∀ x, x.background = true → P x = true) :
    ∀ (fuel : Nat) {σ τ : Sys}, Grows P σ τ →
      Grows P σ (waitInstalled fuel e started τ).sys ∧
      (waitInstalled fuel e started τ).blocked = false := by
  intro fuel
  induction fuel with
  | zero => exact fun h => ⟨h, rfl⟩
  | succ n ih =>
    intro σ τ h
    unfold waitInstalled
    split
    · have h₁ := openService_grows e h hP
      revert h₁
      rcases openService e τ with ⟨_ | err, σ₁⟩
      · exact fun h₁ => ⟨h₁.emit (hP (.info _) rfl), rfl⟩
      · exact fun h₁ => ih (sleep_grows e _ h₁ hP)
    · exact ⟨h, rfl⟩

theorem waitStarted_grows {P : Effect → Bool} (e : Env) (started : Nat)
    (hP : ∀ x, x.background = true → P x = true) :
    ∀ (fuel : Nat) {σ τ : Sys}, Grows P σ τ →
      Grows P σ (waitStarted fuel e started τ).sys ∧
      (waitStarted fuel e started τ).blocked = false := by
  intro fuel
  induction fuel with
  | zero => exact fun h => ⟨h, rfl⟩
  | succ n ih =>
    intro σ τ h
    unfold waitStarted
    split
    · have h₁ := getServiceStatus_grows e h hP
      revert h₁
      rcases getServiceStatus e τ with ⟨⟨f, st, _ | err⟩, σ₁⟩
      · intro h₁
        dsimp only
        split
        · exact ⟨h₁.emit (hP (.info _) rfl), rfl⟩
        · split
          · exact ⟨h₁, rfl⟩
          · exact ih (sleep_grows e _ h₁ hP)
      · exact fun h₁ => ⟨h₁, rfl⟩
    · exact ⟨h, rfl⟩

theorem installConnected_shape (e : Env) (τ : Sys) :
    match installConnected e τ with
    | .ret out σ' => InstallShape τ out σ'
    | .block _ => False
    | .spin σ' => Grows Effect.silent τ σ' := by
  unfold installConnected
  have h₁ := waitInstalled_grows e τ.now silent_of_background installWaitFuel
    ((Grows.refl Effect.silent τ).emit (x := .info "Waiting for service install...") rfl)
  revert h₁
  cases waitInstalled installWaitFuel e τ.now _ with
  | block σ₁ => intro h₁; simp [Res.blocked] at h₁
  | spin σ₁ => exact fun h₁ => h₁.1
  | ret isInstalled σ₁ =>
    intro h₁
    have g₁ : Grows Effect.silent τ σ₁ := h₁.1
    cases isInstalled with
    | false =>
      show InstallShape τ _ σ₁
      exact ⟨g₁.mono inner_of_silent, by simp, by simp [g₁.events_eq]⟩
    | true =>
      have h₂ := waitStarted_grows e σ₁.now silent_of_background startWaitFuel
        (g₁.emit (x := .info "Waiting for service start...") rfl)
      revert h₂
      dsimp only [Res.andThen]
      rw [if_neg (by decide : ¬ (true = false))]
      cases waitStarted startWaitFuel e σ₁.now _ with
      | block σ₂ => intro h₂; simp [Res.blocked] at h₂
      | spin σ₂ => exact fun h₂ => h₂.1
      | ret r σ₂ =>
        intro h₂
        have g₂ : Grows Effect.silent τ σ₂ := h₂.1
        have hpar := g₂.params
        cases r with
        | failed err =>
          show InstallShape τ _ σ₂
          exact ⟨g₂.mono inner_of_silent, by simp, by simp [g₂.events_eq]⟩
        | deadline =>
          show InstallShape τ _ σ₂
          exact ⟨g₂.mono inner_of_silent, by simp, by simp [g₂.events_eq]⟩
        | started =>
          dsimp only
          cases σ₂.wg.internals.manualDNS with
          | some bs =>
            refine ⟨((((g₂.mono inner_of_silent).emit (x := .info "Connection started") rfl).emit
              (x := .send _) rfl).emit (x := .dnsSetManual _) rfl).tick e, by simp, ?_⟩
            simp [Sys.emit, Sys.tick, events_append, g₂.events_eq, hpar]
            simp [events]
          | none =>
            refine ⟨((((g₂.mono inner_of_silent).emit (x := .info "Connection started") rfl).emit
              (x := .send _) rfl).emit (x := .dnsDeleteManual) rfl).tick e, by simp, ?_⟩
            simp [Sys.emit, Sys.tick, events_append, g₂.events_eq, hpar]
            simp [events]

theorem InstallShape.of_silent_before {τ τ₁ σ' : Sys} {out : InstallOut}
    (g : Grows Effect.silent τ τ₁) (h : InstallShape τ₁ out σ') : InstallShape τ out σ' := by
  obtain ⟨hg, hf, hs⟩ := h
  refine ⟨(g.mono inner_of_silent).trans hg, hf, ?_⟩
  rw [hs, g.events_eq, g.params]

theorem InstallShape.emit_silent {τ σ' : Sys} {out : InstallOut} (h : InstallShape τ out σ')
    {x : Effect} (hx : x.silent = true) : InstallShape τ out (σ'.emit x) := by
  obtain ⟨hg, hf, hs⟩ := h
  refine ⟨hg.emit (inner_of_silent x hx), hf, ?_⟩
  have : events [x] = [] := events_of_silent (by simpa using hx)
  simp [Sys.emit, events_append, hs, this]

theorem installLocked_shape (e : Env) (τ : Sys) :
    match installLocked e τ with
    | .ret out σ' => InstallShape τ out σ'
    | .block _ => False
    | .spin σ' => Grows Effect.silent τ σ' := by
  unfold installLocked
  have g₁ : Grows Effect.silent τ ((τ.emit (.saveConfig τ.wg.configFilePath)).tick e) :=
    ((Grows.refl _ τ).emit rfl).tick e
  dsimp only
  cases e.saveConfig τ.step with
  | some err =>
    exact ⟨g₁.mono inner_of_silent, by simp, by simp [g₁.events_eq]⟩
  | none =>
    dsimp only
    have g₂ := shellExec_grows e
      ["/installtunnelservice", ((τ.emit (.saveConfig τ.wg.configFilePath)).tick e).wg.configFilePath]
      (g₁.emit (x := .info "Installing service...") rfl) (fun _ h => h)
    revert g₂
    rcases shellExec e _ _ with ⟨_ | err, σ₂⟩
    · intro g₂
      dsimp only
      have g₃ := mgrConnect_grows e g₂ silent_of_background
      revert g₃
      rcases mgrConnect e σ₂ with ⟨_ | err, σ₃⟩
      · intro g₃
        dsimp only
        have h₄ := installConnected_shape e σ₃
        revert h₄
        cases installConnected e σ₃ with
        | ret out σ₄ =>
          intro h₄
          exact (InstallShape.of_silent_before g₃ h₄).emit_silent rfl
        | block σ₄ => exact fun h₄ => h₄
        | spin σ₄ => exact fun h₄ => g₃.trans h₄
      · intro g₃
        exact ⟨g₃.mono inner_of_silent, by simp, by simp [g₃.events_eq]⟩
    · intro g₂
      exact ⟨g₂.mono inner_of_silent, by simp, by simp [g₂.events_eq]⟩

theorem requireOperation_not_spin (o : operation) (σ σ₁ : Sys) :
    requireOperation o σ ≠ .spin σ₁ := by
  unfold requireOperation
  cases σ.wg.internals.pauseRequireChan with
  | none => simp
  | some ch =>
    dsimp only
    split <;> simp

/-- The trace of a call of `disconnectInternal`. -/
theorem disconnectInternal_shape (e : Env) (τ : Sys) :
    match disconnectInternal e τ with
    | .ret _ σ' => ∃ mid, (∀ x ∈ mid, x.silent = true) ∧
        σ'.trace = τ.trace ++ [.call .disconnectInternal, .info "Disconnecting...",
          .call .uninstallService, .lock] ++ mid ++ [.unlock] ∧
        τ.now ≤ σ'.now ∧ σ'.wg.connectParams = τ.wg.connectParams
    | .block σ' =>
        σ'.trace = τ.trace ++ [.call .disconnectInternal, .info "Disconnecting..."] ∧
        (∃ ch, τ.wg.internals.pauseRequireChan = some ch ∧ ch.cap ≤ ch.buf.length) ∧
        σ'.wg = τ.wg
    | .spin σ' => ∃ mid, (∀ x ∈ mid, x.silent = true) ∧
        σ'.trace = τ.trace ++ [.call .disconnectInternal, .info "Disconnecting...",
          .call .uninstallService, .lock] ++ mid := by
  unfold disconnectInternal
  have hr := requireOperation_outcome .resume
    ((τ.emit (.call .disconnectInternal)).emit (.info "Disconnecting..."))
  have hg := requireOperation_grows (P := fun _ => false) .resume
    (Grows.refl _ ((τ.emit (.call .disconnectInternal)).emit (.info "Disconnecting...")))
  have hns := requireOperation_not_spin .resume
    ((τ.emit (.call .disconnectInternal)).emit (.info "Disconnecting..."))
  revert hr hg hns
  cases requireOperation .resume _ with
  | ret a σ₁ =>
    intro _ hg _
    obtain ⟨⟨seg, hseg, hnone⟩, hnow, hpar⟩ := hg
    have hseg0 : seg = [] := by
      cases seg with
      | nil => rfl
      | cons x xs => exact absurd (hnone x (List.mem_cons_self _ _)) (by simp)
    subst hseg0
    simp only [Res.sys, List.append_nil] at hseg hnow hpar
    obtain ⟨mid, hsil, htr, hnb, hnow₂, hpar₂⟩ := uninstallService_shape e σ₁
    simp only [Res.andThen]
    revert htr hnow₂ hpar₂ hnb
    cases uninstallService e σ₁ with
    | ret r σ₂ =>
      intro htr _ hnow₂ hpar₂
      refine ⟨mid, hsil, ?_, le_trans hnow hnow₂, hpar₂.trans hpar⟩
      simp only [Res.sys, Res.returned, if_true] at htr
      rw [htr, hseg]
      simp [Sys.emit]
    | block σ₂ =>
      intro _ hnb _ _
      simp [Res.blocked] at hnb
    | spin σ₂ =>
      intro htr _ _ _
      refine ⟨mid, hsil, ?_⟩
      simp only [Res.sys, Res.returned] at htr
      rw [htr, hseg]
      simp [Sys.emit]
  | block σ₁ =>
    intro hr _ _
    have hb := hr.2.2 rfl
    have hex := hr.2.1.mp rfl
    injection hb with hb
    subst hb
    exact ⟨by simp [Sys.emit], hex, rfl⟩
  | spin σ₁ =>
    intro _ _ hns
    exact absurd rfl (hns σ₁)

/-- The trace of a call of `installService`, by outcome. -/
theorem installService_shape (e : Env) (τ : Sys) :
    match installService e τ with
    | .ret none σ' => ∃ body, (∀ x ∈ body, x.inner = true) ∧
        σ'.trace = τ.trace ++ [.call .installService, .lock] ++ body ++ [.unlock] ∧
        events σ'.trace = events τ.trace ++
          [.CONNECTED τ.wg.connectParams.clientLocalIP τ.wg.connectParams.hostIP] ∧
        τ.now ≤ σ'.now ∧ σ'.wg.connectParams = τ.wg.connectParams
    | .ret (some _) σ' => ∃ body mid logs, (∀ x ∈ body, x.inner = true) ∧
        (∀ x ∈ mid, x.silent = true) ∧ (∀ x ∈ logs, x.background = true) ∧
        σ'.trace = τ.trace ++ [.call .installService, .lock] ++ body ++
          [.unlock, .info "Failed to install service. Uninstalling...",
           .call .disconnectInternal, .info "Disconnecting...", .call .uninstallService, .lock] ++
          mid ++ [.unlock] ++ logs ∧
        events σ'.trace = events τ.trace
    | .block σ' => ∃ body, (∀ x ∈ body, x.inner = true) ∧
        σ'.trace = τ.trace ++ [.call .installService, .lock] ++ body ++
          [.unlock, .info "Failed to install service. Uninstalling...",
           .call .disconnectInternal, .info "Disconnecting..."] ∧
        (∃ ch, σ'.wg.internals.pauseRequireChan = some ch ∧ ch.cap ≤ ch.buf.length)
    | .spin σ' => ∃ seg, (∀ x ∈ seg, x ≠ .call .installService) ∧
        σ'.trace = τ.trace ++ .call .installService :: seg := by
  unfold installService
  have hL := installLocked_shape e
    (((τ.emit (.call .installService)).emit .lock).emit (.info "Connecting..."))
  revert hL
  cases installLocked e _ with
  | block σ₁ => exact fun h => h.elim
  | spin σ₁ =>
    intro hL
    obtain ⟨⟨seg, hseg, hsil⟩, -, -⟩ := hL
    refine ⟨[.lock, .info "Connecting..."] ++ seg, ?_, ?_⟩
    · intro x hx
      simp only [List.cons_append, List.nil_append, List.mem_cons] at hx
      rcases hx with rfl | rfl | hx
      · exact fun h => Effect.noConfusion h
      · exact fun h => Effect.noConfusion h
      · intro hxe
        have := hsil x hx
        rw [hxe] at this
        simp [Effect.silent] at this
    · show σ₁.trace = _
      rw [hseg]
      simp [Sys.emit]
  | ret out σ₁ =>
    intro hL
    obtain ⟨⟨⟨seg, hseg, hinn⟩, hnow, hpar⟩, hflags, hsent⟩ := hL
    have hbody : ∀ x ∈ [Effect.info "Connecting..."] ++ seg ++ [Effect.removeFile σ₁.wg.configFilePath],
        x.inner = true := by
      intro x hx
      simp only [List.cons_append, List.nil_append, List.mem_cons, List.mem_append,
        List.mem_singleton, List.not_mem_nil, or_false] at hx
      rcases hx with rfl | hx | rfl
      · rfl
      · exact hinn x hx
      · rfl
    have hev₀ : events (((τ.emit (.call .installService)).emit .lock).emit
        (.info "Connecting...")).trace = events τ.trace := by
      simp [Sys.emit, events]
    simp only [Res.andThen]
    rcases out with ⟨err, isInstalled, isStarted⟩
    cases err with
    | none =>
      obtain ⟨rfl, rfl⟩ := hflags.mp rfl
      refine ⟨_, hbody, ?_, ?_, hnow.trans (Nat.le_add_right _ _), hpar⟩
      · show (((σ₁.emit _).tick e).emit _).trace = _
        simp [Sys.emit, Sys.tick, hseg]
      · show events (((σ₁.emit _).tick e).emit _).trace = _
        simp only [Sys.emit, Sys.tick, events_append]
        rw [hsent, hev₀]
        simp [events, Sys.emit]
    | some err₁ =>
      have hcond : (isStarted == false || isInstalled == false) = true := by
        cases isStarted <;> cases isInstalled <;> simp_all
      dsimp only
      rw [if_pos hcond]
      have hD := disconnectInternal_shape e
        ((((σ₁.emit (.removeFile σ₁.wg.configFilePath)).tick e).emit .unlock).emit
          (.info "Failed to install service. Uninstalling..."))
      have hev₁ : events σ₁.trace = events τ.trace := by
        rw [hsent, hev₀]; simp
      revert hD
      cases disconnectInternal e _ with
      | ret err' σ₃ =>
        intro hD
        obtain ⟨mid, hmid, htr, -, -⟩ := hD
        cases err' with
        | none =>
          refine ⟨_, mid, [], hbody, hmid, by simp, ?_, ?_⟩
          · show σ₃.trace = _
            rw [htr]; simp [Sys.emit, Sys.tick, hseg]
          · show events σ₃.trace = _
            rw [htr]
            simp only [Sys.emit, Sys.tick, events_append, hev₁, events_of_silent hmid]
            simp [events]
        | some e₂ =>
          refine ⟨_, mid, [.error "Failed to uninstall service after unsuccessful connect: "],
            hbody, hmid, by simp [Effect.background], ?_, ?_⟩
          · show (σ₃.emit _).trace = _
            simp only [Sys.emit]
            rw [htr]; simp [Sys.emit, Sys.tick, hseg]
          · show events (σ₃.emit _).trace = _
            simp only [Sys.emit]
            rw [htr]
            simp only [Sys.emit, Sys.tick, events_append, hev₁, events_of_silent hmid]
            simp [events]
      | block σ₃ =>
        intro hD
        obtain ⟨htr, hfull, hwg⟩ := hD
        refine ⟨_, hbody, ?_, ?_⟩
        · show σ₃.trace = _
          rw [htr]; simp [Sys.emit, Sys.tick, hseg]
        · show ∃ ch, σ₃.wg.internals.pauseRequireChan = some ch ∧ _
          rw [hwg]; exact hfull
      | spin σ₃ =>
        intro hD
        obtain ⟨mid, hmid, htr⟩ := hD
        refine ⟨[.lock] ++ ([.info "Connecting..."] ++ seg ++ [.removeFile σ₁.wg.configFilePath]) ++
          [.unlock, .info "Failed to install service. Uninstalling...",
           .call .disconnectInternal, .info "Disconnecting...", .call .uninstallService, .lock] ++ mid,
          ?_, ?_⟩
        · intro x hx hxe
          subst hxe
          simp at hx
          rcases hx with hx | hx
          · have := hinn _ hx; simp [Effect.inner] at this
          · have := hmid _ hx; simp [Effect.silent] at this
        · show σ₃.trace = _
          rw [htr]; simp [Sys.emit, Sys.tick, hseg]

/-! ### What a quiet environment leaves alone -/

theorem yield_wg (e : Env) (hq : e.quiet) (τ : Sys) : (yield e τ).wg = τ.wg := by
  unfold yield
  rw [hq]
  rfl

theorem sleep_wg (e : Env) (hq : e.quiet) (d : Nat) (τ : Sys) : (sleep e d τ).wg = τ.wg := by
  unfold sleep
  rw [yield_wg e hq]

theorem shellExec_wg (e : Env) (args : List String) (τ : Sys) :
    (shellExec e args τ).2.wg = τ.wg := rfl

theorem openService_wg (e : Env) (τ : Sys) : (openService e τ).2.wg = τ.wg := rfl

theorem mgrConnect_wg (e : Env) (τ : Sys) : (mgrConnect e τ).2.wg = τ.wg := rfl

theorem uninstallRetryBody_wg (e : Env) (v : RetryVars) (τ : Sys) :
    (uninstallRetryBody e v τ).2.wg = τ.wg := by
  unfold uninstallRetryBody
  have h₁ := getServiceStatus_wg e τ
  revert h₁
  rcases getServiceStatus e τ with ⟨⟨f, st, err⟩, σ₁⟩
  intro h₁
  dsimp only
  split
  · exact h₁
  · split
    · have h₂ := shellExec_wg e ["/uninstalltunnelservice", getTunnelName σ₁]
        (σ₁.emit (.info "Retry: uninstalling service..."))
      revert h₂
      rcases shellExec e _ _ with ⟨_ | err₁, σ₂⟩ <;> exact fun h₂ => h₂.trans h₁
    · exact h₁

theorem uninstallWait_wg (e : Env) (hq : e.quiet) (started : Nat) :
    ∀ (fuel : Nat) (v : RetryVars) (τ : Sys), (uninstallWait fuel e started v τ).sys.wg = τ.wg := by
  intro fuel
  induction fuel with
  | zero => exact fun v τ => rfl
  | succ n ih =>
    intro v τ
    unfold uninstallWait
    split
    · have h₁ := uninstallRetryBody_wg e v τ
      revert h₁
      rcases uninstallRetryBody e v τ with ⟨_ | err | v₁, σ₁⟩
      · exact fun h₁ => h₁
      · exact fun h₁ => h₁
      · intro h₁
        dsimp only
        rw [ih, sleep_wg e hq]
        exact h₁
    · rfl

theorem uninstallConnected_wg (e : Env) (hq : e.quiet) (τ : Sys) :
    (uninstallConnected e τ).sys.wg = τ.wg := by
  unfold uninstallConnected
  have h₁ := openService_wg e τ
  revert h₁
  rcases openService e τ with ⟨_ | err, σ₁⟩
  · intro h₁
    dsimp only
    have h₂ := shellExec_wg e ["/uninstalltunnelservice", getTunnelName σ₁]
      (σ₁.emit (.info "Uninstalling service..."))
    revert h₂
    rcases shellExec e _ _ with ⟨_ | err₁, σ₂⟩
    · intro h₂
      dsimp only
      have h₃ := uninstallWait_wg e hq σ₂.now uninstallWaitFuel
        { lastUninstallRetryTime := σ₂.now, nextUninstallRetryTime := 3 * second } σ₂
      revert h₃
      cases (uninstallWait uninstallWaitFuel e σ₂.now
        { lastUninstallRetryTime := σ₂.now, nextUninstallRetryTime := 3 * second } σ₂).ended <;>
        exact fun h₃ => h₃.trans (h₂.trans h₁)
    · exact fun h₂ => h₂.trans h₁
  · exact fun h₁ => h₁

theorem uninstallService_wg (e : Env) (hq : e.quiet) (τ : Sys) :
    (uninstallService e τ).sys.wg = τ.wg := by
  unfold uninstallService
  have h₀ := mgrConnect_wg e ((τ.emit (.call .uninstallService)).emit .lock)
  revert h₀
  rcases mgrConnect e _ with ⟨_ | err, σ₁⟩
  · intro h₀
    dsimp only
    have h₁ := uninstallConnected_wg e hq σ₁
    revert h₁
    cases uninstallConnected e σ₁ with
    | ret r σ₂ => exact fun h₁ => h₁.trans h₀
    | block σ₂ => exact fun h₁ => h₁.trans h₀
    | spin σ₂ => exact fun h₁ => h₁.trans h₀
  · exact fun h₀ => h₀

theorem waitInstalled_wg (e : Env) (hq : e.quiet) (started : Nat) :
    ∀ (fuel : Nat) (τ : Sys), (waitInstalled fuel e started τ).sys.wg = τ.wg := by
  intro fuel
  induction fuel with
  | zero => exact fun τ => rfl
  | succ n ih =>
    intro τ
    unfold waitInstalled
    split
    · have h₁ := openService_wg e τ
      revert h₁
      rcases openService e τ with ⟨_ | err, σ₁⟩
      · exact fun h₁ => h₁
      · intro h₁
        dsimp only
        rw [ih, sleep_wg e hq]
        exact h₁
    · rfl

theorem waitStarted_wg (e : Env) (hq : e.quiet) (started : Nat) :
    ∀ (fuel : Nat) (τ : Sys), (waitStarted fuel e started τ).sys.wg = τ.wg := by
  intro fuel
  induction fuel with
  | zero => exact fun τ => rfl
  | succ n ih =>
    intro τ
    unfold waitStarted
    split
    · have h₁ := getServiceStatus_wg e τ
      revert h₁
      rcases getServiceStatus e τ with ⟨⟨f, st, _ | err⟩, σ₁⟩
      · intro h₁
        dsimp only
        split
        · exact h₁
        · split
          · exact h₁
          · rw [ih, sleep_wg e hq]
            exact h₁
      · exact fun h₁ => h₁
    · rfl

theorem installConnected_wg (e : Env) (hq : e.quiet) (τ : Sys) :
    (installConnected e τ).sys.wg = τ.wg := by
  unfold installConnected
  have h₁ := waitInstalled_wg e hq τ.now installWaitFuel
    (τ.emit (.info "Waiting for service install..."))
  revert h₁
  cases waitInstalled installWaitFuel e τ.now _ with
  | block σ₁ => exact fun h₁ => h₁
  | spin σ₁ => exact fun h₁ => h₁
  | ret isInstalled σ₁ =>
    intro h₁
    cases isInstalled with
    | false => exact h₁
    | true =>
      have h₂ := waitStarted_wg e hq σ₁.now startWaitFuel
        (σ₁.emit (.info "Waiting for service start..."))
      revert h₂
      dsimp only [Res.andThen]
      rw [if_neg (by decide : ¬ (true = false))]
      cases waitStarted startWaitFuel e σ₁.now _ with
      | block σ₂ => exact fun h₂ => h₂.trans h₁
      | spin σ₂ => exact fun h₂ => h₂.trans h₁
      | ret r σ₂ =>
        intro h₂
        cases r with
        | failed err => exact h₂.trans h₁
        | deadline => exact h₂.trans h₁
        | started =>
          dsimp only
          cases σ₂.wg.internals.manualDNS <;> exact h₂.trans h₁

theorem installLocked_wg (e : Env) (hq : e.quiet) (τ : Sys) :
    (installLocked e τ).sys.wg = τ.wg := by
  unfold installLocked
  dsimp only
  cases e.saveConfig τ.step with
  | some err => rfl
  | none =>
    dsimp only
    have g₂ := shellExec_wg e
      ["/installtunnelservice", ((τ.emit (.saveConfig τ.wg.configFilePath)).tick e).wg.configFilePath]
      (((τ.emit (.saveConfig τ.wg.configFilePath)).tick e).emit (.info "Installing service..."))
    revert g₂
    rcases shellExec e _ _ with ⟨_ | err, σ₂⟩
    · intro g₂
      dsimp only
      have g₃ := mgrConnect_wg e σ₂
      revert g₃
      rcases mgrConnect e σ₂ with ⟨_ | err, σ₃⟩
      · intro g₃
        dsimp only
        have h₄ := installConnected_wg e hq σ₃
        revert h₄
        cases installConnected e σ₃ with
        | ret out σ₄ => exact fun h₄ => h₄.trans (g₃.trans g₂)
        | block σ₄ => exact fun h₄ => h₄.trans (g₃.trans g₂)
        | spin σ₄ => exact fun h₄ => h₄.trans (g₃.trans g₂)
      · exact fun g₃ => g₃.trans g₂
    · exact fun g₂ => g₂

/-- A call of `installService` that returns nil leaves the controller as it was
when no other goroutine calls it meanwhile. -/
theorem installService_wg (e : Env) (hq : e.quiet) (τ σ' : Sys)
    (h : installService e τ = .ret none σ') : σ'.wg = τ.wg := by
  unfold installService at h
  have hL := installLocked_shape e
    (((τ.emit (.call .installService)).emit .lock).emit (.info "Connecting..."))
  have hw := installLocked_wg e hq
    (((τ.emit (.call .installService)).emit .lock).emit (.info "Connecting..."))
  revert hL hw h
  cases installLocked e _ with
  | block σ₁ => exact fun _ h _ => h.elim
  | spin σ₁ => intro h; simp [Res.andThen] at h
  | ret out σ₁ =>
    intro h hL hw
    rcases out with ⟨err, isInstalled, isStarted⟩
    cases err with
    | none =>
      obtain ⟨rfl, rfl⟩ := hL.flags.mp rfl
      simp only [Res.andThen] at h
      injection h with _ h
      rw [← h]
      exact hw
    | some err₁ =>
      have hcond : (isStarted == false || isInstalled == false) = true := by
        have := hL.flags
        cases isStarted <;> cases isInstalled <;> simp_all
      simp only [Res.andThen] at h
      rw [if_pos hcond] at h
      revert h
      cases disconnectInternal e _ with
      | ret err' σ₃ => cases err' <;> (intro h; simp at h)
      | block σ₃ => intro h; simp at h
      | spin σ₃ => intro h; simp at h

/-! ### Counting calls -/

theorem count_of_inner {seg : List Effect} (x : Effect) (hx : x.inner = false)
    (h : ∀ y ∈ seg, y.inner = true) : seg.count x = 0 := by
  rw [List.count_eq_zero]
  intro hmem
  rw [h x hmem] at hx
  exact absurd hx (by simp)

theorem calls_of_silent (fn : Fn) {seg : List Effect} (h : ∀ x ∈ seg, x.silent = true) :
    calls fn seg = 0 :=
  calls_of_inner fn (fun x hx => inner_of_silent x (h x hx))

theorem uninstallService_calls (fn : Fn) (e : Env) (τ : Sys) :
    calls fn (uninstallService e τ).sys.trace =
      calls fn τ.trace + (if fn = .uninstallService then 1 else 0) := by
  obtain ⟨mid, hsil, htr, -, -, -⟩ := uninstallService_shape e τ
  rw [htr]
  simp only [calls_append, calls_of_silent fn hsil]
  have h₁ : calls fn (if (uninstallService e τ).returned = true then [Effect.unlock] else []) = 0 := by
    split <;> simp [calls]
  rw [h₁]
  cases fn <;> simp [calls]

theorem installService_calls_install (e : Env) (τ : Sys) :
    calls .installService (installService e τ).sys.trace = calls .installService τ.trace + 1 := by
  have h := installService_shape e τ
  revert h
  cases installService e τ with
  | ret r σ' =>
    cases r with
    | none =>
      rintro ⟨body, hb, htr, -⟩
      show calls _ σ'.trace = _
      rw [htr]
      simp only [calls_append, calls_of_inner _ hb]
      simp [calls]
    | some err =>
      rintro ⟨body, mid, logs, hb, hm, hl, htr, -⟩
      show calls _ σ'.trace = _
      rw [htr]
      simp only [calls_append, calls_of_inner _ hb, calls_of_silent _ hm,
        calls_of_silent _ (fun x hx => silent_of_background x (hl x hx))]
      simp [calls]
  | block σ' =>
    rintro ⟨body, hb, htr, -⟩
    show calls _ σ'.trace = _
    rw [htr]
    simp only [calls_append, calls_of_inner _ hb]
    simp [calls]
  | spin σ' =>
    rintro ⟨seg, hs, htr⟩
    show calls _ σ'.trace = _
    rw [htr]
    have : calls .installService seg = 0 := by
      unfold calls
      rw [List.count_eq_zero]
      exact fun hmem => hs _ hmem rfl
    simp [calls, List.count_cons] at this ⊢
    exact this

/-! ### The wait loops end within their iteration budget -/

theorem installTimeout_eq : _waitServiceInstallTimeout = 180000000000 := rfl

theorem startTimeout_eq : _waitServiceStartTimeout = 300000000000 := rfl

theorem sleep_now_le (e : Env) (d : Nat) (τ : Sys) : τ.now + d ≤ (sleep e d τ).now :=
  (yield_grows e (Grows.refl Effect.background { τ with now := τ.now + d }) (fun _ h => h)).now

theorem uninstallWait_ends (e : Env) (started : Nat) :
    ∀ (fuel : Nat) (v : RetryVars) (τ : Sys), 1 ≤ fuel →
      started + 180000000000 + 50 ≤ τ.now + fuel * 50 →
      (uninstallWait fuel e started v τ).ended ≠ .running := by
  intro fuel
  induction fuel with
  | zero => intro v τ h; omega
  | succ n ih =>
    intro v τ _ hbud
    unfold uninstallWait
    split
    · rename_i hc
      rw [installTimeout_eq] at hc
      unfold since at hc
      have h₁ := (uninstallRetryBody_grows e v (Grows.refl Effect.silent τ) (fun _ h => h)).now
      revert h₁
      rcases uninstallRetryBody e v τ with ⟨_ | err | v₁, σ₁⟩
      · intro _; simp
      · intro _; simp
      · intro h₁
        dsimp only at h₁ ⊢
        have h₂ := sleep_now_le e 50 σ₁
        apply ih
        · omega
        · omega
    · simp

theorem waitInstalled_ends (e : Env) (started : Nat) :
    ∀ (fuel : Nat) (τ : Sys), 1 ≤ fuel →
      started + 180000000000 + 10000000 ≤ τ.now + fuel * 10000000 →
      ∀ σ', waitInstalled fuel e started τ ≠ .spin σ' := by
  intro fuel
  induction fuel with
  | zero => intro τ h; omega
  | succ n ih =>
    intro τ _ hbud σ'
    unfold waitInstalled
    split
    · rename_i hc
      rw [installTimeout_eq] at hc
      unfold since at hc
      have h₁ := (openService_grows e (Grows.refl Effect.background τ) (fun _ h => h)).now
      revert h₁
      rcases openService e τ with ⟨_ | err, σ₁⟩
      · intro _; simp
      · intro h₁
        dsimp only at h₁ ⊢
        have h₂ : σ₁.now + 10000000 ≤ (sleep e (10 * millisecond) σ₁).now :=
          sleep_now_le e (10 * millisecond) σ₁
        apply ih
        · omega
        · omega
    · simp

theorem waitStarted_ends (e : Env) (started : Nat) :
    ∀ (fuel : Nat) (τ : Sys), 1 ≤ fuel →
      started + 300000000000 + 10000000 ≤ τ.now + fuel * 10000000 →
      ∀ σ', waitStarted fuel e started τ ≠ .spin σ' := by
  intro fuel
  induction fuel with
  | zero => intro τ h; omega
  | succ n ih =>
    intro τ _ hbud σ'
    unfold waitStarted
    split
    · rename_i hc
      rw [startTimeout_eq] at hc
      unfold since at hc
      have h₁ := (getServiceStatus_grows e (Grows.refl Effect.background τ) (fun _ h => h)).now
      revert h₁
      rcases getServiceStatus e τ with ⟨⟨f, st, _ | err⟩, σ₁⟩
      · intro h₁
        dsimp only at h₁ ⊢
        split
        · simp
        · split
          · simp
          · have h₂ : σ₁.now + 10000000 ≤ (sleep e (10 * millisecond) σ₁).now :=
              sleep_now_le e (10 * millisecond) σ₁
            apply ih
            · omega
            · omega
      · intro _; simp
    · simp

/-- `uninstallService` always returns: it has no channel operation and its
wait loop ends at its deadline at the latest. -/
theorem uninstallService_returns (e : Env) (τ : Sys) :
    (uninstallService e τ).returned = true := by
  unfold uninstallService
  rcases mgrConnect e _ with ⟨_ | err, σ₁⟩
  · dsimp only
    unfold uninstallConnected
    rcases openService e σ₁ with ⟨_ | err₁, σ₂⟩
    · dsimp only
      rcases shellExec e _ _ with ⟨_ | err₂, σ₃⟩
      · dsimp only
        have h := uninstallWait_ends e σ₃.now uninstallWaitFuel
          { lastUninstallRetryTime := σ₃.now, nextUninstallRetryTime := 3 * second } σ₃
          (by decide) (by
            have : uninstallWaitFuel = 3600000001 := rfl
            rw [this])
        revert h
        cases (uninstallWait uninstallWaitFuel e σ₃.now
          { lastUninstallRetryTime := σ₃.now, nextUninstallRetryTime := 3 * second } σ₃).ended with
        | running => intro h; exact absurd rfl h
        | uninstalled => intro _; rfl
        | deadline => intro _; rfl
        | failed err => intro _; rfl
      · rfl
    · rfl
  · rfl

theorem installConnected_not_spin (e : Env) (τ σ' : Sys) : installConnected e τ ≠ .spin σ' := by
  unfold installConnected
  have h₁ := waitInstalled_ends e τ.now installWaitFuel
    (τ.emit (.info "Waiting for service install...")) (by decide) (by
      have : installWaitFuel = 18001 := rfl
      rw [this]
      show τ.now + 180000000000 + 10000000 ≤ τ.now + 18001 * 10000000
      omega)
  revert h₁
  cases waitInstalled installWaitFuel e τ.now _ with
  | block σ₁ => intro _; simp [Res.andThen]
  | spin σ₁ => intro h₁; exact absurd rfl (h₁ σ₁)
  | ret isInstalled σ₁ =>
    intro _
    cases isInstalled with
    | false => simp [Res.andThen]
    | true =>
      have h₂ := waitStarted_ends e σ₁.now startWaitFuel
        (σ₁.emit (.info "Waiting for service start...")) (by decide) (by
          have : startWaitFuel = 30001 := rfl
          rw [this]
          show σ₁.now + 300000000000 + 10000000 ≤ σ₁.now + 30001 * 10000000
          omega)
      revert h₂
      dsimp only [Res.andThen]
      rw [if_neg (by decide : ¬ (true = false))]
      cases waitStarted startWaitFuel e σ₁.now _ with
      | block σ₂ => intro _; simp
      | spin σ₂ => intro h₂; exact absurd rfl (h₂ σ₂)
      | ret r σ₂ =>
        intro _
        cases r with
        | failed err => simp
        | deadline => simp
        | started =>
          dsimp only
          cases σ₂.wg.internals.manualDNS <;> simp

theorem installLocked_not_spin (e : Env) (τ σ' : Sys) : installLocked e τ ≠ .spin σ' := by
  unfold installLocked
  dsimp only
  cases e.saveConfig τ.step with
  | some err => simp
  | none =>
    dsimp only
    rcases shellExec e _ _ with ⟨_ | err, σ₂⟩
    · dsimp only
      rcases mgrConnect e σ₂ with ⟨_ | err, σ₃⟩
      · dsimp only
        have h := installConnected_not_spin e σ₃
        revert h
        cases installConnected e σ₃ with
        | ret out σ₄ => intro _; simp [Res.andThen]
        | block σ₄ => intro _; simp [Res.andThen]
        | spin σ₄ => intro h; exact absurd rfl (h σ₄)
      · simp
    · simp

theorem disconnectInternal_not_spin (e : Env) (τ σ' : Sys) :
    disconnectInternal e τ ≠ .spin σ' := by
  unfold disconnectInternal
  have hns := requireOperation_not_spin .resume
    ((τ.emit (.call .disconnectInternal)).emit (.info "Disconnecting..."))
  revert hns
  cases requireOperation .resume _ with
  | ret a σ₁ =>
    intro _
    have h := uninstallService_returns e σ₁
    revert h
    simp only [Res.andThen]
    cases uninstallService e σ₁ <;> simp [Res.returned]
  | block σ₁ => intro _; simp [Res.andThen]
  | spin σ₁ => intro hns; exact absurd rfl (hns σ₁)

/-- `installService` returns or is parked in the send of its cleanup: each of
its wait loops ends at its deadline at the latest. -/
theorem installService_not_spin (e : Env) (τ σ' : Sys) : installService e τ ≠ .spin σ' := by
  unfold installService
  have hL := installLocked_not_spin e
    (((τ.emit (.call .installService)).emit .lock).emit (.info "Connecting..."))
  have hS := installLocked_shape e
    (((τ.emit (.call .installService)).emit .lock).emit (.info "Connecting..."))
  revert hL hS
  cases installLocked e _ with
  | block σ₁ => intro _ hS; exact hS.elim
  | spin σ₁ => intro hL _; exact absurd rfl (hL σ₁)
  | ret out σ₁ =>
    intro _ _
    simp only [Res.andThen]
    split
    · have hD := disconnectInternal_not_spin e
        ((((σ₁.emit (.removeFile σ₁.wg.configFilePath)).tick e).emit .unlock).emit
          (.info "Failed to install service. Uninstalling..."))
      revert hD
      cases disconnectInternal e _ with
      | ret err' σ₃ => intro _; cases err' <;> simp
      | block σ₃ => intro _; simp
      | spin σ₃ => intro hD; exact absurd rfl (hD σ₃)
    · simp

/-! ### Cleanup of a failed install -/

/-- The deferred cleanup of `installService`, by outcome.  When `installService` returns nil, no `disconnectInternal` and no
`uninstallService` was called.  When it returns an error, `disconnectInternal` and with it
`uninstallService` were called exactly once, after `_globalInitMutex` was taken once and
released once, and before the error reached the caller.  When the cleanup cannot pass the
send of `disconnectInternal` (the control channel is full), `installService` does not
return at all and no uninstall is started. -/
theorem installService_cleanup_exactly_on_failure (e : Env) (τ : Sys) :
    match installService e τ with
    | .ret none σ' =>
      calls .uninstallService σ'.trace = calls .uninstallService τ.trace ∧
      calls .disconnectInternal σ'.trace = calls .disconnectInternal τ.trace
    | .ret (some _) σ' =>
      ∃ pre post, σ'.trace = τ.trace ++ pre ++
          [.call .disconnectInternal, .info "Disconnecting...", .call .uninstallService] ++ post ∧
        pre.count .lock = 1 ∧ pre.count .unlock = 1 ∧
        calls .uninstallService pre = 0 ∧ calls .disconnectInternal pre = 0 ∧
        calls .uninstallService post = 0 ∧ calls .disconnectInternal post = 0 ∧
        calls .uninstallService σ'.trace = calls .uninstallService τ.trace + 1
    | .block σ' =>
      calls .uninstallService σ'.trace = calls .uninstallService τ.trace ∧
      calls .disconnectInternal σ'.trace = calls .disconnectInternal τ.trace + 1 ∧
      ∃ ch, σ'.wg.internals.pauseRequireChan = some ch ∧ ch.cap ≤ ch.buf.length
    | .spin _ => False := by
  have h := installService_shape e τ
  revert h
  cases hres : installService e τ with
  | ret r σ' =>
    cases r with
    | none =>
      rintro ⟨body, hb, htr, -⟩
      show calls _ σ'.trace = _ ∧ calls _ σ'.trace = _
      rw [htr]
      simp only [calls_append, calls_of_inner _ hb]
      simp [calls]
    | some err =>
      rintro ⟨body, mid, logs, hb, hm, hl, htr, -⟩
      have hlogs : ∀ x ∈ logs, x.inner = true :=
        fun x hx => inner_of_silent x (silent_of_background x (hl x hx))
      have hmid : ∀ x ∈ mid, x.inner = true := fun x hx => inner_of_silent x (hm x hx)
      refine ⟨[.call .installService, .lock] ++ body ++
            [.unlock, .info "Failed to install service. Uninstalling..."],
          [.lock] ++ mid ++ [.unlock] ++ logs, ?_, ?_, ?_, ?_, ?_, ?_, ?_, ?_⟩
      · rw [htr]; simp
      · simp only [List.count_append, count_of_inner .lock rfl hb]; simp
      · simp only [List.count_append, count_of_inner .unlock rfl hb]; simp
      · simp only [calls_append, calls_of_inner _ hb]; simp [calls]
      · simp only [calls_append, calls_of_inner _ hb]; simp [calls]
      · simp only [calls_append, calls_of_inner _ hmid, calls_of_inner _ hlogs]; simp [calls]
      · simp only [calls_append, calls_of_inner _ hmid, calls_of_inner _ hlogs]; simp [calls]
      · rw [htr]
        simp only [calls_append, calls_of_inner _ hmid, calls_of_inner _ hlogs,
          calls_of_inner _ hb]
        simp [calls]
  | block σ' =>
    rintro ⟨body, hb, htr, hfull⟩
    refine ⟨?_, ?_, hfull⟩
    · show calls _ σ'.trace = _
      rw [htr]
      simp only [calls_append, calls_of_inner _ hb]
      simp [calls]
    · show calls _ σ'.trace = _
      rw [htr]
      simp only [calls_append, calls_of_inner _ hb]
      simp [calls]
  | spin σ' => exact fun _ => installService_not_spin e τ σ' hres

/-- A failing configuration write makes `installService` return the error after exactly
one cleanup call of `uninstallService`. -/
theorem installService_cleanup_exactly_on_failure_witness :
    (installService noConfigEnv (freshSys demoParams)).returned = true ∧
    calls .uninstallService (installService noConfigEnv (freshSys demoParams)).sys.trace =
      calls .uninstallService (freshSys demoParams).trace + 1 := by
  have h₁ := installService_cleanup_exactly_on_failure noConfigEnv (freshSys demoParams)
  have hr : installService noConfigEnv (freshSys demoParams) =
      .ret (some (.wrap "failed to save config file" (.other 5)))
        (installService noConfigEnv (freshSys demoParams)).sys := by decide
  rw [hr] at h₁
  obtain ⟨pre, post, -, -, -, -, -, -, -, h⟩ := h₁
  exact ⟨by decide, h⟩

/-! ### The restart check -/

theorem calls_emit_inner (fn : Fn) (σ : Sys) (x : Effect) (hx : x.inner = true) :
    calls fn (σ.emit x).trace = calls fn σ.trace := by
  have : calls fn [x] = 0 := calls_of_inner fn (by simpa using hx)
  simp [Sys.emit, calls_append, this]

/-- The restart check, by outcome.  Whatever `uninstallService` and
`installService` return in the restart check, the check ends with the loop body falling
through to the next poll (never with a return from `connect` or a `break`), and a body
that falls through makes `pollLoop` sleep and poll again.  `installService` is called
only when `uninstallService` returned nil, and then once.  The check can fail to
complete in one way only: the cleanup of a failed `installService` is parked on the
control channel. -/
theorem restartBranch_failures_absorbed (e : Env) (σ : Sys) :
    (∀ f σ', restartBranch e σ = .ret f σ' → f = .next) ∧
    (∀ σ', restartBranch e σ ≠ .spin σ') ∧
    (σ.wg.internals.isRestartRequired = false → restartBranch e σ = .ret .next σ) ∧
    (σ.wg.internals.isRestartRequired = true →
      match uninstallService e
          (((σ.setInternals { σ.wg.internals with isRestartRequired := false }).emit
            (.send (.RECONNECTING "Reconnecting with new connection parameters"))).emit
              (.info "Restarting...")) with
      | .ret (some _) σ₁ =>
        restartBranch e σ =
          .ret .next (σ₁.emit (.error "failed to restart connection (disconnetion error):")) ∧
        calls .installService (restartBranch e σ).sys.trace = calls .installService σ.trace
      | .ret none σ₁ =>
        calls .installService (restartBranch e σ).sys.trace = calls .installService σ.trace + 1 ∧
        match installService e σ₁ with
        | .ret (some _) σ₂ =>
          restartBranch e σ =
            .ret .next (σ₂.emit (.error "failed to restart connection (new connetion error):"))
        | .ret none σ₂ => restartBranch e σ = .ret .next (σ₂.emit (.info "Connection restarted"))
        | .block σ₂ => restartBranch e σ = .block σ₂
        | .spin _ => False
      | .block _ => False
      | .spin _ => False) ∧
    (∀ fuel d d' σ', pollBody fuel e d σ = .ret (.next, d') σ' →
      pollLoop (fuel + 1) e d σ = pollLoop fuel e d' (sleep e (50 * millisecond) σ')) := by
  have hU := uninstallService_returns e
    (((σ.setInternals { σ.wg.internals with isRestartRequired := false }).emit
      (.send (.RECONNECTING "Reconnecting with new connection parameters"))).emit
        (.info "Restarting..."))
  have hUc := uninstallService_calls .installService e
    (((σ.setInternals { σ.wg.internals with isRestartRequired := false }).emit
      (.send (.RECONNECTING "Reconnecting with new connection parameters"))).emit
        (.info "Restarting..."))
  have hc₀ : calls .installService
      (((σ.setInternals { σ.wg.internals with isRestartRequired := false }).emit
        (.send (.RECONNECTING "Reconnecting with new connection parameters"))).emit
          (.info "Restarting...")).trace = calls .installService σ.trace := by
    simp [Sys.emit, Sys.setInternals, calls]
  rw [hc₀] at hUc
  simp only [reduceCtorEq, if_false, Nat.add_zero] at hUc
  refine ⟨?_, ?_, ?_, ?_, ?_⟩
  · intro f σ'
    unfold restartBranch
    split
    · revert hU
      cases uninstallService e _ with
      | ret r σ₁ =>
        intro _
        cases r with
        | some err => intro h; injection h with h _; exact h.symm
        | none =>
          dsimp only
          cases installService e σ₁ with
          | ret r₂ σ₂ => cases r₂ <;> (intro h; injection h with h _; exact h.symm)
          | block σ₂ => intro h; simp at h
          | spin σ₂ => intro h; simp at h
      | block σ₁ => intro _ h; simp at h
      | spin σ₁ => intro _ h; simp at h
    · intro h; injection h with h _; exact h.symm
  · intro σ'
    unfold restartBranch
    split
    · revert hU
      cases uninstallService e _ with
      | ret r σ₁ =>
        intro _
        cases r with
        | some err => simp
        | none =>
          dsimp only
          have hI := installService_not_spin e σ₁
          revert hI
          cases installService e σ₁ with
          | ret r₂ σ₂ => cases r₂ <;> simp
          | block σ₂ => simp
          | spin σ₂ => intro hI; exact absurd rfl (hI σ₂)
      | block σ₁ => intro h; simp [Res.returned] at h
      | spin σ₁ => intro h; simp [Res.returned] at h
    · simp
  · intro hf
    unfold restartBranch
    rw [if_neg (by simp [hf])]
  · intro hf
    unfold restartBranch
    rw [if_pos hf]
    revert hU hUc
    cases uninstallService e _ with
    | ret r σ₁ =>
      intro _ hUc
      cases r with
      | some err =>
        refine ⟨rfl, ?_⟩
        simp only [Res.sys] at hUc ⊢
        rw [calls_emit_inner _ _ (.error _) rfl, hUc]
      | none =>
        dsimp only
        have hI := installService_not_spin e σ₁
        have hIc := installService_calls_install e σ₁
        simp only [Res.sys] at hUc
        revert hI hIc
        cases installService e σ₁ with
        | ret r₂ σ₂ =>
          intro _ hIc
          simp only [Res.sys] at hIc
          cases r₂ with
          | none =>
            exact ⟨by simp only [Res.sys]; rw [calls_emit_inner _ _ (.info _) rfl, hIc, hUc], rfl⟩
          | some err =>
            exact ⟨by simp only [Res.sys]; rw [calls_emit_inner _ _ (.error _) rfl, hIc, hUc], rfl⟩
        | block σ₂ =>
          intro _ hIc
          simp only [Res.sys] at hIc
          exact ⟨by simp only [Res.sys]; rw [hIc, hUc], rfl⟩
        | spin σ₂ => intro hI; exact absurd rfl (hI σ₂)
    | block σ₁ => intro h; simp [Res.returned] at h
    | spin σ₁ => intro h; simp [Res.returned] at h
  · intro fuel d d' σ' h
    rw [pollLoop, h]

/-- With the service manager unreachable the uninstall of a restart fails, and the loop
body falls through. -/
theorem restartBranch_failures_absorbed_witness :
    restartSys.wg.internals.isRestartRequired = true ∧
    (restartBranch mgrDownEnv restartSys).returned = true ∧
    calls .uninstallService (restartBranch mgrDownEnv restartSys).sys.trace = 1 ∧
    calls .installService (restartBranch mgrDownEnv restartSys).sys.trace = 0 ∧
    ∀ f σ', restartBranch mgrDownEnv restartSys = .ret f σ' → f = .next :=
  ⟨rfl, by decide, by decide, by decide,
    (restartBranch_failures_absorbed mgrDownEnv restartSys).1⟩

/-! ### Events up to the connected state -/

/-- C4, as the code has it: when `connect` runs on a new controller and its three steps
before the loop succeed (the uninstall of a stale service, `mgr.Connect`, and
`installService`, which returns nil exactly when the service was found installed and then
running within the deadlines), the records sent on the event sink up to the entry of the
poll loop are exactly `[Connected(clientLocalIP, hostIP)]`; "Connecting..." is written to
the log only.  `connect` with no pass through the loop stops in that state. -/
theorem connect_events_until_connected (e : Env) (σ σ₁ σ₂ σ₃ : Sys)
    (hfresh : σ.wg.internals = freshInternals) (htrace : σ.trace = [])
    (hD : disconnectInternal e σ = .ret none σ₁)
    (hM : mgrConnect e σ₁ = (none, σ₂))
    (hI : installService e σ₂ = .ret none σ₃)
    (hnd : σ₃.wg.internals.isDisconnectRequested = false) :
    events σ₃.trace =
      [.CONNECTED σ.wg.connectParams.clientLocalIP σ.wg.connectParams.hostIP] ∧
    (∀ d, Effect.send (.CONNECTING d) ∉ σ₃.trace) ∧
    connect 0 e σ =
      .spin (σ₃.setInternals { σ₃.wg.internals with pauseRequireChan := some Chan.make }) := by
  have hDs := disconnectInternal_shape e σ
  rw [hD] at hDs
  obtain ⟨mid, hmid, htr₁, -, hpar₁⟩ := hDs
  have hIs := installService_shape e σ₂
  rw [hI] at hIs
  obtain ⟨body, hbody, htr₃, hev₃, -, -⟩ := hIs
  have hσ₂ : σ₂ = (σ₁.emit .mgrConnect).tick e := by
    have := congrArg Prod.snd hM
    exact this.symm
  have hev₁ : events σ₁.trace = [] := by
    rw [htr₁, htrace]
    simp only [events_append, events_of_silent hmid]
    simp [events]
  have hev₂ : events σ₂.trace = [] := by
    rw [hσ₂]
    simp [Sys.emit, Sys.tick, events_append, hev₁]
    simp [events]
  have hpar₂ : σ₂.wg.connectParams = σ.wg.connectParams := by
    rw [hσ₂]; exact hpar₁
  have hev : events σ₃.trace =
      [.CONNECTED σ.wg.connectParams.clientLocalIP σ.wg.connectParams.hostIP] := by
    rw [hev₃, hev₂, hpar₂]; rfl
  refine ⟨hev, ?_, ?_⟩
  · intro d hmem
    have : StateInfo.CONNECTING d ∈ events σ₃.trace := by
      unfold events
      rw [List.mem_filterMap]
      exact ⟨_, hmem, rfl⟩
    rw [hev] at this
    simp at this
  · have hnd₀ : σ.wg.internals.isDisconnectRequested = false := by rw [hfresh]; rfl
    unfold connect
    rw [if_neg (by simp [hnd₀])]
    unfold connectGuarded
    rw [hD]
    simp only [Res.andThen]
    rw [hM]
    dsimp only
    unfold connectManaged
    rw [hI]
    dsimp only
    rw [if_neg (by simp [hnd])]
    rfl

/-- C4, counterexample: on a new controller with the parameters
`client=10.0.0.2, host=10.0.0.1, hostPublic=1.2.3.4` and a service that is found
installed and running at once, `connect` reaches its poll loop having sent
`[Connected(10.0.0.2, 1.2.3.4)]` and no `Connecting` record; "Connecting..." went to the
log. -/
theorem connect_sends_no_connecting_record :
    (connect 0 installEnv (freshSys demoParams)).sys.wg.internals.pauseRequireChan
      = some Chan.make ∧
    events (connect 0 installEnv (freshSys demoParams)).sys.trace =
      [.CONNECTED (ip4 10 0 0 2) (ip4 1 2 3 4)] ∧
    Effect.info "Connecting..." ∈ (connect 0 installEnv (freshSys demoParams)).sys.trace ∧
    ∀ d, events (connect 0 installEnv (freshSys demoParams)).sys.trace ≠
      [.CONNECTING d, .CONNECTED (ip4 10 0 0 2) (ip4 1 2 3 4)] := by
  have h : events (connect 0 installEnv (freshSys demoParams)).sys.trace =
      [.CONNECTED (ip4 10 0 0 2) (ip4 1 2 3 4)] := by decide
  refine ⟨by decide, h, by decide, ?_⟩
  intro d hd
  rw [h] at hd
  simp at hd

/-- C4, witness: the parameters `client=10.0.0.2, host=10.0.0.1, hostPublic=1.2.3.4`. -/
theorem connect_events_until_connected_witness :
    events (installService installEnv
      (mgrConnect installEnv (disconnectInternal installEnv (freshSys demoParams)).sys).2).sys.trace =
      [.CONNECTED (ip4 10 0 0 2) (ip4 1 2 3 4)] :=
  (connect_events_until_connected installEnv (freshSys demoParams)
    (disconnectInternal installEnv (freshSys demoParams)).sys
    (mgrConnect installEnv (disconnectInternal installEnv (freshSys demoParams)).sys).2
    (installService installEnv
      (mgrConnect installEnv (disconnectInternal installEnv (freshSys demoParams)).sys).2).sys
    rfl rfl (by decide) (by decide) (by decide) (by decide)).1

/-! ### Pause and resume -/

theorem tryRecv_pending (σ : Sys) (o : operation) (os : List operation)
    (h : σ.wg.internals.pauseRequireChan = some (Chan.pending (o :: os))) :
    tryRecv σ = some (o, σ.took [o] os) := by
  unfold tryRecv
  rw [h]
  simp [Chan.pending, Sys.took, Sys.emit, Sys.setInternals]

theorem took_took (σ : Sys) (a b r r' : List operation) :
    (σ.took a r).took b r' = σ.took (a ++ b) r' := by
  simp [Sys.took, Sys.setInternals]

theorem pausedWait_drains (e : Env) :
    ∀ (m fuel : Nat) (σ : Sys), m < fuel →
      σ.wg.internals.pauseRequireChan =
        some (Chan.pending (List.replicate m .pause ++ [.resume])) →
      pausedWait fuel e σ = .ret .resume (σ.took (List.replicate m .pause ++ [.resume]) []) := by
  intro m
  induction m with
  | zero =>
    intro fuel σ hf hch
    obtain ⟨f, rfl⟩ : ∃ f, fuel = f + 1 := ⟨fuel - 1, by omega⟩
    unfold pausedWait recv
    rw [tryRecv_pending σ .resume [] (by simpa using hch)]
    rfl
  | succ m ih =>
    intro fuel σ hf hch
    obtain ⟨f, rfl⟩ : ∃ f, fuel = f + 1 := ⟨fuel - 1, by omega⟩
    unfold pausedWait recv
    rw [tryRecv_pending σ .pause (List.replicate m .pause ++ [.resume])
      (by simpa [List.replicate_succ] using hch)]
    dsimp only
    rw [ih f _ (by omega) rfl, took_took]
    simp [List.replicate_succ]

theorem calls_recv (fn : Fn) (ops : List operation) : calls fn (ops.map Effect.recv) = 0 := by
  induction ops with
  | nil => rfl
  | cons o os ih => simp [calls] at ih ⊢; exact ih

theorem received_recv (ops : List operation) : received (ops.map Effect.recv) = ops := by
  induction ops with
  | nil => rfl
  | cons o os ih => simp [received] at ih ⊢; exact ih

theorem received_append (a b : List Effect) : received (a ++ b) = received a ++ received b := by
  simp [received]

theorem received_of_inner {seg : List Effect} (h : ∀ x ∈ seg, x.inner = true) :
    received seg = [] := by
  induction seg with
  | nil => rfl
  | cons x xs ih =>
    have hx := h x (List.mem_cons_self _ _)
    have hxs := ih (fun y hy => h y (List.mem_cons_of_mem _ hy))
    cases x <;> simp_all [received, Effect.inner]

/-- Signals that wait on the channel before the `select` runs.  Let the control channel of
a connected loop deliver `m + 1` times `Pause` and then one `Resume` (the first signal buffered, the
others with their parked senders), with no disconnect requested and no other call made
meanwhile.  When the uninstall of the pause and the install of the resume succeed, the
`select` of the loop body calls `uninstallService` exactly once, takes all `m + 1`
`Pause` signals and the `Resume` from the channel, calls `installService` exactly once
and ends right after the successful install; when no restart is pending either, that is
the whole pass through the loop body, which falls through to the next poll: the loop
goes on in the running state. -/
theorem pause_signals_coalesce (m fuel d : Nat) (e : Env) (σ₀ τ₁ τ₂ : Sys)
    (hq : e.quiet)
    (hch : σ₀.wg.internals.pauseRequireChan =
      some (Chan.pending (List.replicate (m + 1) .pause ++ [.resume])))
    (hdis : σ₀.wg.internals.isDisconnectRequested = false)
    (hfuel : m < fuel)
    (hU : uninstallService e
      (((σ₀.took [.pause] (List.replicate m .pause ++ [.resume])).setInternals
        { (σ₀.took [.pause] (List.replicate m .pause ++ [.resume])).wg.internals with
          isPaused := true }).emit (.info "Pausing...")) = .ret none τ₁)
    (hI : installService e
      (((τ₁.emit (.info "Paused")).took (List.replicate m .pause ++ [.resume]) []).emit
        (.info "Resuming...")) = .ret none τ₂) :
    selectBranch fuel e d σ₀ = .ret (.next, d + 1) (τ₂.emit (.info "Resumed")) ∧
    calls .uninstallService (τ₂.emit (.info "Resumed")).trace =
      calls .uninstallService σ₀.trace + 1 ∧
    calls .installService (τ₂.emit (.info "Resumed")).trace =
      calls .installService σ₀.trace + 1 ∧
    received (τ₂.emit (.info "Resumed")).trace =
      received σ₀.trace ++ List.replicate (m + 1) .pause ++ [.resume] ∧
    τ₂.wg.internals.pauseRequireChan = some (Chan.pending []) ∧
    (∀ σ, getServiceStatus e σ = ((true, svcRunning, none), σ₀) →
      σ₀.wg.internals.isRestartRequired = false →
      pollBody fuel e d σ = .ret (.next, d + 1) (τ₂.emit (.info "Resumed"))) := by
  have hch₀ : σ₀.wg.internals.pauseRequireChan =
      some (Chan.pending (.pause :: (List.replicate m .pause ++ [.resume]))) := by
    rw [hch]; simp [List.replicate_succ]
  -- the uninstall of the pause
  have hwg₁ : τ₁.wg = (((σ₀.took [.pause] (List.replicate m .pause ++ [.resume])).setInternals
        { (σ₀.took [.pause] (List.replicate m .pause ++ [.resume])).wg.internals with
          isPaused := true }).emit (.info "Pausing...")).wg := by
    have := uninstallService_wg e hq (((σ₀.took [.pause] (List.replicate m .pause ++ [.resume])).setInternals
        { (σ₀.took [.pause] (List.replicate m .pause ++ [.resume])).wg.internals with
          isPaused := true }).emit (.info "Pausing..."))
    rw [hU] at this
    exact this
  have hch₁ : (τ₁.emit (.info "Paused")).wg.internals.pauseRequireChan =
      some (Chan.pending (List.replicate m .pause ++ [.resume])) := by
    show τ₁.wg.internals.pauseRequireChan = _
    rw [hwg₁]; rfl
  have hdis₁ : τ₁.wg.internals.isDisconnectRequested = false := by
    rw [hwg₁]
    exact hdis
  have hrst₁ : τ₁.wg.internals.isRestartRequired = σ₀.wg.internals.isRestartRequired := by
    rw [hwg₁]
    rfl
  have hW := pausedWait_drains e m fuel (τ₁.emit (.info "Paused")) hfuel hch₁
  -- the install of the resume
  have hwg₂ := installService_wg e hq _ _ hI
  have hrst₂ : (τ₂.emit (.info "Resumed")).wg.internals.isRestartRequired =
      σ₀.wg.internals.isRestartRequired := by
    show τ₂.wg.internals.isRestartRequired = _
    rw [hwg₂]; exact hrst₁
  have hselect : selectBranch fuel e d σ₀ = .ret (.next, d + 1) (τ₂.emit (.info "Resumed")) := by
    unfold selectBranch
    rw [tryRecv_pending σ₀ .pause _ hch₀]
    dsimp only
    unfold pauseBranch
    rw [hU]
    dsimp only
    rw [hW]
    dsimp only
    rw [if_neg (by
      show ¬ (τ₁.wg.internals.isDisconnectRequested = true)
      simp [hdis₁]), if_pos rfl, hI]
  -- counting
  have hUs := uninstallService_shape e (((σ₀.took [.pause] (List.replicate m .pause ++ [.resume])).setInternals
        { (σ₀.took [.pause] (List.replicate m .pause ++ [.resume])).wg.internals with
          isPaused := true }).emit (.info "Pausing..."))
  rw [hU] at hUs
  obtain ⟨mid, hmid, htr₁, -, -, -⟩ := hUs
  simp only [Res.sys, Res.returned, if_true] at htr₁
  have hIs := installService_shape e (((τ₁.emit (.info "Paused")).took
    (List.replicate m .pause ++ [.resume]) []).emit (.info "Resuming..."))
  rw [hI] at hIs
  obtain ⟨body, hbody₂, htr₂, -, -, -⟩ := hIs
  have htrace : (τ₂.emit (.info "Resumed")).trace =
      σ₀.trace ++ [Effect.recv .pause] ++ [Effect.info "Pausing..."] ++
        [Effect.call .uninstallService, Effect.lock] ++ mid ++ [Effect.unlock] ++
        [Effect.info "Paused"] ++
        (List.replicate m operation.pause ++ [operation.resume]).map Effect.recv ++
        [Effect.info "Resuming..."] ++
        [Effect.call .installService, Effect.lock] ++ body ++ [Effect.unlock] ++
        [Effect.info "Resumed"] := by
    simp only [Sys.emit]
    rw [htr₂]
    simp only [Sys.emit, Sys.took, Sys.setInternals]
    rw [htr₁]
    simp only [Sys.emit, Sys.took, Sys.setInternals]
    simp
  refine ⟨hselect, ?_, ?_, ?_, ?_, ?_⟩
  · rw [htrace]
    simp only [calls_append, calls_of_silent _ hmid, calls_of_inner _ hbody₂]
    simp only [calls_recv]
    simp [calls]
  · rw [htrace]
    simp only [calls_append, calls_of_silent _ hmid, calls_of_inner _ hbody₂]
    simp only [calls_recv]
    simp [calls]
  · rw [htrace]
    simp only [received_append, received_recv,
      received_of_inner (fun x hx => inner_of_silent x (hmid x hx)),
      received_of_inner hbody₂]
    simp [received, List.replicate_succ]
  · rw [hwg₂]
    rfl
  · intro σ hst hrst
    unfold pollBody
    rw [hst]
    dsimp only
    rw [if_neg (by simp), if_neg (by decide), hselect]
    dsimp only
    unfold restartBranch
    rw [if_neg (by simp [hrst₂, hrst])]
    rfl

/-- The run `Pause, Pause, Resume` with all three signals waiting on the channel. -/
theorem pause_signals_coalesce_witness :
    pollBody 2 pauseResumeEnv 0 twoPausesSys =
      .ret (.next, 1) (pollBody 2 pauseResumeEnv 0 twoPausesSys).sys ∧
    calls .uninstallService (pollBody 2 pauseResumeEnv 0 twoPausesSys).sys.trace = 1 ∧
    calls .installService (pollBody 2 pauseResumeEnv 0 twoPausesSys).sys.trace = 1 ∧
    received (pollBody 2 pauseResumeEnv 0 twoPausesSys).sys.trace = [.pause, .pause, .resume] := by
  have h := pause_signals_coalesce 1 2 0 pauseResumeEnv
    (getServiceStatus pauseResumeEnv twoPausesSys).2
    (uninstallService pauseResumeEnv
      ((((getServiceStatus pauseResumeEnv twoPausesSys).2.took [.pause]
          (List.replicate 1 .pause ++ [.resume])).setInternals
        { ((getServiceStatus pauseResumeEnv twoPausesSys).2.took [.pause]
            (List.replicate 1 .pause ++ [.resume])).wg.internals with
          isPaused := true }).emit (.info "Pausing..."))).sys
    (installService pauseResumeEnv
      ((((uninstallService pauseResumeEnv
        ((((getServiceStatus pauseResumeEnv twoPausesSys).2.took [.pause]
            (List.replicate 1 .pause ++ [.resume])).setInternals
          { ((getServiceStatus pauseResumeEnv twoPausesSys).2.took [.pause]
              (List.replicate 1 .pause ++ [.resume])).wg.internals with
            isPaused := true }).emit (.info "Pausing..."))).sys.emit (.info "Paused")).took
        (List.replicate 1 .pause ++ [.resume]) []).emit (.info "Resuming..."))).sys
    (fun _ => rfl) (by decide) (by decide) (by decide) (by decide) (by decide)
  obtain ⟨-, h₂, h₃, h₄, -, h₆⟩ := h
  have h₁ := h₆ twoPausesSys (by decide) (by decide)
  rw [h₁]
  exact ⟨rfl, h₂, h₃, h₄⟩

/-! ### Runs of `connect` with a pause -/

/-- C1, evaluated at the failing input: a `Disconnect` that arrives while the loop is paused
and `isRestartRequired` is set releases the wait, the `break` leaves the `select` only,
and the restart check sends `RECONNECTING` and calls `installService` again: the loop
keeps polling a running service with `isDisconnectRequested` set.  Without the pending
restart the same run ends with `connect` returning nil and no second install. -/
theorem disconnect_while_paused_reinstalls_on_pending_restart :
    (connect 4 dnsPauseDisconnectEnv (freshSys demoParams)).returned = false ∧
    (connect 4 dnsPauseDisconnectEnv (freshSys demoParams)).sys.wg.internals.isDisconnectRequested
      = true ∧
    received (connect 4 dnsPauseDisconnectEnv (freshSys demoParams)).sys.trace
      = [.pause, .resume] ∧
    events (connect 4 dnsPauseDisconnectEnv (freshSys demoParams)).sys.trace =
      [.CONNECTED (ip4 10 0 0 2) (ip4 1 2 3 4),
       .RECONNECTING "Reconnecting with new connection parameters",
       .CONNECTED (ip4 10 0 0 2) (ip4 1 2 3 4)] ∧
    calls .installService
      ((connect 4 dnsPauseDisconnectEnv (freshSys demoParams)).sys.trace.dropWhile
        (fun x => x != .recv .resume)) = 1 ∧
    connect 4 pauseDisconnectEnv (freshSys demoParams) =
      .ret none (connect 4 pauseDisconnectEnv (freshSys demoParams)).sys ∧
    calls .installService (connect 4 pauseDisconnectEnv (freshSys demoParams)).sys.trace = 1 := by
  decide

/-- C2, evaluated at the failing input: `connect`, then `Pause()`, then `Resume()` with a
successful reinstall.  The loop is running in the connected state again (the second
`CONNECTED` was sent and the loop polls a running service), and `isPaused()` still
returns true: the reset is deferred to the return of `connect`. -/
theorem isPaused_stays_true_after_resume :
    (connect 4 pauseThenResumeEnv (freshSys demoParams)).returned = false ∧
    received (connect 4 pauseThenResumeEnv (freshSys demoParams)).sys.trace
      = [.pause, .resume] ∧
    events (connect 4 pauseThenResumeEnv (freshSys demoParams)).sys.trace =
      [.CONNECTED (ip4 10 0 0 2) (ip4 1 2 3 4), .CONNECTED (ip4 10 0 0 2) (ip4 1 2 3 4)] ∧
    isPaused (connect 4 pauseThenResumeEnv (freshSys demoParams)).sys = true ∧
    isPaused (connect 4 pauseDisconnectEnv (freshSys demoParams)).sys = false := by
  decide

/-! ### The retry interval of `uninstallService` -/

theorem wrapInt64_of_small (x : Int) (h₀ : 0 ≤ x) (h₁ : x < 9223372036854775808) :
    wrapInt64 x = x := by
  unfold wrapInt64
  norm_num
  omega

theorem two_pow_le_64 (k : Nat) (h : k ≤ 6) : 2 ^ k ≤ 64 := by
  calc 2 ^ k ≤ 2 ^ 6 := Nat.pow_le_pow_right (by decide) h
    _ = 64 := by norm_num

theorem le_five_of_two_pow (k : Nat) (h : 2 ^ k ≤ 60) : k ≤ 5 := by
  by_contra hk
  have h6 : 6 ≤ k := by omega
  have : 2 ^ 6 ≤ 2 ^ k := Nat.pow_le_pow_right (by decide) h6
  norm_num at this
  omega

theorem execs_append (a b : List Effect) : execs (a ++ b) = execs a + execs b := by
  simp [execs]

theorem execs_of_background {seg : List Effect} (h : ∀ x ∈ seg, x.background = true) :
    execs seg = 0 := by
  induction seg with
  | nil => rfl
  | cons x xs ih =>
    have hx := h x (List.mem_cons_self _ _)
    have hxs := ih (fun y hy => h y (List.mem_cons_of_mem _ hy))
    cases x <;> simp_all [execs, Effect.background]

theorem Grows.execs_eq {σ τ : Sys} (h : Grows Effect.background σ τ) :
    execs τ.trace = execs σ.trace := by
  obtain ⟨⟨seg, hseg, hb⟩, -, -⟩ := h
  rw [hseg, execs_append, execs_of_background hb, Nat.add_zero]

theorem getServiceStatus_running (e : Env) (σ : Sys)
    (h : (getServiceStatus e σ).1.2.1 = svcRunning) : (getServiceStatus e σ).1.2.2 = none := by
  unfold getServiceStatus openService controlInterrogate at h ⊢
  cases he : e.openService σ.step with
  | some err => rw [he] at h; simp [svcRunning] at h
  | none =>
    rw [he] at h
    dsimp only at h ⊢
    cases hi : e.interrogate _ with
    | fail err => rw [hi] at h; simp [svcRunning] at h
    | state st => rfl

theorem RetryInv.advance {started k : Nat} {v : RetryVars} {σ σ' : Sys}
    (h : RetryInv started k v σ) (hnow : σ.now ≤ σ'.now) : RetryInv started k v σ' :=
  ⟨h.interval, h.spaced, le_trans h.past hnow, h.few⟩

/-- One pass through the body of the wait loop of `uninstallService`, started
within the deadline after `k` repeated commands. -/
theorem uninstallRetryBody_step (e : Env) (started k : Nat) (v : RetryVars) (σ : Sys)
    (hinv : RetryInv started k v σ)
    (hc : since σ started < (_waitServiceInstallTimeout : Int)) :
    (retryGuard e v σ ↔ execs (uninstallRetryBody e v σ).2.trace = execs σ.trace + 1) ∧
    (¬ retryGuard e v σ ↔ execs (uninstallRetryBody e v σ).2.trace = execs σ.trace) ∧
    σ.now ≤ (uninstallRetryBody e v σ).2.now ∧
    ((uninstallRetryBody e v σ).1 = .uninstalled → ¬ retryGuard e v σ) ∧
    (∀ err, (uninstallRetryBody e v σ).1 = .failed err → retryGuard e v σ) ∧
    ∀ v', (uninstallRetryBody e v σ).1 = .again v' →
      (retryGuard e v σ ∧
        v'.nextUninstallRetryTime = ((3 * second * 2 ^ (k + 1) : Nat) : Int) ∧
        v.nextUninstallRetryTime < v'.nextUninstallRetryTime ∧
        v'.lastUninstallRetryTime = (uninstallRetryBody e v σ).2.now ∧
        RetryInv started (k + 1) v' (uninstallRetryBody e v σ).2) ∨
      (¬ retryGuard e v σ ∧ v' = v ∧ RetryInv started k v (uninstallRetryBody e v σ).2) := by
  obtain ⟨hint, hsp, hpast, hfew⟩ := hinv
  have hp64 := two_pow_le_64 k hfew
  have hp1 : 1 ≤ 2 ^ k := Nat.one_le_two_pow
  have hsec : second = 1000000000 := rfl
  rw [installTimeout_eq] at hc
  unfold since at hc
  unfold retryGuard uninstallRetryBody
  have hg := getServiceStatus_grows e (Grows.refl Effect.background σ) (fun _ h => h)
  have hrun := getServiceStatus_running e σ
  revert hg hrun
  rcases getServiceStatus e σ with ⟨⟨f, st, err⟩, σ₁⟩
  intro hg hrun
  have hnow₁ := hg.now
  have hex₁ := hg.execs_eq
  dsimp only at hnow₁ hex₁ hrun ⊢
  by_cases hgone : err = some Err.ERROR_SERVICE_DOES_NOT_EXIST
  · rw [if_pos hgone]
    have hnG : ¬ (f = true ∧ st = svcRunning ∧
        since σ₁ v.lastUninstallRetryTime > v.nextUninstallRetryTime) := by
      rintro ⟨-, hst, -⟩
      rw [hrun hst] at hgone
      simp at hgone
    refine ⟨⟨fun h => absurd h hnG, fun h => ?_⟩, ⟨fun _ => hex₁, fun _ => hnG⟩, hnow₁,
      fun _ => hnG, ?_, ?_⟩
    · dsimp only at h; omega
    · intro err h; simp at h
    · intro v' h; simp at h
  · rw [if_neg hgone]
    by_cases hretry : f = true ∧ st = svcRunning ∧
        since σ₁ v.lastUninstallRetryTime > v.nextUninstallRetryTime
    · rw [if_pos hretry]
      obtain ⟨hf, hst, hel⟩ := hretry
      unfold shellExec
      have hk5 : k ≤ 5 := by
        apply le_five_of_two_pow
        rw [hsec] at hsp
        generalize 2 ^ k = p at *
        omega
      have hpow : 2 ^ (k + 1) = 2 * 2 ^ k := by rw [pow_succ]; ring
      have hnext : wrapInt64 (v.nextUninstallRetryTime * 2) =
          ((3 * second * 2 ^ (k + 1) : Nat) : Int) := by
        rw [hint, hpow, wrapInt64_of_small]
        · push_cast; ring
        · positivity
        · rw [hsec]
          generalize 2 ^ k = p at *
          push_cast
          omega
      have hex₂ : execs ((σ₁.emit (.info "Retry: uninstalling service...")).emit
          (.exec σ₁.wg.binaryPath ["/uninstalltunnelservice", getTunnelName σ₁])).trace =
          execs σ.trace + 1 := by
        simp only [Sys.emit, execs_append, hex₁]
        simp [execs]
      have hnow₂ : σ.now ≤ σ₁.now + e.latency σ₁.step := le_trans hnow₁ (Nat.le_add_right _ _)
      have hG : f = true ∧ st = svcRunning ∧
          since σ₁ v.lastUninstallRetryTime > v.nextUninstallRetryTime := ⟨hf, hst, hel⟩
      cases e.shellExec _ with
      | some err₁ =>
        refine ⟨⟨fun _ => hex₂, fun _ => hG⟩, ⟨fun h => absurd hG h, fun h => ?_⟩, hnow₂,
          ?_, fun _ _ => hG, ?_⟩
        · have := hex₂.symm.trans h; omega
        · intro h; simp at h
        · intro v' h; simp at h
      | none =>
        refine ⟨⟨fun _ => hex₂, fun _ => hG⟩, ⟨fun h => absurd hG h, fun h => ?_⟩, hnow₂,
          ?_, ?_, ?_⟩
        · have := hex₂.symm.trans h; omega
        · intro h; simp at h
        · intro err h; simp at h
        · intro v' h
          dsimp only at h
          injection h with h
          subst h
          left
          refine ⟨hG, hnext, ?_, rfl, ⟨hnext, ?_, le_rfl, by omega⟩⟩
          · show v.nextUninstallRetryTime < wrapInt64 (v.nextUninstallRetryTime * 2)
            rw [hnext, hint, hpow, hsec]
            generalize 2 ^ k = p at *
            push_cast
            omega
          · show started + 3 * second * (2 ^ (k + 1) - 1) ≤ σ₁.now + e.latency σ₁.step
            rw [hint] at hel
            unfold since at hel
            rw [hpow]
            rw [hsec] at hel hsp ⊢
            generalize 2 ^ k = p at *
            push_cast at hel
            omega
    · rw [if_neg hretry]
      refine ⟨⟨fun h => absurd h hretry, fun h => ?_⟩, ⟨fun _ => hex₁, fun _ => hretry⟩, hnow₁,
        fun _ => hretry, ?_, ?_⟩
      · dsimp only at h; omega
      · intro err h; simp at h
      · intro v' h
        dsimp only at h
        injection h with h
        subst h
        right
        exact ⟨hretry, rfl, ⟨hint, hsp, le_trans hpast hnow₁, hfew⟩⟩

theorem uninstallWait_invariant (e : Env) (started : Nat) :
    ∀ (fuel k : Nat) (v : RetryVars) (σ : Sys), RetryInv started k v σ →
      ∃ k', k ≤ k' ∧
        RetryInv started k' (uninstallWait fuel e started v σ).vars
          (uninstallWait fuel e started v σ).sys ∧
        execs (uninstallWait fuel e started v σ).sys.trace =
          execs σ.trace + (k' - k) + (uninstallWait fuel e started v σ).ended.lost := by
  intro fuel
  induction fuel with
  | zero =>
    intro k v σ h
    exact ⟨k, le_rfl, h, by simp [uninstallWait, WaitEnd.lost]⟩
  | succ n ih =>
    intro k v σ h
    unfold uninstallWait
    by_cases hc : since σ started < (_waitServiceInstallTimeout : Int)
    · rw [if_pos hc]
      obtain ⟨hG₁, hG₀, hnow, hun, hfail, hagain⟩ := uninstallRetryBody_step e started k v σ h hc
      revert hG₁ hG₀ hnow hun hfail hagain
      rcases uninstallRetryBody e v σ with ⟨_ | err | v₁, σ₁⟩
      · intro _ hG₀ hnow hun _ _
        refine ⟨k, le_rfl, h.advance hnow, ?_⟩
        have := hG₀.mp (hun rfl)
        simpa [WaitEnd.lost] using this
      · intro hG₁ _ hnow _ hfail _
        refine ⟨k, le_rfl, h.advance hnow, ?_⟩
        have := hG₁.mp (hfail err rfl)
        simpa [WaitEnd.lost] using this
      · intro hG₁ hG₀ _ _ _ hagain
        have hs := sleep_grows e 50 (Grows.refl Effect.background σ₁) (fun _ h => h)
        rcases hagain v₁ rfl with ⟨hG, -, -, -, hinv⟩ | ⟨hG, -, hinv⟩
        · obtain ⟨k', hk', hinv', hex'⟩ := ih (k + 1) v₁ (sleep e 50 σ₁) (hinv.advance hs.now)
          refine ⟨k', by omega, hinv', ?_⟩
          dsimp only at hinv' hex' ⊢
          rw [hex', hs.execs_eq, hG₁.mp hG]
          omega
        · obtain ⟨k', hk', hinv', hex'⟩ := ih k v₁ (sleep e 50 σ₁) (by
            have := hagain v₁ rfl
            rcases this with ⟨hG', -⟩ | ⟨-, hv, -⟩
            · exact absurd hG' hG
            · rw [hv]; exact hinv.advance hs.now)
          refine ⟨k', hk', hinv', ?_⟩
          dsimp only at hinv' hex' ⊢
          rw [hex', hs.execs_eq, hG₀.mp hG]
    · rw [if_neg hc]
      exact ⟨k, le_rfl, h, by simp [WaitEnd.lost]⟩

/-- C10: the retry interval of the wait loop of `uninstallService`.  After any number of
passes of the loop as `uninstallService` starts it (interval 3 s, last command now), with
`k` the number of repeated commands whose issue updated the loop variables: `k ≤ 6`, the
interval is exactly `3 s * 2 ^ k` (the `int64` doubling never wraps), and in the next
pass within the deadline the command is issued again exactly when the service is
observed existing and running and more than `3 s * 2 ^ k` have passed since the last
command; issuing it doubles the interval, which is then strictly larger, and restarts
the measurement at the current time. -/
theorem uninstall_retry_interval_doubles (fuel : Nat) (e : Env) (τ : Sys) :
    ∃ k, k ≤ 6 ∧
      execs (uninstallWait fuel e τ.now
          { lastUninstallRetryTime := τ.now, nextUninstallRetryTime := 3 * second } τ).sys.trace =
        execs τ.trace + k + (uninstallWait fuel e τ.now
          { lastUninstallRetryTime := τ.now, nextUninstallRetryTime := 3 * second } τ).ended.lost ∧
      (uninstallWait fuel e τ.now
          { lastUninstallRetryTime := τ.now, nextUninstallRetryTime := 3 * second }
          τ).vars.nextUninstallRetryTime = ((3 * second * 2 ^ k : Nat) : Int) ∧
      (uninstallWait fuel e τ.now
          { lastUninstallRetryTime := τ.now, nextUninstallRetryTime := 3 * second }
          τ).vars.nextUninstallRetryTime < 2 ^ 63 ∧
      ∀ v σ, v = (uninstallWait fuel e τ.now
          { lastUninstallRetryTime := τ.now, nextUninstallRetryTime := 3 * second } τ).vars →
        σ = (uninstallWait fuel e τ.now
          { lastUninstallRetryTime := τ.now, nextUninstallRetryTime := 3 * second } τ).sys →
        since σ τ.now < (_waitServiceInstallTimeout : Int) →
        (retryGuard e v σ ↔ execs (uninstallRetryBody e v σ).2.trace = execs σ.trace + 1) ∧
        (¬ retryGuard e v σ ↔ execs (uninstallRetryBody e v σ).2.trace = execs σ.trace) ∧
        (retryGuard e v σ →
          since (getServiceStatus e σ).2 v.lastUninstallRetryTime >
            ((3 * second * 2 ^ k : Nat) : Int)) ∧
        ∀ v', (uninstallRetryBody e v σ).1 = .again v' →
          (retryGuard e v σ ∧
            v'.nextUninstallRetryTime = ((3 * second * 2 ^ (k + 1) : Nat) : Int) ∧
            v.nextUninstallRetryTime < v'.nextUninstallRetryTime ∧
            v'.lastUninstallRetryTime = (uninstallRetryBody e v σ).2.now) ∨
          (¬ retryGuard e v σ ∧ v' = v) := by
  have h₀ : RetryInv τ.now 0
      { lastUninstallRetryTime := τ.now, nextUninstallRetryTime := 3 * second } τ :=
    ⟨by simp, by simp, le_rfl, by omega⟩
  obtain ⟨k, -, hinv, hex⟩ := uninstallWait_invariant e τ.now fuel 0 _ τ h₀
  refine ⟨k, hinv.few, by simpa using hex, hinv.interval, ?_, ?_⟩
  · rw [hinv.interval]
    have hp64 := two_pow_le_64 k hinv.few
    have hsec : second = 1000000000 := rfl
    rw [hsec]
    generalize 2 ^ k = p at *
    push_cast
    norm_num
    omega
  · intro v σ hv hσ hc
    subst hv hσ
    obtain ⟨hG₁, hG₀, -, -, -, hagain⟩ := uninstallRetryBody_step e τ.now k _ _ hinv hc
    refine ⟨hG₁, hG₀, ?_, ?_⟩
    · intro hG
      rw [← hinv.interval]
      exact hG.2.2
    · intro v' hv'
      rcases hagain v' hv' with ⟨hG, h₁, h₂, h₃, -⟩ | ⟨hG, h₁, -⟩
      · exact Or.inl ⟨hG, h₁, h₂, h₃⟩
      · exact Or.inr ⟨hG, h₁⟩

/-- C10, witness: with interactions of two seconds the first two passes both repeat the
command, after more than 3 s and then more than 6 s, and the interval is 12 s. -/
theorem uninstall_retry_interval_doubles_witness :
    (∃ k, k ≤ 6 ∧ (uninstallWait 2 slowEnv 0
        { lastUninstallRetryTime := 0, nextUninstallRetryTime := 3 * second }
        (freshSys demoParams)).vars.nextUninstallRetryTime = ((3 * second * 2 ^ k : Nat) : Int)) ∧
    (uninstallWait 2 slowEnv 0
        { lastUninstallRetryTime := 0, nextUninstallRetryTime := 3 * second }
        (freshSys demoParams)).vars.nextUninstallRetryTime = 12 * second ∧
    execs (uninstallWait 2 slowEnv 0
        { lastUninstallRetryTime := 0, nextUninstallRetryTime := 3 * second }
        (freshSys demoParams)).sys.trace = 2 := by
  obtain ⟨k, hk, -, hint, -⟩ := uninstall_retry_interval_doubles 2 slowEnv (freshSys demoParams)
  exact ⟨⟨k, hk, hint⟩, by decide, by decide⟩

/-! ### A controller already disconnected -/

/-- C11: on a controller whose `isDisconnectRequested` is set, `connect` returns
the error at once and the state it leaves is the state it found: no call of
`uninstallService` or `installService` is made, no record is sent on the event
sink, the control channel and the DNS override are as before, the trace has no
new effect (so `dns.SetManual` and `dns.DeleteManual` are not called), every
controller field is unchanged and no time has passed. -/
theorem connect_refused_after_disconnect (fuel : Nat) (e : Env) (σ : Sys)
    (h : σ.wg.internals.isDisconnectRequested = true) :
    connect fuel e σ =
      .ret (some (.text "disconnection already requested for this object. To make a new connection, please, initialize new one")) σ ∧
    (connect fuel e σ).returned = true ∧
    (connect fuel e σ).sys = σ ∧
    calls .uninstallService (connect fuel e σ).sys.trace = calls .uninstallService σ.trace ∧
    calls .installService (connect fuel e σ).sys.trace = calls .installService σ.trace ∧
    events (connect fuel e σ).sys.trace = events σ.trace ∧
    (connect fuel e σ).sys.wg.internals.pauseRequireChan = σ.wg.internals.pauseRequireChan ∧
    (connect fuel e σ).sys.wg.internals.manualDNS = σ.wg.internals.manualDNS ∧
    (connect fuel e σ).sys.trace = σ.trace ∧
    (connect fuel e σ).sys.wg = σ.wg ∧
    (connect fuel e σ).sys.now = σ.now := by
  have hc : connect fuel e σ =
      .ret (some (.text "disconnection already requested for this object. To make a new connection, please, initialize new one")) σ := by
    unfold connect
    rw [if_pos h]
  rw [hc]
  exact ⟨rfl, rfl, rfl, rfl, rfl, rfl, rfl, rfl, rfl, rfl, rfl⟩

theorem connect_refused_after_disconnect_witness :
    disconnectedSys.wg.internals.isDisconnectRequested = true ∧
    connect 4 runningEnv disconnectedSys =
      .ret (some (.text "disconnection already requested for this object. To make a new connection, please, initialize new one")) disconnectedSys :=
  ⟨by decide, (connect_refused_after_disconnect 4 runningEnv disconnectedSys (by decide)).1⟩

/-! ### The lines of the configuration file -/

/-- C14: `getOSSpecificConfigParams` returns an empty peer section and an
interface section of two lines: first `DNS = ` with the manual DNS server when
one is set and with the host tunnel-local address when none is set, then
`Address = ` with the client tunnel-local address. -/
theorem getOSSpecificConfigParams_lines (ipText : IP → String) (σ : Sys) :
    (getOSSpecificConfigParams ipText σ).2 = [] ∧
    (getOSSpecificConfigParams ipText σ).1.length = 2 ∧
    (∀ dns, σ.wg.internals.manualDNS = some dns →
      (getOSSpecificConfigParams ipText σ).1 =
        ["DNS = " ++ ipText (some dns), "Address = " ++ ipText σ.wg.connectParams.clientLocalIP]) ∧
    (σ.wg.internals.manualDNS = none →
      (getOSSpecificConfigParams ipText σ).1 =
        ["DNS = " ++ ipText σ.wg.connectParams.hostLocalIP,
         "Address = " ++ ipText σ.wg.connectParams.clientLocalIP]) := by
  unfold getOSSpecificConfigParams
  cases h : σ.wg.internals.manualDNS with
  | none => simp
  | some dns => simp

theorem getOSSpecificConfigParams_lines_witness :
    pauseRestartSys.wg.internals.manualDNS = some [9, 9, 9, 9] ∧
    (freshSys demoParams).wg.internals.manualDNS = none ∧
    (getOSSpecificConfigParams dottedQuad pauseRestartSys).1 =
      ["DNS = 9.9.9.9", "Address = 10.0.0.2"] ∧
    (getOSSpecificConfigParams dottedQuad (freshSys demoParams)).1 =
      ["DNS = 10.0.0.1", "Address = 10.0.0.2"] :=
  ⟨rfl, rfl, (getOSSpecificConfigParams_lines dottedQuad pauseRestartSys).2.2.1 _ rfl,
    (getOSSpecificConfigParams_lines dottedQuad (freshSys demoParams)).2.2.2 rfl⟩


/-! ### The order of the checks in the loop of `connect` -/

theorem Sys.before_refl (σ : Sys) : σ.before σ := ⟨[], by simp⟩

theorem Sys.before_trans {σ τ υ : Sys} (h₁ : σ.before τ) (h₂ : τ.before υ) : σ.before υ := by
  obtain ⟨a, ha⟩ := h₁
  obtain ⟨b, hb⟩ := h₂
  exact ⟨a ++ b, by rw [hb, ha, List.append_assoc]⟩

theorem Sys.before_emit (σ : Sys) (x : Effect) : σ.before (σ.emit x) := ⟨[x], rfl⟩

theorem Grows.before {P : Effect → Bool} {σ τ : Sys} (h : Grows P σ τ) : σ.before τ := by
  obtain ⟨⟨seg, hseg, -⟩, -, -⟩ := h
  exact ⟨seg, hseg⟩

theorem uninstallService_before (e : Env) (τ : Sys) : τ.before (uninstallService e τ).sys := by
  obtain ⟨mid, -, htr, -⟩ := uninstallService_shape e τ
  exact ⟨_, by rw [htr, List.append_assoc, List.append_assoc]⟩

theorem installService_before (e : Env) (τ : Sys) : τ.before (installService e τ).sys := by
  have h := installService_shape e τ
  revert h
  cases installService e τ with
  | ret r σ' =>
    cases r with
    | none =>
      rintro ⟨body, -, htr, -⟩
      exact ⟨_, by show σ'.trace = _; rw [htr, List.append_assoc, List.append_assoc]⟩
    | some err =>
      rintro ⟨body, mid, logs, -, -, -, htr, -⟩
      exact ⟨_, by show σ'.trace = _; rw [htr]; simp only [List.append_assoc]; rfl⟩
  | block σ' =>
    rintro ⟨body, -, htr, -⟩
    exact ⟨_, by show σ'.trace = _; rw [htr]; simp only [List.append_assoc]; rfl⟩
  | spin σ' =>
    rintro ⟨seg, -, htr⟩
    exact ⟨_, htr⟩

theorem restartBranch_before (e : Env) (τ : Sys) : τ.before (restartBranch e τ).sys := by
  unfold restartBranch
  split
  · have h₀ : τ.before (((τ.setInternals { τ.wg.internals with isRestartRequired := false }).emit
          (.send (.RECONNECTING "Reconnecting with new connection parameters"))).emit
            (.info "Restarting...")) := ⟨_, by simp [Sys.emit, Sys.setInternals]; rfl⟩
    have h₁ := uninstallService_before e
      (((τ.setInternals { τ.wg.internals with isRestartRequired := false }).emit
          (.send (.RECONNECTING "Reconnecting with new connection parameters"))).emit
            (.info "Restarting..."))
    revert h₁
    cases uninstallService e _ with
    | block σ₁ => exact fun h₁ => Sys.before_trans h₀ h₁
    | spin σ₁ => exact fun h₁ => Sys.before_trans h₀ h₁
    | ret r σ₁ =>
      intro h₁
      cases r with
      | some err => exact Sys.before_trans (Sys.before_trans h₀ h₁) (Sys.before_emit _ _)
      | none =>
        have h₂ := installService_before e σ₁
        revert h₂
        dsimp only
        cases installService e σ₁ with
        | block σ₂ => exact fun h₂ => Sys.before_trans (Sys.before_trans h₀ h₁) h₂
        | spin σ₂ => exact fun h₂ => Sys.before_trans (Sys.before_trans h₀ h₁) h₂
        | ret r₂ σ₂ =>
          intro h₂
          cases r₂ <;>
            exact Sys.before_trans (Sys.before_trans (Sys.before_trans h₀ h₁) h₂) (Sys.before_emit _ _)
  · exact Sys.before_refl τ

theorem tryRecv_before (τ : Sys) (o : operation) (σ₁ : Sys) (h : tryRecv τ = some (o, σ₁)) :
    σ₁.trace = τ.trace ++ [.recv o] := by
  unfold tryRecv at h
  revert h
  cases τ.wg.internals.pauseRequireChan with
  | none => intro h; simp at h
  | some ch =>
    dsimp only
    cases ch.buf with
    | nil => intro h; simp at h
    | cons o' rest =>
      intro h
      simp only [Option.some.injEq, Prod.mk.injEq] at h
      obtain ⟨rfl, rfl⟩ := h
      rfl

theorem recv_before (e : Env) (τ : Sys) (o : operation) (σ₁ : Sys)
    (h : recv e τ = some (o, σ₁)) : τ.before σ₁ := by
  unfold recv at h
  revert h
  cases h₁ : tryRecv τ with
  | some r =>
    intro h
    simp only [Option.some.injEq] at h
    subst h
    exact ⟨_, tryRecv_before τ o σ₁ h₁⟩
  | none =>
    intro h
    exact Sys.before_trans (yield_grows e (Grows.refl (fun _ => true) τ) (fun _ _ => rfl)).before
      ⟨_, tryRecv_before _ o σ₁ h⟩

theorem pausedWait_before (e : Env) :
    ∀ (fuel : Nat) (τ : Sys), τ.before (pausedWait fuel e τ).sys := by
  intro fuel
  induction fuel with
  | zero => exact fun τ => Sys.before_refl τ
  | succ n ih =>
    intro τ
    unfold pausedWait
    cases h : recv e τ with
    | none =>
      exact (yield_grows e (Grows.refl (fun _ => true) τ) (fun _ _ => rfl)).before
    | some r =>
      rcases r with ⟨o, σ₁⟩
      have h₁ := recv_before e τ o σ₁ h
      cases o with
      | pause => exact Sys.before_trans h₁ (ih σ₁)
      | resume => exact h₁

theorem pauseBranch_before (fuel : Nat) (e : Env) (defers : Nat) (τ : Sys) :
    τ.before (pauseBranch fuel e defers τ).sys := by
  unfold pauseBranch
  have h₀ : τ.before ((τ.setInternals { τ.wg.internals with isPaused := true }).emit
      (.info "Pausing...")) := ⟨[.info "Pausing..."], rfl⟩
  have h₁ := uninstallService_before e
    ((τ.setInternals { τ.wg.internals with isPaused := true }).emit (.info "Pausing..."))
  revert h₁
  cases uninstallService e _ with
  | block σ₁ => exact fun h₁ => Sys.before_trans h₀ h₁
  | spin σ₁ => exact fun h₁ => Sys.before_trans h₀ h₁
  | ret r σ₁ =>
    intro h₁
    cases r with
    | some err => exact Sys.before_trans (Sys.before_trans h₀ h₁) (Sys.before_emit _ _)
    | none =>
      have h₂ := pausedWait_before e fuel (σ₁.emit (.info "Paused"))
      have h₁' := Sys.before_trans (Sys.before_trans h₀ h₁) (Sys.before_emit σ₁ (.info "Paused"))
      revert h₂
      dsimp only
      cases pausedWait fuel e _ with
      | block σ₂ => exact fun h₂ => Sys.before_trans h₁' h₂
      | spin σ₂ => exact fun h₂ => Sys.before_trans h₁' h₂
      | ret toDo σ₂ =>
        intro h₂
        have h₂' := Sys.before_trans h₁' h₂
        dsimp only
        cases σ₂.wg.internals.isDisconnectRequested with
        | true => exact h₂'
        | false =>
          rw [if_neg (by decide : ¬ (false = true))]
          cases toDo with
          | pause => exact h₂'
          | resume =>
            rw [if_pos rfl]
            have h₃ := installService_before e (σ₂.emit (.info "Resuming..."))
            have h₃' : ∀ {υ : Sys}, (σ₂.emit (.info "Resuming...")).before υ → τ.before υ :=
              fun h => Sys.before_trans (Sys.before_trans h₂' (Sys.before_emit σ₂ _)) h
            revert h₃
            cases installService e _ with
            | block σ₃ => exact fun h₃ => h₃' h₃
            | spin σ₃ => exact fun h₃ => h₃' h₃
            | ret r₃ σ₃ =>
              intro h₃
              cases r₃ <;> exact Sys.before_trans (h₃' h₃) (Sys.before_emit _ _)

theorem selectBranch_before (fuel : Nat) (e : Env) (defers : Nat) (τ : Sys) :
    τ.before (selectBranch fuel e defers τ).sys := by
  unfold selectBranch
  cases h : tryRecv τ with
  | none => exact Sys.before_refl τ
  | some r =>
    rcases r with ⟨o, σ₁⟩
    have h₁ : τ.before σ₁ := ⟨_, tryRecv_before τ o σ₁ h⟩
    cases o with
    | pause => exact Sys.before_trans h₁ (pauseBranch_before fuel e defers σ₁)
    | resume => exact h₁

theorem selectBranch_recv_first (fuel : Nat) (e : Env) (defers : Nat) (τ : Sys)
    (o : operation) (σ₁ : Sys) (h : tryRecv τ = some (o, σ₁)) :
    σ₁.before (selectBranch fuel e defers τ).sys := by
  unfold selectBranch
  rw [h]
  cases o with
  | pause => exact pauseBranch_before fuel e defers σ₁
  | resume => exact Sys.before_refl σ₁

theorem getServiceStatus_first (e : Env) (σ : Sys) :
    ∃ seg, (getServiceStatus e σ).2.trace = σ.trace ++ Effect.openService :: seg := by
  unfold getServiceStatus openService controlInterrogate
  cases e.openService σ.step with
  | some err => exact ⟨[], rfl⟩
  | none =>
    dsimp only
    cases e.interrogate _ <;> exact ⟨[.interrogate], by simp [Sys.emit, Sys.tick]⟩

theorem sys_andThen_ret {α β : Type} (r : Res α) (g : α → β) :
    (r.andThen fun a σ => .ret (g a) σ).sys = r.sys := by
  cases r <;> rfl

theorem pollBody_eq (fuel : Nat) (e : Env) (defers : Nat) (σ : Sys) :
    pollBody fuel e defers σ =
      if statusEnds (getServiceStatus e σ).1 = true then
        .ret (.leave, defers) (getServiceStatus e σ).2
      else
        match selectBranch fuel e defers (getServiceStatus e σ).2 with
        | .ret (.next, d) σ₂ => (restartBranch e σ₂).andThen fun f σ₃ => .ret (f, d) σ₃
        | r => r := by
  unfold pollBody statusEnds
  rcases getServiceStatus e σ with ⟨⟨f, stat, err⟩, σ₁⟩
  dsimp only
  by_cases hA : err = some .ERROR_SERVICE_DOES_NOT_EXIST ∨ err = some .ERROR_SERVICE_DISABLED ∨
      err = some .ERROR_SERVICE_NOT_ACTIVE ∨ err = some .ERROR_SERVICE_NOT_FOUND
  · rw [if_pos hA, if_pos]
    rw [decide_eq_true_iff]
    tauto
  · rw [if_neg hA]
    by_cases hB : stat = svcStopped
    · rw [if_pos hB, if_pos]
      rw [decide_eq_true_iff]
      tauto
    · rw [if_neg hB, if_neg (by rw [decide_eq_true_iff]; tauto)]

theorem pollBody_after_select (fuel : Nat) (e : Env) (defers : Nat) (τ : Sys) :
    (selectBranch fuel e defers τ).sys.before
      (match selectBranch fuel e defers τ with
        | .ret (.next, d) σ₂ => (restartBranch e σ₂).andThen fun f σ₃ => .ret (f, d) σ₃
        | r => r).sys := by
  cases selectBranch fuel e defers τ with
  | block σ₂ => exact Sys.before_refl _
  | spin σ₂ => exact Sys.before_refl _
  | ret r σ₂ =>
    rcases r with ⟨f, d⟩
    cases f with
    | next =>
      dsimp only
      rw [sys_andThen_ret]
      exact restartBranch_before e σ₂
    | leave => exact Sys.before_refl _
    | exit err => exact Sys.before_refl _

/-- C13 (amended): every pass of the loop of `connect` queries the service
status first (`OpenService` is the first effect of the pass).  When the answer
is stopped or absent the pass leaves the loop there: the controller fields, the
control channel with any pending signal, the received signals and the sent
records are as before.  Otherwise the `select` runs on the state the query left
and the restart check on the state the `select` left: a pending signal is taken
right after the query, before anything the restart check does, and with no
pending signal the pass is the restart check. -/
theorem pollBody_checks_status_first (fuel : Nat) (e : Env) (defers : Nat) (σ : Sys) :
    (∃ seg, (pollBody fuel e defers σ).sys.trace = σ.trace ++ Effect.openService :: seg) ∧
    (statusEnds (getServiceStatus e σ).1 = true →
      pollBody fuel e defers σ = .ret (.leave, defers) (getServiceStatus e σ).2 ∧
      (pollBody fuel e defers σ).sys.wg = σ.wg ∧
      received (pollBody fuel e defers σ).sys.trace = received σ.trace ∧
      events (pollBody fuel e defers σ).sys.trace = events σ.trace) ∧
    (statusEnds (getServiceStatus e σ).1 = false →
      pollBody fuel e defers σ =
        (match selectBranch fuel e defers (getServiceStatus e σ).2 with
          | .ret (.next, d) σ₂ => (restartBranch e σ₂).andThen fun f σ₃ => .ret (f, d) σ₃
          | r => r) ∧
      (∀ o σ₁, tryRecv (getServiceStatus e σ).2 = some (o, σ₁) →
        ∃ seg, (pollBody fuel e defers σ).sys.trace =
          (getServiceStatus e σ).2.trace ++ Effect.recv o :: seg) ∧
      (tryRecv (getServiceStatus e σ).2 = none →
        pollBody fuel e defers σ =
          (restartBranch e (getServiceStatus e σ).2).andThen fun f σ₃ => .ret (f, defers) σ₃)) := by
  have hfirst := getServiceStatus_first e σ
  have hg : Grows Effect.background σ (getServiceStatus e σ).2 :=
    getServiceStatus_grows e (Grows.refl _ σ) (fun _ h => h)
  have heq := pollBody_eq fuel e defers σ
  have hends : statusEnds (getServiceStatus e σ).1 = true →
      pollBody fuel e defers σ = .ret (.leave, defers) (getServiceStatus e σ).2 := by
    intro h
    rw [heq, if_pos h]
  have hgoes : statusEnds (getServiceStatus e σ).1 = false →
      pollBody fuel e defers σ =
        (match selectBranch fuel e defers (getServiceStatus e σ).2 with
          | .ret (.next, d) σ₂ => (restartBranch e σ₂).andThen fun f σ₃ => .ret (f, d) σ₃
          | r => r) := by
    intro h
    rw [heq, if_neg (by rw [h]; decide)]
  have hafter : statusEnds (getServiceStatus e σ).1 = false →
      (getServiceStatus e σ).2.before (pollBody fuel e defers σ).sys := by
    intro h
    rw [hgoes h]
    exact Sys.before_trans (selectBranch_before fuel e defers _) (pollBody_after_select fuel e defers _)
  refine ⟨?_, ?_, ?_⟩
  · obtain ⟨seg, hseg⟩ := hfirst
    cases h : statusEnds (getServiceStatus e σ).1 with
    | true =>
      rw [hends h]
      exact ⟨seg, hseg⟩
    | false =>
      obtain ⟨rest, hrest⟩ := hafter h
      exact ⟨seg ++ rest, by rw [hrest, hseg]; simp⟩
  · intro h
    refine ⟨hends h, ?_, ?_, ?_⟩
    · rw [hends h]
      exact getServiceStatus_wg e σ
    · rw [hends h]
      obtain ⟨⟨seg, hseg, hb⟩, -, -⟩ := hg
      show received (getServiceStatus e σ).2.trace = _
      rw [hseg, received_append,
        received_of_inner (fun x hx => inner_of_silent x (silent_of_background x (hb x hx))),
        List.append_nil]
    · rw [hends h]
      exact (hg.mono silent_of_background).events_eq
  · intro h
    refine ⟨hgoes h, ?_, ?_⟩
    · intro o σ₁ ho
      rw [hgoes h]
      obtain ⟨rest, hrest⟩ := Sys.before_trans (selectBranch_recv_first fuel e defers _ o σ₁ ho)
        (pollBody_after_select fuel e defers _)
      exact ⟨rest, by rw [hrest, tryRecv_before _ o σ₁ ho]; simp⟩
    · intro hnone
      rw [hgoes h]
      unfold selectBranch
      rw [hnone]

/-- C13 (counterexample): with a `Pause` signal pending and the service
reported stopped (or absent), the pass leaves the loop on the status and `connect`'s
loop returns with the signal still in the channel: nothing was received. -/
theorem pending_pause_left_on_stopped_status :
    fullChanSys.wg.internals.pauseRequireChan = some { cap := 1, buf := [.pause], sendq := [] } ∧
    (getServiceStatus stoppedEnv fullChanSys).1 = (true, svcStopped, none) ∧
    pollBody 4 stoppedEnv 0 fullChanSys =
      .ret (.leave, 0) (getServiceStatus stoppedEnv fullChanSys).2 ∧
    pollLoop 4 stoppedEnv 0 fullChanSys =
      .ret (none, 0) (getServiceStatus stoppedEnv fullChanSys).2 ∧
    (pollLoop 4 stoppedEnv 0 fullChanSys).sys.trace = [.openService, .interrogate] ∧
    received (pollLoop 4 stoppedEnv 0 fullChanSys).sys.trace = [] ∧
    (pollLoop 4 stoppedEnv 0 fullChanSys).sys.wg.internals.pauseRequireChan =
      some { cap := 1, buf := [.pause], sendq := [] } ∧
    (getServiceStatus noConfigEnv fullChanSys).1 =
      (false, 0, some .ERROR_SERVICE_DOES_NOT_EXIST) ∧
    pollLoop 4 noConfigEnv 0 fullChanSys =
      .ret (none, 0) (getServiceStatus noConfigEnv fullChanSys).2 ∧
    (pollLoop 4 noConfigEnv 0 fullChanSys).sys.trace = [.openService] ∧
    (pollLoop 4 noConfigEnv 0 fullChanSys).sys.wg.internals.pauseRequireChan =
      some { cap := 1, buf := [.pause], sendq := [] } := by
  decide

theorem pollBody_checks_status_first_witness :
    (statusEnds (getServiceStatus stoppedEnv fullChanSys).1 = true ∧
      pollBody 4 stoppedEnv 0 fullChanSys =
        .ret (.leave, 0) (getServiceStatus stoppedEnv fullChanSys).2) ∧
    (statusEnds (getServiceStatus pauseResumeEnv pauseRestartSys).1 = false ∧
      ∃ seg, (pollBody 4 pauseResumeEnv 0 pauseRestartSys).sys.trace =
        (getServiceStatus pauseResumeEnv pauseRestartSys).2.trace ++ Effect.recv .pause :: seg) :=
  ⟨⟨by decide, ((pollBody_checks_status_first 4 stoppedEnv 0 fullChanSys).2.1 (by decide)).1⟩,
    by decide,
    ((pollBody_checks_status_first 4 pauseResumeEnv 0 pauseRestartSys).2.2 (by decide)).2.1
      .pause _ rfl⟩

/-! ### The flag `isDisconnectRequested` is only ever set -/

theorem flagKept_refl (e : Env) (σ : Sys) : FlagKept e σ σ := ⟨fun h => h, fun _ => rfl⟩

theorem flagKept_trans {e : Env} {σ τ υ : Sys} (h₁ : FlagKept e σ τ) (h₂ : FlagKept e τ υ) :
    FlagKept e σ υ :=
  ⟨fun h => h₂.stays (h₁.stays h), fun hq => (h₂.same hq).trans (h₁.same hq)⟩

theorem flagKept_of_flag (e : Env) {σ σ' : Sys}
    (h : σ'.disconnectRequested = σ.disconnectRequested) : FlagKept e σ σ' :=
  ⟨fun h' => h.trans h', fun _ => h⟩

theorem flagKept_of_wg (e : Env) {σ σ' : Sys} (h : σ'.wg = σ.wg) : FlagKept e σ σ' :=
  flagKept_of_flag e (by unfold Sys.disconnectRequested; rw [h])

theorem flagKept_from {e : Env} {σ τ υ : Sys} (h₂ : FlagKept e τ υ)
    (h : τ.disconnectRequested = σ.disconnectRequested) : FlagKept e σ υ :=
  flagKept_trans (flagKept_of_flag e h) h₂

theorem flagKept_emit {e : Env} {σ τ : Sys} (h : FlagKept e σ τ) (x : Effect) :
    FlagKept e σ (τ.emit x) :=
  flagKept_trans h (flagKept_of_wg e rfl)

theorem requireOperation_flag (o : operation) (τ : Sys) :
    (requireOperation o τ).sys.disconnectRequested = τ.disconnectRequested := by
  unfold requireOperation
  cases τ.wg.internals.pauseRequireChan with
  | none => rfl
  | some ch =>
    dsimp only
    split <;> rfl

theorem parkSender_flag (o : operation) (τ : Sys) :
    (parkSender o τ).disconnectRequested = τ.disconnectRequested := by
  unfold parkSender
  cases τ.wg.internals.pauseRequireChan <;> rfl

theorem setManualDNS_flag (addr : IP) (e : Env) (τ : Sys) :
    (setManualDNS addr e τ).2.disconnectRequested = τ.disconnectRequested := by
  unfold setManualDNS
  split
  · rfl
  · have h := isServiceRunning_wg e (τ.setInternals { τ.wg.internals with manualDNS := addr })
    revert h
    rcases isServiceRunning e _ with ⟨⟨r, err⟩, σ₁⟩
    intro h
    dsimp only at h ⊢
    split
    · show σ₁.wg.internals.isDisconnectRequested = _
      rw [h]; rfl
    · show σ₁.wg.internals.isDisconnectRequested = _
      rw [h]; rfl

theorem resetManualDNS_flag (e : Env) (τ : Sys) :
    (resetManualDNS e τ).2.disconnectRequested = τ.disconnectRequested := by
  unfold resetManualDNS
  split
  · rfl
  · have h := isServiceRunning_wg e (τ.setInternals { τ.wg.internals with manualDNS := none })
    revert h
    rcases isServiceRunning e _ with ⟨⟨r, err⟩, σ₁⟩
    intro h
    dsimp only at h ⊢
    split
    · show σ₁.wg.internals.isDisconnectRequested = _
      rw [h]; rfl
    · show σ₁.wg.internals.isDisconnectRequested = _
      rw [h]; rfl

theorem pause_flag (τ : Sys) :
    (WireGuard.pause τ).sys.disconnectRequested = τ.disconnectRequested := by
  have h := requireOperation_flag .pause τ
  unfold WireGuard.pause
  revert h
  cases requireOperation .pause τ <;> exact fun h => h

theorem resume_flag (τ : Sys) :
    (WireGuard.resume τ).sys.disconnectRequested = τ.disconnectRequested := by
  have h := requireOperation_flag .resume τ
  unfold WireGuard.resume
  revert h
  cases requireOperation .resume τ <;> exact fun h => h

theorem applyCall_disconnect_flag (e : Env) (τ : Sys) :
    (applyCall e τ .disconnect).disconnectRequested = true := by
  have h₁ := requireOperation_flag .resume
    (τ.setInternals { τ.wg.internals with isDisconnectRequested := true })
  unfold applyCall
  revert h₁
  cases requireOperation .resume _ with
  | ret a σ₁ => exact fun h₁ => h₁
  | block σ₁ => exact fun h₁ => (parkSender_flag _ σ₁).trans h₁
  | spin σ₁ => exact fun h₁ => h₁

theorem applyCall_flag (e : Env) (τ : Sys) (c : Call) :
    (τ.disconnectRequested = true → (applyCall e τ c).disconnectRequested = true) ∧
    (c ≠ .disconnect → (applyCall e τ c).disconnectRequested = τ.disconnectRequested) := by
  cases c with
  | pause =>
    have h : (applyCall e τ .pause).disconnectRequested = τ.disconnectRequested := by
      have h₁ := pause_flag τ
      unfold applyCall
      revert h₁
      cases WireGuard.pause τ with
      | ret a σ₁ => exact fun h₁ => h₁
      | block σ₁ => exact fun h₁ => (parkSender_flag _ σ₁).trans h₁
      | spin σ₁ => exact fun h₁ => h₁
    exact ⟨fun h' => h.trans h', fun _ => h⟩
  | resume =>
    have h : (applyCall e τ .resume).disconnectRequested = τ.disconnectRequested := by
      have h₁ := resume_flag τ
      unfold applyCall
      revert h₁
      cases WireGuard.resume τ with
      | ret a σ₁ => exact fun h₁ => h₁
      | block σ₁ => exact fun h₁ => (parkSender_flag _ σ₁).trans h₁
      | spin σ₁ => exact fun h₁ => h₁
    exact ⟨fun h' => h.trans h', fun _ => h⟩
  | disconnect => exact ⟨fun _ => applyCall_disconnect_flag e τ, fun h => absurd rfl h⟩
  | setManualDNS addr =>
    have h := setManualDNS_flag addr e τ
    exact ⟨fun h' => h.trans h', fun _ => h⟩
  | resetManualDNS =>
    have h := resetManualDNS_flag e τ
    exact ⟨fun h' => h.trans h', fun _ => h⟩

theorem runOthers_flag (e : Env) : ∀ (cs : List Call) (τ : Sys),
    (τ.disconnectRequested = true → (runOthers e cs τ).disconnectRequested = true) ∧
    (Call.disconnect ∉ cs → (runOthers e cs τ).disconnectRequested = τ.disconnectRequested) := by
  intro cs
  induction cs with
  | nil => exact fun τ => ⟨fun h => h, fun _ => rfl⟩
  | cons c cs ih =>
    intro τ
    obtain ⟨h₁, h₂⟩ := applyCall_flag e τ c
    obtain ⟨i₁, i₂⟩ := ih (applyCall e τ c)
    refine ⟨fun h => i₁ (h₁ h), fun hn => ?_⟩
    have hc : c ≠ .disconnect := fun hc => hn (by rw [hc]; exact List.mem_cons_self _ _)
    have hcs : Call.disconnect ∉ cs := fun hm => hn (List.mem_cons_of_mem _ hm)
    exact (i₂ hcs).trans (h₂ hc)

theorem yield_flag (e : Env) (τ : Sys) : FlagKept e τ (yield e τ) := by
  obtain ⟨h₁, h₂⟩ := runOthers_flag e (e.others τ.step) (τ.tick e)
  exact ⟨fun h => h₁ h, fun hq => h₂ (hq τ.step)⟩

theorem sleep_flag (e : Env) (d : Nat) (τ : Sys) : FlagKept e τ (sleep e d τ) :=
  flagKept_from (yield_flag e { τ with now := τ.now + d }) rfl

theorem uninstallWait_flag (e : Env) (started : Nat) :
    ∀ (fuel : Nat) (v : RetryVars) (τ : Sys),
      FlagKept e τ (uninstallWait fuel e started v τ).sys := by
  intro fuel
  induction fuel with
  | zero => exact fun v τ => flagKept_refl e τ
  | succ n ih =>
    intro v τ
    unfold uninstallWait
    split
    · have h₁ := flagKept_of_wg e (uninstallRetryBody_wg e v τ)
      revert h₁
      rcases uninstallRetryBody e v τ with ⟨_ | err | v₁, σ₁⟩
      · exact fun h₁ => h₁
      · exact fun h₁ => h₁
      · intro h₁
        exact flagKept_trans (flagKept_trans h₁ (sleep_flag e 50 σ₁)) (ih v₁ _)
    · exact flagKept_refl e τ

theorem uninstallConnected_flag (e : Env) (τ : Sys) :
    FlagKept e τ (uninstallConnected e τ).sys := by
  unfold uninstallConnected
  have h₁ := flagKept_of_wg e (openService_wg e τ)
  revert h₁
  rcases openService e τ with ⟨_ | err, σ₁⟩
  · intro h₁
    dsimp only
    have h₂ := flagKept_of_wg e (shellExec_wg e ["/uninstalltunnelservice", getTunnelName σ₁]
      (σ₁.emit (.info "Uninstalling service...")))
    revert h₂
    rcases shellExec e _ _ with ⟨_ | err₁, σ₂⟩
    · intro h₂
      dsimp only
      have h₃ := uninstallWait_flag e σ₂.now uninstallWaitFuel
        { lastUninstallRetryTime := σ₂.now, nextUninstallRetryTime := 3 * second } σ₂
      have h₁₂ : FlagKept e τ σ₂ := flagKept_trans (flagKept_emit h₁ _) h₂
      revert h₃
      cases (uninstallWait uninstallWaitFuel e σ₂.now
        { lastUninstallRetryTime := σ₂.now, nextUninstallRetryTime := 3 * second } σ₂).ended
      · exact fun h₃ => flagKept_emit (flagKept_trans h₁₂ h₃) _
      · exact fun h₃ => flagKept_trans h₁₂ h₃
      · exact fun h₃ => flagKept_trans h₁₂ h₃
      · exact fun h₃ => flagKept_trans h₁₂ h₃
    · exact fun h₂ => flagKept_trans (flagKept_emit h₁ _) h₂
  · exact fun h₁ => h₁

theorem uninstallService_flag (e : Env) (τ : Sys) :
    FlagKept e τ (uninstallService e τ).sys := by
  unfold uninstallService
  have h₀ : FlagKept e τ (mgrConnect e ((τ.emit (.call .uninstallService)).emit .lock)).2 :=
    flagKept_of_wg e rfl
  revert h₀
  rcases mgrConnect e _ with ⟨_ | err, σ₁⟩
  · intro h₀
    dsimp only
    have h₁ := uninstallConnected_flag e σ₁
    revert h₁
    cases uninstallConnected e σ₁ with
    | ret r σ₂ => exact fun h₁ => flagKept_emit (flagKept_emit (flagKept_trans h₀ h₁) _) _
    | block σ₂ => exact fun h₁ => flagKept_trans h₀ h₁
    | spin σ₂ => exact fun h₁ => flagKept_trans h₀ h₁
  · exact fun h₀ => flagKept_emit h₀ _

theorem disconnectInternal_flag (e : Env) (τ : Sys) :
    FlagKept e τ (disconnectInternal e τ).sys := by
  unfold disconnectInternal
  have h₀ : FlagKept e τ (requireOperation .resume
      ((τ.emit (.call .disconnectInternal)).emit (.info "Disconnecting..."))).sys :=
    flagKept_of_flag e (requireOperation_flag .resume _)
  revert h₀
  cases requireOperation .resume _ with
  | ret r σ₁ => exact fun h₀ => flagKept_trans h₀ (uninstallService_flag e σ₁)
  | block σ₁ => exact fun h₀ => h₀
  | spin σ₁ => exact fun h₀ => h₀

theorem disconnect_flag (e : Env) (τ : Sys) :
    (disconnect e τ).sys.disconnectRequested = true :=
  (disconnectInternal_flag e
    (τ.setInternals { τ.wg.internals with isDisconnectRequested := true })).stays rfl

theorem waitInstalled_flag (e : Env) (started : Nat) :
    ∀ (fuel : Nat) (τ : Sys), FlagKept e τ (waitInstalled fuel e started τ).sys := by
  intro fuel
  induction fuel with
  | zero => exact fun τ => flagKept_refl e τ
  | succ n ih =>
    intro τ
    unfold waitInstalled
    split
    · have h₁ := flagKept_of_wg e (openService_wg e τ)
      revert h₁
      rcases openService e τ with ⟨_ | err, σ₁⟩
      · exact fun h₁ => flagKept_emit h₁ _
      · intro h₁
        exact flagKept_trans (flagKept_trans h₁ (sleep_flag e _ σ₁)) (ih _)
    · exact flagKept_refl e τ

theorem waitStarted_flag (e : Env) (started : Nat) :
    ∀ (fuel : Nat) (τ : Sys), FlagKept e τ (waitStarted fuel e started τ).sys := by
  intro fuel
  induction fuel with
  | zero => exact fun τ => flagKept_refl e τ
  | succ n ih =>
    intro τ
    unfold waitStarted
    split
    · have h₁ := flagKept_of_wg e (getServiceStatus_wg e τ)
      revert h₁
      rcases getServiceStatus e τ with ⟨⟨f, st, _ | err⟩, σ₁⟩
      · intro h₁
        dsimp only
        split
        · exact flagKept_emit h₁ _
        · split
          · exact h₁
          · exact flagKept_trans (flagKept_trans h₁ (sleep_flag e _ σ₁)) (ih _)
      · exact fun h₁ => h₁
    · exact flagKept_refl e τ

theorem installConnected_flag (e : Env) (τ : Sys) :
    FlagKept e τ (installConnected e τ).sys := by
  unfold installConnected
  have h₁ : FlagKept e τ (waitInstalled installWaitFuel e τ.now
      (τ.emit (.info "Waiting for service install..."))).sys :=
    flagKept_trans (flagKept_emit (flagKept_refl e τ) _) (waitInstalled_flag e τ.now installWaitFuel _)
  revert h₁
  cases waitInstalled installWaitFuel e τ.now _ with
  | block σ₁ => exact fun h₁ => h₁
  | spin σ₁ => exact fun h₁ => h₁
  | ret isInstalled σ₁ =>
    intro h₁
    cases isInstalled with
    | false => exact h₁
    | true =>
      have h₂ : FlagKept e τ (waitStarted startWaitFuel e σ₁.now
          (σ₁.emit (.info "Waiting for service start..."))).sys :=
        flagKept_trans (flagKept_emit h₁ _) (waitStarted_flag e σ₁.now startWaitFuel _)
      revert h₂
      dsimp only [Res.andThen]
      rw [if_neg (by decide : ¬ (true = false))]
      cases waitStarted startWaitFuel e σ₁.now _ with
      | block σ₂ => exact fun h₂ => h₂
      | spin σ₂ => exact fun h₂ => h₂
      | ret r σ₂ =>
        intro h₂
        cases r with
        | failed err => exact h₂
        | deadline => exact h₂
        | started =>
          dsimp only
          cases σ₂.wg.internals.manualDNS <;> exact flagKept_trans h₂ (flagKept_of_wg e rfl)

theorem installLocked_flag (e : Env) (τ : Sys) :
    FlagKept e τ (installLocked e τ).sys := by
  unfold installLocked
  dsimp only
  cases e.saveConfig τ.step with
  | some err => exact flagKept_of_wg e rfl
  | none =>
    dsimp only
    have g₂ : FlagKept e τ (shellExec e
        ["/installtunnelservice", ((τ.emit (.saveConfig τ.wg.configFilePath)).tick e).wg.configFilePath]
        (((τ.emit (.saveConfig τ.wg.configFilePath)).tick e).emit (.info "Installing service..."))).2 :=
      flagKept_of_wg e rfl
    revert g₂
    rcases shellExec e _ _ with ⟨_ | err, σ₂⟩
    · intro g₂
      dsimp only
      have g₃ : FlagKept e τ (mgrConnect e σ₂).2 := flagKept_trans g₂ (flagKept_of_wg e rfl)
      revert g₃
      rcases mgrConnect e σ₂ with ⟨_ | err, σ₃⟩
      · intro g₃
        dsimp only
        have h₄ := installConnected_flag e σ₃
        revert h₄
        cases installConnected e σ₃ with
        | ret out σ₄ => exact fun h₄ => flagKept_emit (flagKept_trans g₃ h₄) _
        | block σ₄ => exact fun h₄ => flagKept_trans g₃ h₄
        | spin σ₄ => exact fun h₄ => flagKept_trans g₃ h₄
      · exact fun g₃ => g₃
    · exact fun g₂ => g₂

theorem installService_flag (e : Env) (τ : Sys) :
    FlagKept e τ (installService e τ).sys := by
  unfold installService
  have hL : FlagKept e τ (installLocked e
      (((τ.emit (.call .installService)).emit .lock).emit (.info "Connecting..."))).sys :=
    flagKept_from (installLocked_flag e _) rfl
  revert hL
  cases installLocked e _ with
  | block σ₁ => exact fun hL => hL
  | spin σ₁ => exact fun hL => hL
  | ret out σ₁ =>
    intro hL
    simp only [Res.andThen]
    have h₂ : FlagKept e τ (((σ₁.emit (.removeFile σ₁.wg.configFilePath)).tick e).emit .unlock) :=
      flagKept_trans hL (flagKept_of_wg e rfl)
    split
    · have hD : FlagKept e τ (disconnectInternal e
          ((((σ₁.emit (.removeFile σ₁.wg.configFilePath)).tick e).emit .unlock).emit
            (.info "Failed to install service. Uninstalling..."))).sys :=
        flagKept_trans (flagKept_emit h₂ _) (disconnectInternal_flag e _)
      revert hD
      cases disconnectInternal e _ with
      | ret err' σ₃ =>
        intro hD
        cases err' with
        | none => exact hD
        | some e₂ => exact flagKept_emit hD _
      | block σ₃ => exact fun hD => hD
      | spin σ₃ => exact fun hD => hD
    · exact h₂

theorem restartBranch_flag (e : Env) (τ : Sys) :
    FlagKept e τ (restartBranch e τ).sys := by
  unfold restartBranch
  split
  · have h₁ : FlagKept e τ (uninstallService e
        (((τ.setInternals { τ.wg.internals with isRestartRequired := false }).emit
          (.send (.RECONNECTING "Reconnecting with new connection parameters"))).emit
            (.info "Restarting..."))).sys :=
      flagKept_from (uninstallService_flag e _) rfl
    revert h₁
    cases uninstallService e _ with
    | block σ₁ => exact fun h₁ => h₁
    | spin σ₁ => exact fun h₁ => h₁
    | ret r σ₁ =>
      intro h₁
      cases r with
      | some err => exact flagKept_emit h₁ _
      | none =>
        have h₂ := flagKept_trans h₁ (installService_flag e σ₁)
        revert h₂
        dsimp only
        cases installService e σ₁ with
        | block σ₂ => exact fun h₂ => h₂
        | spin σ₂ => exact fun h₂ => h₂
        | ret r₂ σ₂ =>
          intro h₂
          cases r₂ <;> exact flagKept_emit h₂ _
  · exact flagKept_refl e τ

theorem tryRecv_flag (τ : Sys) (o : operation) (σ₁ : Sys) (h : tryRecv τ = some (o, σ₁)) :
    σ₁.disconnectRequested = τ.disconnectRequested := by
  unfold tryRecv at h
  revert h
  cases τ.wg.internals.pauseRequireChan with
  | none => intro h; simp at h
  | some ch =>
    dsimp only
    cases ch.buf with
    | nil => intro h; simp at h
    | cons o' rest =>
      intro h
      simp only [Option.some.injEq, Prod.mk.injEq] at h
      obtain ⟨rfl, rfl⟩ := h
      rfl

theorem recv_flag (e : Env) (τ : Sys) (o : operation) (σ₁ : Sys)
    (h : recv e τ = some (o, σ₁)) : FlagKept e τ σ₁ := by
  unfold recv at h
  revert h
  cases h₁ : tryRecv τ with
  | some r =>
    intro h
    simp only [Option.some.injEq] at h
    subst h
    exact flagKept_of_flag e (tryRecv_flag τ o σ₁ h₁)
  | none =>
    intro h
    exact flagKept_trans (yield_flag e τ) (flagKept_of_flag e (tryRecv_flag _ o σ₁ h))

theorem pausedWait_flag (e : Env) :
    ∀ (fuel : Nat) (τ : Sys), FlagKept e τ (pausedWait fuel e τ).sys := by
  intro fuel
  induction fuel with
  | zero => exact fun τ => flagKept_refl e τ
  | succ n ih =>
    intro τ
    unfold pausedWait
    cases h : recv e τ with
    | none => exact yield_flag e τ
    | some r =>
      rcases r with ⟨o, σ₁⟩
      have h₁ := recv_flag e τ o σ₁ h
      cases o with
      | pause => exact flagKept_trans h₁ (ih σ₁)
      | resume => exact h₁

theorem pauseBranch_flag (fuel : Nat) (e : Env) (defers : Nat) (τ : Sys) :
    FlagKept e τ (pauseBranch fuel e defers τ).sys := by
  unfold pauseBranch
  have h₁ : FlagKept e τ (uninstallService e
      ((τ.setInternals { τ.wg.internals with isPaused := true }).emit (.info "Pausing..."))).sys :=
    flagKept_from (uninstallService_flag e _) rfl
  revert h₁
  cases uninstallService e _ with
  | block σ₁ => exact fun h₁ => h₁
  | spin σ₁ => exact fun h₁ => h₁
  | ret r σ₁ =>
    intro h₁
    cases r with
    | some err => exact flagKept_emit h₁ _
    | none =>
      have h₂ : FlagKept e τ (pausedWait fuel e (σ₁.emit (.info "Paused"))).sys :=
        flagKept_trans (flagKept_emit h₁ _) (pausedWait_flag e fuel _)
      revert h₂
      dsimp only
      cases pausedWait fuel e _ with
      | block σ₂ => exact fun h₂ => h₂
      | spin σ₂ => exact fun h₂ => h₂
      | ret toDo σ₂ =>
        intro h₂
        dsimp only
        cases σ₂.wg.internals.isDisconnectRequested with
        | true => exact h₂
        | false =>
          rw [if_neg (by decide : ¬ (false = true))]
          cases toDo with
          | pause => exact h₂
          | resume =>
            rw [if_pos rfl]
            have h₃ : FlagKept e τ (installService e (σ₂.emit (.info "Resuming..."))).sys :=
              flagKept_trans (flagKept_emit h₂ _) (installService_flag e _)
            revert h₃
            cases installService e _ with
            | block σ₃ => exact fun h₃ => h₃
            | spin σ₃ => exact fun h₃ => h₃
            | ret r₃ σ₃ =>
              intro h₃
              cases r₃ <;> exact flagKept_emit h₃ _

theorem selectBranch_flag (fuel : Nat) (e : Env) (defers : Nat) (τ : Sys) :
    FlagKept e τ (selectBranch fuel e defers τ).sys := by
  unfold selectBranch
  cases h : tryRecv τ with
  | none => exact flagKept_refl e τ
  | some r =>
    rcases r with ⟨o, σ₁⟩
    have h₁ : FlagKept e τ σ₁ := flagKept_of_flag e (tryRecv_flag τ o σ₁ h)
    cases o with
    | pause => exact flagKept_trans h₁ (pauseBranch_flag fuel e defers σ₁)
    | resume => exact h₁

theorem pollBody_flag (fuel : Nat) (e : Env) (defers : Nat) (τ : Sys) :
    FlagKept e τ (pollBody fuel e defers τ).sys := by
  have h₀ := flagKept_of_wg e (getServiceStatus_wg e τ)
  rw [pollBody_eq]
  split
  · exact h₀
  · have h₁ := flagKept_trans h₀ (selectBranch_flag fuel e defers (getServiceStatus e τ).2)
    revert h₁
    cases selectBranch fuel e defers (getServiceStatus e τ).2 with
    | block σ₂ => exact fun h₁ => h₁
    | spin σ₂ => exact fun h₁ => h₁
    | ret r σ₂ =>
      intro h₁
      rcases r with ⟨f, d⟩
      cases f with
      | next =>
        dsimp only
        rw [sys_andThen_ret]
        exact flagKept_trans h₁ (restartBranch_flag e σ₂)
      | leave => exact h₁
      | exit err => exact h₁

theorem pollLoop_flag (e : Env) :
    ∀ (fuel defers : Nat) (τ : Sys), FlagKept e τ (pollLoop fuel e defers τ).sys := by
  intro fuel
  induction fuel with
  | zero => exact fun _ τ => flagKept_refl e τ
  | succ n ih =>
    intro defers τ
    unfold pollLoop
    have h₁ := pollBody_flag n e defers τ
    revert h₁
    cases pollBody n e defers τ with
    | block σ₁ => exact fun h₁ => h₁
    | spin σ₁ => exact fun h₁ => h₁
    | ret r σ₁ =>
      intro h₁
      rcases r with ⟨f, d⟩
      cases f with
      | next => exact flagKept_trans (flagKept_trans h₁ (sleep_flag e _ σ₁)) (ih d _)
      | leave => exact h₁
      | exit err => exact h₁

theorem connectManaged_flag (fuel : Nat) (e : Env) (τ : Sys) :
    FlagKept e τ (connectManaged fuel e τ).sys := by
  unfold connectManaged
  have h₁ := installService_flag e τ
  revert h₁
  cases installService e τ with
  | block σ₁ => exact fun h₁ => h₁
  | spin σ₁ => exact fun h₁ => h₁
  | ret r σ₁ =>
    intro h₁
    cases r with
    | some err => exact h₁
    | none =>
      dsimp only
      split
      · exact flagKept_trans (flagKept_emit h₁ _) (uninstallService_flag e _)
      · have h₂ : FlagKept e τ (pollLoop fuel e 0
            (σ₁.setInternals { σ₁.wg.internals with pauseRequireChan := some Chan.make })).sys :=
          flagKept_trans h₁ (flagKept_from (pollLoop_flag e fuel 0 _) rfl)
        revert h₂
        cases pollLoop fuel e 0 _ with
        | block σ₂ => exact fun h₂ => h₂
        | spin σ₂ => exact fun h₂ => h₂
        | ret r₂ σ₂ =>
          intro h₂
          simp only [Res.andThen]
          split
          · exact flagKept_trans h₂ (flagKept_of_flag e rfl)
          · exact h₂

theorem connectGuarded_flag (fuel : Nat) (e : Env) (τ : Sys) :
    FlagKept e τ (connectGuarded fuel e τ).sys := by
  unfold connectGuarded
  have h₁ := disconnectInternal_flag e τ
  revert h₁
  cases disconnectInternal e τ with
  | block σ₁ => exact fun h₁ => h₁
  | spin σ₁ => exact fun h₁ => h₁
  | ret r σ₁ =>
    intro h₁
    cases r with
    | some err => exact h₁
    | none =>
      simp only [Res.andThen]
      have h₂ : FlagKept e τ (mgrConnect e σ₁).2 := flagKept_trans h₁ (flagKept_of_wg e rfl)
      revert h₂
      rcases mgrConnect e σ₁ with ⟨_ | err, σ₂⟩
      · intro h₂
        dsimp only
        have h₃ := flagKept_trans h₂ (connectManaged_flag fuel e σ₂)
        revert h₃
        cases connectManaged fuel e σ₂ with
        | block σ₃ => exact fun h₃ => h₃
        | spin σ₃ => exact fun h₃ => h₃
        | ret r₃ σ₃ => exact fun h₃ => flagKept_emit h₃ _
      · exact fun h₂ => h₂

theorem connectDeferred_flag (e : Env) (τ : Sys) :
    (connectDeferred e τ).disconnectRequested = τ.disconnectRequested := by
  unfold connectDeferred
  dsimp only
  cases e.dnsResult τ.step <;> rfl

theorem connect_flag (fuel : Nat) (e : Env) (τ : Sys) :
    FlagKept e τ (connect fuel e τ).sys := by
  unfold connect
  split
  · exact flagKept_refl e τ
  · have h₁ := connectGuarded_flag fuel e τ
    revert h₁
    cases connectGuarded fuel e τ with
    | block σ₁ => exact fun h₁ => h₁
    | spin σ₁ => exact fun h₁ => h₁
    | ret r σ₁ =>
      exact fun h₁ => flagKept_trans h₁ (flagKept_of_flag e (connectDeferred_flag e σ₁))

/-- C12: `isDisconnectRequested` is monotonic.  For every state and every
controller operation (`connect`, its loop and every part of a pass, `pause`,
`resume`, `setManualDNS`, `resetManualDNS`, `installService`,
`uninstallService`), a flag that is set is still set afterwards, and the flag
has its old value afterwards unless another goroutine called `disconnect()`
meanwhile.  The same holds of every call made by another goroutine other than
`disconnect()`.  A call of `disconnect()`, on this goroutine or another, leaves
the flag set. -/
theorem isDisconnectRequested_monotonic (fuel defers : Nat) (e : Env) (addr : IP) (σ : Sys) :
    (∀ σ' ∈ operationOutcomes fuel defers e addr σ,
      (σ.wg.internals.isDisconnectRequested = true →
        σ'.wg.internals.isDisconnectRequested = true) ∧
      (e.noDisconnect →
        σ'.wg.internals.isDisconnectRequested = σ.wg.internals.isDisconnectRequested)) ∧
    (∀ c : Call,
      (σ.wg.internals.isDisconnectRequested = true →
        (applyCall e σ c).wg.internals.isDisconnectRequested = true) ∧
      (c ≠ .disconnect →
        (applyCall e σ c).wg.internals.isDisconnectRequested =
          σ.wg.internals.isDisconnectRequested)) ∧
    (disconnect e σ).sys.wg.internals.isDisconnectRequested = true ∧
    (applyCall e σ .disconnect).wg.internals.isDisconnectRequested = true := by
  refine ⟨?_, fun c => applyCall_flag e σ c, disconnect_flag e σ, ?_⟩
  · have key : ∀ σ', FlagKept e σ σ' →
        (σ.wg.internals.isDisconnectRequested = true →
          σ'.wg.internals.isDisconnectRequested = true) ∧
        (e.noDisconnect →
          σ'.wg.internals.isDisconnectRequested = σ.wg.internals.isDisconnectRequested) :=
      fun σ' h => ⟨h.stays, h.same⟩
    intro σ' hσ'
    apply key
    simp only [operationOutcomes, List.mem_cons, List.mem_singleton, List.not_mem_nil,
      or_false] at hσ'
    rcases hσ' with rfl | rfl | rfl | rfl | rfl | rfl | rfl | rfl | rfl | rfl | rfl | rfl |
      rfl | rfl | rfl
    · exact connect_flag fuel e σ
    · exact pollLoop_flag e fuel defers σ
    · exact pollBody_flag fuel e defers σ
    · exact selectBranch_flag fuel e defers σ
    · exact pauseBranch_flag fuel e defers σ
    · exact pausedWait_flag e fuel σ
    · exact restartBranch_flag e σ
    · exact sleep_flag e _ σ
    · exact flagKept_of_flag e (pause_flag σ)
    · exact flagKept_of_flag e (resume_flag σ)
    · exact flagKept_of_flag e (setManualDNS_flag addr e σ)
    · exact flagKept_of_flag e (resetManualDNS_flag e σ)
    · exact installService_flag e σ
    · exact uninstallService_flag e σ
    · exact disconnectInternal_flag e σ
  · exact applyCall_disconnect_flag e σ

theorem isDisconnectRequested_monotonic_witness :
    (disconnectedSys.wg.internals.isDisconnectRequested = true ∧
      (connect 4 pauseDisconnectEnv disconnectedSys).sys.wg.internals.isDisconnectRequested = true) ∧
    (runningEnv.noDisconnect ∧
      (freshSys demoParams).wg.internals.isDisconnectRequested = false ∧
      (uninstallService runningEnv (freshSys demoParams)).sys.wg.internals.isDisconnectRequested =
        (freshSys demoParams).wg.internals.isDisconnectRequested) :=
  ⟨⟨by decide,
    ((isDisconnectRequested_monotonic 4 0 pauseDisconnectEnv none disconnectedSys).1
      (connect 4 pauseDisconnectEnv disconnectedSys).sys
      (by simp [operationOutcomes])).1 (by decide)⟩,
   fun _ => List.not_mem_nil _, rfl,
    ((isDisconnectRequested_monotonic 4 0 runningEnv none (freshSys demoParams)).1
      (uninstallService runningEnv (freshSys demoParams)).sys
      (by simp [operationOutcomes])).2 (fun _ => List.not_mem_nil _)⟩

/-! ### A failed reinstall with a signal waiting on the channel -/

/-- C5, evaluated at the failing input: a restart is requested on a connected
loop, a `pause()` arrives during the wait of the restart's uninstall, and the
reinstall fails.  The cleanup of the failed `installService` calls
`disconnectInternal`, whose send finds the loop's own channel full: `connect` is
parked for good, the error of the restart is never logged, no further poll is
made and the cleanup's `uninstallService` is never started.  Without the
`pause()` the same run logs the error, polls again and returns when it finds
the service gone. -/
theorem failed_restart_parks_loop_on_own_channel :
    (connect 4 (restartFailsEnv true) (freshSys demoParams)).blocked = true ∧
    (connect 4 (restartFailsEnv true) (freshSys demoParams)).returned = false ∧
    events (connect 4 (restartFailsEnv true) (freshSys demoParams)).sys.trace =
      [.CONNECTED (ip4 10 0 0 2) (ip4 1 2 3 4),
       .RECONNECTING "Reconnecting with new connection parameters"] ∧
    calls .installService (connect 4 (restartFailsEnv true) (freshSys demoParams)).sys.trace = 2 ∧
    calls .disconnectInternal (connect 4 (restartFailsEnv true) (freshSys demoParams)).sys.trace = 2 ∧
    calls .uninstallService (connect 4 (restartFailsEnv true) (freshSys demoParams)).sys.trace = 2 ∧
    (connect 4 (restartFailsEnv true) (freshSys demoParams)).sys.trace.drop 56 =
      [.saveConfig "IVPN.conf", .removeFile "IVPN.conf", .unlock,
       .info "Failed to install service. Uninstalling...",
       .call .disconnectInternal, .info "Disconnecting..."] ∧
    Effect.error "failed to restart connection (new connetion error):" ∉
      (connect 4 (restartFailsEnv true) (freshSys demoParams)).sys.trace ∧
    received (connect 4 (restartFailsEnv true) (freshSys demoParams)).sys.trace = [] ∧
    (connect 4 (restartFailsEnv true) (freshSys demoParams)).sys.wg.internals.pauseRequireChan =
      some { cap := 1, buf := [.pause], sendq := [] } ∧
    connect 4 (restartFailsEnv false) (freshSys demoParams) =
      .ret none (connect 4 (restartFailsEnv false) (freshSys demoParams)).sys ∧
    calls .uninstallService (connect 4 (restartFailsEnv false) (freshSys demoParams)).sys.trace = 3 ∧
    (connect 4 (restartFailsEnv false) (freshSys demoParams)).sys.trace.drop 68 =
      [.error "failed to restart connection (new connetion error):", .openService,
       .mgrDisconnect, .dnsDeleteManual, .info "Connection stopped"] ∧
    (restartBranch noConfigEnv pauseRestartSys).blocked = true := by
  decide


/-- C6, evaluated at the failing input: `installService` on a controller whose
control channel holds one signal, with a service that reports the stopped
state.  The install sequence fails, the lock is released, and the cleanup is
parked at the send of `disconnectInternal`: `installService` never returns and
`uninstallService` is never called.  The same happens in a run of `connect`
when a `pause()` arrives during the install of a resume; without that
`pause()` the run makes the cleanup call and returns the error. -/
theorem failed_install_cleanup_parks_before_uninstall :
    (installService stoppedEnv fullChanSys).blocked = true ∧
    (installService stoppedEnv fullChanSys).sys.trace =
      [.call .installService, .lock, .info "Connecting...", .saveConfig "IVPN.conf",
       .info "Installing service...", .exec "wireguard.exe" ["/installtunnelservice", "IVPN.conf"],
       .mgrConnect, .info "Waiting for service install...", .openService,
       .info "Service installed", .info "Waiting for service start...", .openService,
       .interrogate, .mgrDisconnect, .removeFile "IVPN.conf", .unlock,
       .info "Failed to install service. Uninstalling...",
       .call .disconnectInternal, .info "Disconnecting..."] ∧
    calls .uninstallService (installService stoppedEnv fullChanSys).sys.trace = 0 ∧
    (connect 4 (resumeFailsEnv true) (freshSys demoParams)).blocked = true ∧
    (connect 4 (resumeFailsEnv true) (freshSys demoParams)).returned = false ∧
    received (connect 4 (resumeFailsEnv true) (freshSys demoParams)).sys.trace =
      [.pause, .resume] ∧
    calls .installService (connect 4 (resumeFailsEnv true) (freshSys demoParams)).sys.trace = 2 ∧
    calls .disconnectInternal (connect 4 (resumeFailsEnv true) (freshSys demoParams)).sys.trace = 2 ∧
    calls .uninstallService (connect 4 (resumeFailsEnv true) (freshSys demoParams)).sys.trace = 2 ∧
    (connect 4 (resumeFailsEnv true) (freshSys demoParams)).sys.trace.drop 62 =
      [.mgrDisconnect, .removeFile "IVPN.conf", .unlock,
       .info "Failed to install service. Uninstalling...",
       .call .disconnectInternal, .info "Disconnecting..."] ∧
    (connect 4 (resumeFailsEnv true) (freshSys demoParams)).sys.wg.internals.pauseRequireChan =
      some { cap := 1, buf := [.pause], sendq := [] } ∧
    connect 4 (resumeFailsEnv false) (freshSys demoParams) =
      .ret (some (.text "WireGuard service stopped"))
        (connect 4 (resumeFailsEnv false) (freshSys demoParams)).sys ∧
    calls .uninstallService (connect 4 (resumeFailsEnv false) (freshSys demoParams)).sys.trace = 3 := by
  decide

/-! ### Pause signals coalesce for every delivery -/

theorem calls_of_waiting (fn : Fn) {seg : List Effect}
    (h : ∀ x ∈ seg, x.background = true ∨ ∃ o, x = Effect.recv o) : calls fn seg = 0 := by
  unfold calls
  rw [List.count_eq_zero]
  intro hmem
  rcases h _ hmem with hb | ⟨o, ho⟩
  · simp [Effect.background] at hb
  · exact Effect.noConfusion ho

theorem events_of_waiting {seg : List Effect}
    (h : ∀ x ∈ seg, x.background = true ∨ ∃ o, x = Effect.recv o) : events seg = [] := by
  induction seg with
  | nil => rfl
  | cons x xs ih =>
    have hxs := ih (fun y hy => h y (List.mem_cons_of_mem _ hy))
    rcases h x (List.mem_cons_self _ _) with hb | ⟨o, rfl⟩
    · cases x <;> simp_all [events, Effect.background]
    · simp_all [events]

theorem received_of_background {seg : List Effect} (h : ∀ x ∈ seg, x.background = true) :
    received seg = [] :=
  received_of_inner (fun x hx => inner_of_silent x (silent_of_background x (h x hx)))

theorem recv_segment (e : Env) (τ : Sys) (o : operation) (σ₁ : Sys)
    (h : recv e τ = some (o, σ₁)) :
    ∃ seg, σ₁.trace = τ.trace ++ seg ++ [.recv o] ∧ ∀ x ∈ seg, x.background = true := by
  unfold recv at h
  revert h
  cases h₁ : tryRecv τ with
  | some r =>
    intro h
    simp only [Option.some.injEq] at h
    subst h
    exact ⟨[], by rw [tryRecv_before τ o σ₁ h₁]; simp, by simp⟩
  | none =>
    intro h
    obtain ⟨⟨seg, hseg, hb⟩, -, -⟩ :=
      yield_grows e (Grows.refl Effect.background τ) (fun _ hx => hx)
    exact ⟨seg, by rw [tryRecv_before _ o σ₁ h, hseg], hb⟩

theorem pausedWait_segment (e : Env) : ∀ (fuel : Nat) (τ : Sys),
    ∃ seg, (pausedWait fuel e τ).sys.trace = τ.trace ++ seg ∧
      (∀ x ∈ seg, x.background = true ∨ ∃ o, x = Effect.recv o) ∧
      ((∀ σ', pausedWait fuel e τ ≠ .ret .pause σ') ∧
        ((pausedWait fuel e τ).returned = false → ∀ o ∈ received seg, o = .pause)) := by
  intro fuel
  induction fuel with
  | zero =>
    intro τ
    exact ⟨[], by simp [pausedWait, Res.sys], by simp, by simp [pausedWait], by simp [received]⟩
  | succ n ih =>
    intro τ
    cases hr : recv e τ with
    | none =>
      have hp : pausedWait (n + 1) e τ = .block (yield e τ) := by
        rw [pausedWait, hr]
      obtain ⟨⟨seg, hseg, hb⟩, -, -⟩ :=
        yield_grows e (Grows.refl Effect.background τ) (fun _ hx => hx)
      rw [hp]
      refine ⟨seg, hseg, fun x hx => Or.inl (hb x hx), by simp, fun _ => ?_⟩
      rw [received_of_background hb]
      simp
    | some r =>
      rcases r with ⟨o, σ₁⟩
      obtain ⟨seg₀, htr₀, hb₀⟩ := recv_segment e τ o σ₁ hr
      cases o with
      | resume =>
        have hp : pausedWait (n + 1) e τ = .ret .resume σ₁ := by
          rw [pausedWait, hr]
        rw [hp]
        refine ⟨seg₀ ++ [.recv .resume], by rw [← List.append_assoc]; exact htr₀, ?_, by simp,
          by simp [Res.returned]⟩
        intro x hx
        rcases List.mem_append.mp hx with hx | hx
        · exact Or.inl (hb₀ x hx)
        · exact Or.inr ⟨.resume, List.mem_singleton.mp hx⟩
      | pause =>
        have hp : pausedWait (n + 1) e τ = pausedWait n e σ₁ := by
          rw [pausedWait, hr]
        obtain ⟨seg, hseg, hw, hne, hall⟩ := ih σ₁
        rw [hp]
        refine ⟨seg₀ ++ [.recv .pause] ++ seg, by rw [hseg, htr₀]; simp, ?_, hne, ?_⟩
        · intro x hx
          rcases List.mem_append.mp hx with hx | hx
          · rcases List.mem_append.mp hx with hx | hx
            · exact Or.inl (hb₀ x hx)
            · exact Or.inr ⟨.pause, List.mem_singleton.mp hx⟩
          · exact hw x hx
        · intro hret o ho
          rw [received_append, received_append, received_of_background hb₀] at ho
          simp only [List.nil_append, List.mem_append] at ho
          rcases ho with ho | ho
          · simpa [received] using ho
          · exact hall hret o ho

theorem uninstallService_received (e : Env) (τ : Sys) :
    received (uninstallService e τ).sys.trace = received τ.trace := by
  obtain ⟨mid, hsil, htr, -, -, -⟩ := uninstallService_shape e τ
  rw [htr]
  simp only [received_append, received_of_inner (fun x hx => inner_of_silent x (hsil x hx))]
  have h₁ : received (if (uninstallService e τ).returned = true then [Effect.unlock] else []) = [] := by
    split <;> simp [received]
  rw [h₁]
  simp [received]

theorem uninstallService_events (e : Env) (τ : Sys) :
    events (uninstallService e τ).sys.trace = events τ.trace := by
  obtain ⟨mid, hsil, htr, -, -, -⟩ := uninstallService_shape e τ
  rw [htr]
  simp only [events_append, events_of_silent hsil]
  have h₁ : events (if (uninstallService e τ).returned = true then [Effect.unlock] else []) = [] := by
    split <;> simp [events]
  rw [h₁]
  simp [events]

theorem installService_received (e : Env) (τ : Sys) :
    received (installService e τ).sys.trace = received τ.trace := by
  have h := installService_shape e τ
  revert h
  cases hres : installService e τ with
  | ret r σ' =>
    cases r with
    | none =>
      rintro ⟨body, hb, htr, -⟩
      show received σ'.trace = _
      rw [htr]
      simp only [received_append, received_of_inner hb]
      simp [received]
    | some err =>
      rintro ⟨body, mid, logs, hb, hm, hl, htr, -⟩
      show received σ'.trace = _
      rw [htr]
      simp only [received_append, received_of_inner hb,
        received_of_inner (fun x hx => inner_of_silent x (hm x hx)), received_of_background hl]
      simp [received]
  | block σ' =>
    rintro ⟨body, hb, htr, -⟩
    show received σ'.trace = _
    rw [htr]
    simp only [received_append, received_of_inner hb]
    simp [received]
  | spin σ' => exact fun _ => absurd hres (installService_not_spin e τ σ')

/-- C7: consecutive `Pause` signals coalesce, however the signals are delivered.
Let the `select` of a pass of the connected loop receive `n + 1` times `Pause`
and then one `Resume` (waiting on the channel or sent while the loop is paused),
with no disconnect requested.  Then the first `Pause` was taken by the `select`,
`uninstallService` returned nil, and the paused wait took the other `Pause`
signals and the `Resume`: up to there `uninstallService` was called exactly
once, `installService` not at all and no record was sent.  `installService` is
then called exactly once, whatever it returns.  When it returns nil the `select`
ends with one uninstall in all, `CONNECTED` sent, and the pass goes on to the
restart check; when it returns an error `connect` returns it, and when its
cleanup is parked so is the loop. -/
theorem pause_signals_coalesce_any_delivery (n fuel d : Nat) (e : Env) (σ₀ : Sys)
    (hnd : e.noDisconnect)
    (hdis : σ₀.wg.internals.isDisconnectRequested = false)
    (hrecv : received (selectBranch fuel e d σ₀).sys.trace =
      received σ₀.trace ++ List.replicate (n + 1) .pause ++ [.resume]) :
    ∃ σ₁ τ₁ τ₂,
      tryRecv σ₀ = some (.pause, σ₁) ∧
      uninstallService e
        ((σ₁.setInternals { σ₁.wg.internals with isPaused := true }).emit (.info "Pausing...")) =
          .ret none τ₁ ∧
      pausedWait fuel e (τ₁.emit (.info "Paused")) = .ret .resume τ₂ ∧
      received τ₂.trace = received σ₀.trace ++ List.replicate (n + 1) .pause ++ [.resume] ∧
      calls .uninstallService τ₂.trace = calls .uninstallService σ₀.trace + 1 ∧
      calls .installService τ₂.trace = calls .installService σ₀.trace ∧
      events τ₂.trace = events σ₀.trace ∧
      τ₂.wg.internals.isDisconnectRequested = false ∧
      calls .installService (selectBranch fuel e d σ₀).sys.trace =
        calls .installService σ₀.trace + 1 ∧
      (∀ σ₃, installService e (τ₂.emit (.info "Resuming...")) = .ret none σ₃ →
        selectBranch fuel e d σ₀ = .ret (.next, d + 1) (σ₃.emit (.info "Resumed")) ∧
        calls .uninstallService (σ₃.emit (.info "Resumed")).trace =
          calls .uninstallService σ₀.trace + 1 ∧
        events (σ₃.emit (.info "Resumed")).trace = events σ₀.trace ++
          [.CONNECTED τ₂.wg.connectParams.clientLocalIP τ₂.wg.connectParams.hostIP] ∧
        ∀ σ, (getServiceStatus e σ).2 = σ₀ → statusEnds (getServiceStatus e σ).1 = false →
          pollBody fuel e d σ =
            (restartBranch e (σ₃.emit (.info "Resumed"))).andThen fun f σ₄ => .ret (f, d + 1) σ₄) ∧
      (∀ err σ₃, installService e (τ₂.emit (.info "Resuming...")) = .ret (some err) σ₃ →
        selectBranch fuel e d σ₀ = .ret (.exit err, d + 1)
          (σ₃.emit (.error "failed to resume connection (new connetion error):"))) ∧
      (∀ σ₃, installService e (τ₂.emit (.info "Resuming...")) = .block σ₃ →
        selectBranch fuel e d σ₀ = .block σ₃) ∧
      (∀ σ₃, installService e (τ₂.emit (.info "Resuming...")) ≠ .spin σ₃) := by
  have hne : ∀ l : List operation,
      received σ₀.trace ++ l = received σ₀.trace ++ List.replicate (n + 1) .pause ++ [.resume] →
      l = List.replicate (n + 1) .pause ++ [.resume] := by
    intro l h
    rw [List.append_assoc] at h
    exact List.append_cancel_left h
  cases h₀ : tryRecv σ₀ with
  | none =>
    exfalso
    have hsel : selectBranch fuel e d σ₀ = .ret (.next, d) σ₀ := by
      unfold selectBranch; rw [h₀]
    rw [hsel] at hrecv
    have := congrArg List.length (hne [] (by simp [Res.sys] at hrecv))
    simp at this
  | some r =>
    rcases r with ⟨o, σ₁⟩
    have htr₁ := tryRecv_before σ₀ o σ₁ h₀
    cases o with
    | resume =>
      exfalso
      have hsel : selectBranch fuel e d σ₀ = .ret (.next, d) σ₁ := by
        unfold selectBranch; rw [h₀]
      rw [hsel] at hrecv
      have hr₁ : received σ₁.trace = received σ₀.trace ++ [.resume] := by
        rw [htr₁, received_append]; rfl
      have := congrArg List.length (hne [.resume] (by rw [← hr₁]; exact hrecv))
      simp at this
    | pause =>
      have hsel : selectBranch fuel e d σ₀ = pauseBranch fuel e d σ₁ := by
        unfold selectBranch; rw [h₀]
      have hUr := uninstallService_returns e
        ((σ₁.setInternals { σ₁.wg.internals with isPaused := true }).emit (.info "Pausing..."))
      have hUrec := uninstallService_received e
        ((σ₁.setInternals { σ₁.wg.internals with isPaused := true }).emit (.info "Pausing..."))
      have hUev := uninstallService_events e
        ((σ₁.setInternals { σ₁.wg.internals with isPaused := true }).emit (.info "Pausing..."))
      have hUc := fun fn => uninstallService_calls fn e
        ((σ₁.setInternals { σ₁.wg.internals with isPaused := true }).emit (.info "Pausing..."))
      have hUf := (uninstallService_flag e
        ((σ₁.setInternals { σ₁.wg.internals with isPaused := true }).emit (.info "Pausing..."))).same hnd
      have hs₁r : received ((σ₁.setInternals { σ₁.wg.internals with isPaused := true }).emit
          (.info "Pausing...")).trace = received σ₀.trace ++ [.pause] := by
        show received (σ₁.trace ++ [Effect.info "Pausing..."]) = _
        rw [htr₁]
        simp [received]
      have hs₁e : events ((σ₁.setInternals { σ₁.wg.internals with isPaused := true }).emit
          (.info "Pausing...")).trace = events σ₀.trace := by
        show events (σ₁.trace ++ [Effect.info "Pausing..."]) = _
        rw [htr₁]
        simp [events]
      have hs₁c : ∀ fn, calls fn ((σ₁.setInternals { σ₁.wg.internals with isPaused := true }).emit
          (.info "Pausing...")).trace = calls fn σ₀.trace := by
        intro fn
        show calls fn (σ₁.trace ++ [Effect.info "Pausing..."]) = _
        rw [htr₁]
        simp [calls]
      have hs₁f : ((σ₁.setInternals { σ₁.wg.internals with isPaused := true }).emit
          (.info "Pausing...")).disconnectRequested = false :=
        (tryRecv_flag σ₀ .pause σ₁ h₀).trans hdis
      unfold pauseBranch at hsel
      cases hU : uninstallService e
        ((σ₁.setInternals { σ₁.wg.internals with isPaused := true }).emit (.info "Pausing...")) with
      | block τ₁ => rw [hU] at hUr; simp [Res.returned] at hUr
      | spin τ₁ => rw [hU] at hUr; simp [Res.returned] at hUr
      | ret r τ₁ =>
        rw [hU] at hUrec hUev hUc hUf hsel
        simp only [Res.sys] at hUrec hUev hUc hUf
        cases r with
        | some err =>
          exfalso
          rw [hsel] at hrecv
          have hr₂ : received (τ₁.emit
              (.error "failed to pause connection (disconnetion error):")).trace =
              received σ₀.trace ++ [.pause] := by
            show received (τ₁.trace ++ [Effect.error _]) = _
            rw [received_append, hUrec, hs₁r]
            simp [received]
          have := congrArg List.length (hne [.pause] (by rw [← hr₂]; exact hrecv))
          simp at this
        | none =>
          dsimp only at hsel
          obtain ⟨seg, hseg, hw, hnp, hall⟩ := pausedWait_segment e fuel (τ₁.emit (.info "Paused"))
          have hWf := (pausedWait_flag e fuel (τ₁.emit (.info "Paused"))).same hnd
          have hrec₂ : received (pausedWait fuel e (τ₁.emit (.info "Paused"))).sys.trace =
              received σ₀.trace ++ ([.pause] ++ received seg) := by
            rw [hseg]
            show received (τ₁.trace ++ [Effect.info "Paused"] ++ seg) = _
            rw [received_append, received_append, hUrec, hs₁r]
            simp [received]
          have hblocked : (pausedWait fuel e (τ₁.emit (.info "Paused"))).returned = false →
              (selectBranch fuel e d σ₀).sys =
                (pausedWait fuel e (τ₁.emit (.info "Paused"))).sys → False := by
            intro hret hcon
            rw [hcon, hrec₂] at hrecv
            have hl := hne _ hrecv
            have hmem : operation.resume ∈ [operation.pause] ++ received seg := by
              rw [hl]; simp
            rcases List.mem_append.mp hmem with hm | hm
            · simp at hm
            · exact absurd (hall hret _ hm) (by decide)
          cases hW : pausedWait fuel e (τ₁.emit (.info "Paused")) with
          | block τ₂ =>
            exfalso
            rw [hW] at hsel hblocked
            exact hblocked rfl ((congrArg Res.sys hsel).trans rfl)
          | spin τ₂ =>
            exfalso
            rw [hW] at hsel hblocked
            exact hblocked rfl ((congrArg Res.sys hsel).trans rfl)
          | ret o τ₂ =>
            rw [hW] at hsel hseg hnp hWf hrec₂
            simp only [Res.sys] at hseg hWf hrec₂
            cases o with
            | pause => exact absurd rfl (hnp τ₂)
            | resume =>
              have hflag : τ₂.wg.internals.isDisconnectRequested = false :=
                hWf.trans (hUf.trans hs₁f)
              dsimp only at hsel
              rw [if_neg (by rw [hflag]; decide), if_pos rfl] at hsel
              have hIrec := installService_received e (τ₂.emit (.info "Resuming..."))
              have hIc := installService_calls_install e (τ₂.emit (.info "Resuming..."))
              have hIs := installService_shape e (τ₂.emit (.info "Resuming..."))
              have hIn := installService_not_spin e (τ₂.emit (.info "Resuming..."))
              have hc₂ : ∀ fn, calls fn τ₂.trace =
                  calls fn σ₀.trace + (if fn = .uninstallService then 1 else 0) := by
                intro fn
                rw [hseg]
                show calls fn (τ₁.trace ++ [Effect.info "Paused"] ++ seg) = _
                rw [calls_append, calls_append, calls_of_waiting fn hw, hUc fn, hs₁c fn]
                simp [calls]
              have he₂ : events τ₂.trace = events σ₀.trace := by
                rw [hseg]
                show events (τ₁.trace ++ [Effect.info "Paused"] ++ seg) = _
                rw [events_append, events_append, events_of_waiting hw, hUev, hs₁e]
                simp [events]
              have hselrec : received (selectBranch fuel e d σ₀).sys.trace = received τ₂.trace := by
                rw [hsel]
                revert hIrec
                cases installService e (τ₂.emit (.info "Resuming...")) with
                | block σ₃ => intro h; simpa [Res.sys, Sys.emit, received_append, received] using h
                | spin σ₃ => intro h; simpa [Res.sys, Sys.emit, received_append, received] using h
                | ret r₃ σ₃ =>
                  cases r₃ <;>
                    (intro h; simpa [Res.sys, Sys.emit, received_append, received] using h)
              have hselc : calls .installService (selectBranch fuel e d σ₀).sys.trace =
                  calls .installService σ₀.trace + 1 := by
                rw [hsel]
                have h₂ := hc₂ .installService
                simp only [reduceCtorEq, if_false, Nat.add_zero] at h₂
                have h₃ : calls .installService (τ₂.emit (.info "Resuming...")).trace =
                    calls .installService σ₀.trace := by
                  rw [calls_emit_inner _ _ (.info _) rfl, h₂]
                rw [h₃] at hIc
                revert hIc
                cases installService e (τ₂.emit (.info "Resuming...")) with
                | block σ₃ => exact fun h => h
                | spin σ₃ => exact fun h => h
                | ret r₃ σ₃ =>
                  cases r₃ with
                  | none =>
                    intro h
                    show calls _ (σ₃.emit _).trace = _
                    rw [calls_emit_inner _ _ (.info _) rfl]
                    exact h
                  | some err =>
                    intro h
                    show calls _ (σ₃.emit _).trace = _
                    rw [calls_emit_inner _ _ (.error _) rfl]
                    exact h
              refine ⟨σ₁, τ₁, τ₂, rfl, hU, hW, by rw [← hselrec]; exact hrecv, ?_, ?_, he₂, hflag,
                hselc, ?_, ?_, ?_, hIn⟩
              · simpa using hc₂ .uninstallService
              · simpa using hc₂ .installService
              · intro σ₃ hI
                rw [hI] at hsel hIs
                obtain ⟨body, hb, htr, hev, -, -⟩ := hIs
                refine ⟨hsel, ?_, ?_, ?_⟩
                · rw [calls_emit_inner _ _ (.info _) rfl, htr]
                  simp only [calls_append, calls_of_inner _ hb,
                    calls_emit_inner _ τ₂ (.info "Resuming...") rfl, hc₂ .uninstallService]
                  simp [calls]
                · show events (σ₃.trace ++ [Effect.info "Resumed"]) = _
                  rw [events_append, hev]
                  show events (τ₂.trace ++ [Effect.info "Resuming..."]) ++ _ ++ _ = _
                  rw [events_append, he₂]
                  simp [events]
                  exact ⟨rfl, rfl⟩
                · intro σ hσ hst
                  rw [pollBody_eq, if_neg (by rw [hst]; decide), hσ, hsel]
              · intro err σ₃ hI
                rw [hI] at hsel
                exact hsel
              · intro σ₃ hI
                rw [hI] at hsel
                exact hsel

theorem pause_signals_coalesce_any_delivery_witness :
    pausedSignalsEnv.noDisconnect ∧
    (getServiceStatus pausedSignalsEnv fullChanSys).2.wg.internals.isDisconnectRequested = false ∧
    received (selectBranch 3 pausedSignalsEnv 0
      (getServiceStatus pausedSignalsEnv fullChanSys).2).sys.trace = [.pause, .pause, .resume] ∧
    calls .installService (selectBranch 3 pausedSignalsEnv 0
      (getServiceStatus pausedSignalsEnv fullChanSys).2).sys.trace = 1 ∧
    calls .uninstallService (selectBranch 3 pausedSignalsEnv 0
      (getServiceStatus pausedSignalsEnv fullChanSys).2).sys.trace = 1 ∧
    (selectBranch 3 pausedSignalsEnv 0
      (getServiceStatus pausedSignalsEnv fullChanSys).2).returned = true := by
  have hnd : pausedSignalsEnv.noDisconnect := by
    intro k
    by_cases hk : k = 6 <;> simp [pausedSignalsEnv, hk]
  have h := pause_signals_coalesce_any_delivery 1 3 0 pausedSignalsEnv
    (getServiceStatus pausedSignalsEnv fullChanSys).2 hnd (by decide) (by decide)
  obtain ⟨σ₁, τ₁, τ₂, -, -, -, -, -, -, -, -, hc, -, -, -, -⟩ := h
  exact ⟨hnd, by decide, by decide, hc, by decide, by decide⟩

end WG
